import Mathlib

/-!
# Flight Operations Manager: seat inventory and booking engine

A shallow embedding of `models/Seat.cpp`, `models/Passenger.cpp`,
`models/Flight.cpp` and `models/Airline.cpp`.

* `Passenger*` and `std::unique_ptr<Passenger>` are addresses (`PassengerRef`);
  the null pointer is `none`.  The objects themselves live in a `Heap`, which
  every operation that writes through a pointer threads explicitly.
* `std::map<QString, std::unique_ptr<Seat>>` is an association list kept in
  key order (`SeatMap`); an iterator write (`it->second->...`) is `SeatMap.store`.
* `double` prices are rationals; `QRandomGenerator::bounded` is a parameter
  `gen`, indexed by the row whose price it draws.
* `int` arithmetic in `Airline::isSeatValid` wraps (`wrapInt32`); the Qt
  library calls `QChar::isLetter` and `QStringView::toInt` are modelled from
  their documentation.
-/

namespace FlightOps

/-! ## Passenger -/

/-- Address of a `Passenger` object. -/
abbrev PassengerRef := Nat

/-- Fields of `class Passenger`; `assignedSeat` is the `Seat*` back pointer,
named by the seat number it points to. -/
structure Passenger where
  firstName : String
  lastName : String
  phoneNumber : String
  email : String
  seatNumber : String
  assignedSeat : Option String
deriving DecidableEq, Repr, Inhabited

/-- All `Passenger` objects, by address. -/
abbrev Heap := PassengerRef → Passenger

/-- Embeds `Passenger::getSeatNumber`. -/
def Passenger.getSeatNumber (p : Passenger) : String := p.seatNumber

/-- Embeds `Passenger::setSeatNumber`. -/
def Passenger.setSeatNumber (p : Passenger) (number : String) : Passenger :=
  { p with seatNumber := number }

/-- Embeds `Passenger::unassignSeat`: `seatNumber.clear(); assignedSeat = nullptr;`. -/
def Passenger.unassignSeat (p : Passenger) : Passenger :=
  { p with seatNumber := "", assignedSeat := none }

/-- Embeds `Passenger::hasSeat`. -/
def Passenger.hasSeat (p : Passenger) : Bool := !(p.seatNumber == "")

/-! ## Seat -/

/-- Embeds `Seat::Status`. -/
inductive Status where
  | Available
  | Occupied
  | Reserved
  | Blocked
deriving DecidableEq, Repr, Inhabited

/-- Fields of `class Seat`. -/
structure Seat where
  number : String
  seatClass : String
  price : ℚ
  row : Int
  col : Int
  status : Status
  passenger : Option PassengerRef
deriving DecidableEq, Repr, Inhabited

/-- Embeds `Seat::Seat(number, seatClass, row, col)`. -/
def Seat.new (number seatClass : String) (row col : Int) : Seat :=
  { number := number, seatClass := seatClass, price := 0, row := row, col := col,
    status := Status.Available, passenger := none }

def Seat.isOccupied (s : Seat) : Bool := decide (s.status = Status.Occupied)
def Seat.isAvailable (s : Seat) : Bool := decide (s.status = Status.Available)
def Seat.isReserved (s : Seat) : Bool := decide (s.status = Status.Reserved)
def Seat.isBlocked (s : Seat) : Bool := decide (s.status = Status.Blocked)

def Seat.setPrice (s : Seat) (price : ℚ) : Seat := { s with price := price }
def Seat.setSeatClass (s : Seat) (seatClass : String) : Seat := { s with seatClass := seatClass }

/-- Embeds `Seat::setPassenger`: the result and the seat afterwards. -/
def Seat.setPassenger (s : Seat) (newPassenger : Option PassengerRef) : Bool × Seat :=
  if s.passenger = newPassenger then (true, s)
  else if !s.isAvailable && newPassenger.isSome then (false, s)
  else (true, { s with passenger := newPassenger,
                       status := if newPassenger.isSome then Status.Occupied
                                 else Status.Available })

/-- Embeds `Seat::clearPassenger`: the seat afterwards and the heap, in which the
passenger the seat pointed to has been unassigned. -/
def Seat.clearPassenger (s : Seat) (h : Heap) : Seat × Heap :=
  let h1 : Heap :=
    match s.passenger with
    | some p => Function.update h p (h p).unassignSeat
    | none => h
  ({ s with passenger := none, status := Status.Available }, h1)

/-- Embeds `Seat::occupy`. -/
def Seat.occupy (s : Seat) : Bool × Seat :=
  if s.isAvailable then (true, { s with status := Status.Occupied }) else (false, s)

/-- Embeds `Seat::vacate`. -/
def Seat.vacate (s : Seat) (h : Heap) : Seat × Heap := s.clearPassenger h

/-- Embeds `Seat::reserve`. -/
def Seat.reserve (s : Seat) : Bool × Seat :=
  if s.isAvailable then (true, { s with status := Status.Reserved }) else (false, s)

/-- Embeds `Seat::unreserve`. -/
def Seat.unreserve (s : Seat) : Bool × Seat :=
  if s.isReserved then (true, { s with status := Status.Available }) else (false, s)

/-- Embeds `Seat::block`. -/
def Seat.block (s : Seat) : Bool × Seat :=
  if s.isAvailable || s.isReserved then (true, { s with status := Status.Blocked })
  else (false, s)

/-- Embeds `Seat::unblock`. -/
def Seat.unblock (s : Seat) : Bool × Seat :=
  if s.isBlocked then (true, { s with status := Status.Available }) else (false, s)

/-! ## The seat map -/

/-- The flight's `std::map<QString, std::unique_ptr<Seat>>`, in key order. -/
abbrev SeatMap := List (String × Seat)

/-- Embeds `seats.find(k)`: the seat stored under `k`, if any. -/
def SeatMap.find : SeatMap → String → Option Seat
  | [], _ => none
  | (k1, v) :: rest, k => if k1 = k then some v else SeatMap.find rest k

/-- Embeds `seats[k] = v`: insert in key order, or replace the seat stored under `k`.
`QString` keys are ordered by their code units, here the character lists. -/
def SeatMap.assign : SeatMap → String → Seat → SeatMap
  | [], k, v => [(k, v)]
  | (k1, v1) :: rest, k, v =>
    if k.data < k1.data then (k, v) :: (k1, v1) :: rest
    else if k = k1 then (k, v) :: rest
    else (k1, v1) :: SeatMap.assign rest k v

/-- Write through the iterator `seats.find(k)`: the seat under `k` becomes `v`. -/
def SeatMap.store : SeatMap → String → Seat → SeatMap
  | [], _, _ => []
  | (k1, v1) :: rest, k, v =>
    if k1 = k then (k1, v) :: rest else (k1, v1) :: SeatMap.store rest k v

/-! ## Flight -/

/-- Fields of `class Flight` (the deprecated GUI `seatLayout` apart).  The
roster `passengers` holds the owned passengers, never a null pointer. -/
structure Flight where
  flightNumber : String
  origin : String
  destination : String
  departureTime : Int
  rows : Int
  cols : Int
  basePrice : ℚ
  seats : SeatMap
  passengers : List PassengerRef

def kRows : Nat := 64
def kCols : Nat := 10

/-- The row layouts listed in `kRowSeatLetters`. -/
def kRowSeatLetters : List (Nat × List String) :=
  [ (1, ["A","D","G","L"]), (2, ["A","D","G","L"]),
    (3, ["A","D","G","L"]), (4, ["A","D","G","L"]),
    (5, ["A","D","G","L"]), (6, ["A","D","G","L"]),
    (7, ["A","D","G","L"]),
    (8, ["A","B","D","E","F","G","J","L"]), (9, ["A","B","D","E","F","G","J","L"]),
    (10, ["A","B","D","E","F","G","J","L"]), (11, ["A","B","D","E","F","G","J","L"]),
    (12, ["A","B","D","E","F","G","J","L"]), (13, ["A","B","D","E","F","G","J","L"]),
    (14, ["A","B","D","E","F","G","J","L"]), (15, ["A","B","D","E","F","G","J","L"]),
    (16, ["A","B","D","E","F","G","J","L"]), (17, ["A","B","D","E","F","G","J","L"]),
    (18, ["A","B","D","E","F","G","J","L"]) ]

/-- Embeds `getSeatLettersForRow`: the listed layout, or the economy default. -/
def getSeatLettersForRow (row : Nat) : List String :=
  match kRowSeatLetters.lookup row with
  | some letters => letters
  | none => ["A","B","C","D","E","F","G","H","J","L"]

/-- Embeds `static_cast<int>` of a `double`: truncation towards zero. -/
def truncToInt (x : ℚ) : Int := if 0 ≤ x then ⌊x⌋ else ⌈x⌉

/-- The seat number `QString::number(r) + letter`. -/
def seatNumberOf (r : Nat) (letter : String) : String := toString r ++ letter

/-- One turn of the row loop of `Flight::initializeSeats`: class and price of
row `r`, then one seat per letter of the row. -/
def initializeSeatsRow (basePrice : ℚ) (gen : Nat → Int → Int) (seats : SeatMap) (r : Nat) :
    SeatMap :=
  let letters := getSeatLettersForRow r
  let cp : String × ℚ :=
    if r ≤ 7 then ("First", basePrice * 3 + gen r (truncToInt basePrice))
    else if r ≤ 11 then ("Business", basePrice * 2 + gen r (truncToInt (basePrice / 2)))
    else if r ≤ 18 then ("Premium", basePrice * (3 / 2) + gen r (truncToInt (basePrice / (5 / 2))))
    else ("Economy", basePrice + gen r (truncToInt (basePrice / 5)))
  letters.foldl
    (fun m letter =>
      let sn := seatNumberOf r letter
      let seat := ((Seat.new sn cp.1 r (letters.indexOf letter)).setPrice cp.2).setSeatClass cp.1
      SeatMap.assign m sn seat)
    seats

/-- Embeds `Flight::initializeSeats`. -/
def Flight.initializeSeats (f : Flight) (gen : Nat → Int → Int) : Flight :=
  { f with
    seats := (List.range' 1 kRows).foldl (initializeSeatsRow f.basePrice gen) []
    rows := kRows
    cols := kCols }

/-- The constructor `Flight::Flight(flightNumber, origin, destination, departureTime, basePrice)`. -/
def Flight.new (flightNumber origin destination : String) (departureTime : Int)
    (basePrice : ℚ) (gen : Nat → Int → Int) : Flight :=
  Flight.initializeSeats
    { flightNumber := flightNumber, origin := origin, destination := destination,
      departureTime := departureTime, rows := kRows, cols := kCols,
      basePrice := basePrice, seats := [], passengers := [] }
    gen


/-- Embeds `Flight::isSeatValid`. -/
def Flight.isSeatValid (f : Flight) (seatNumber : String) : Bool :=
  (SeatMap.find f.seats seatNumber).isSome

/-- Embeds `Flight::isSeatAvailable`. -/
def Flight.isSeatAvailable (f : Flight) (seatNumber : String) : Bool :=
  match SeatMap.find f.seats seatNumber with
  | some seat => seat.isAvailable
  | none => false

/-- Embeds `Flight::isSeatOccupied`. -/
def Flight.isSeatOccupied (f : Flight) (seatNumber : String) : Bool :=
  match SeatMap.find f.seats seatNumber with
  | some seat => seat.isOccupied
  | none => false

/-- Embeds `Flight::assignSeat`: the result, the flight and the heap afterwards. -/
def Flight.assignSeat (f : Flight) (h : Heap) (passenger : Option PassengerRef)
    (seatNumber : String) : Bool × Flight × Heap :=
  match passenger with
  | none => (false, f, h)
  | some p =>
    if !f.isSeatValid seatNumber then (false, f, h)
    else
      match SeatMap.find f.seats seatNumber with
      | none => (false, f, h)
      | some seat =>
        if !seat.isAvailable then (false, f, h)
        else
          let r := seat.setPassenger (some p)
          let f1 : Flight := { f with seats := SeatMap.store f.seats seatNumber r.2 }
          if r.1 then (true, f1, Function.update h p ((h p).setSeatNumber seatNumber))
          else (false, f1, h)

/-- Embeds `Flight::unassignSeat`. -/
def Flight.unassignSeat (f : Flight) (h : Heap) (seatNumber : String) : Bool × Flight × Heap :=
  if !f.isSeatValid seatNumber then (false, f, h)
  else
    match SeatMap.find f.seats seatNumber with
    | none => (false, f, h)
    | some seat =>
      let r := seat.clearPassenger h
      (true, { f with seats := SeatMap.store f.seats seatNumber r.1 }, r.2)

/-- Embeds `Flight::bookSeat`: `assignSeat(nullptr, seatNumber)`. -/
def Flight.bookSeat (f : Flight) (h : Heap) (seatNumber : String) : Bool × Flight × Heap :=
  f.assignSeat h none seatNumber

/-- Embeds `Flight::cancelSeat`. -/
def Flight.cancelSeat (f : Flight) (h : Heap) (seatNumber : String) : Bool × Flight × Heap :=
  f.unassignSeat h seatNumber

/-- Embeds `Flight::addPassenger`; the argument is the address the `unique_ptr` holds. -/
def Flight.addPassenger (f : Flight) (h : Heap) (passenger : Option PassengerRef) :
    Bool × Flight × Heap :=
  match passenger with
  | none => (false, f, h)
  | some p =>
    let sn := (h p).getSeatNumber
    if sn ≠ "" then
      let r := f.assignSeat h (some p) sn
      if !r.1 then (false, r.2.1, r.2.2)
      else (true, { r.2.1 with passengers := r.2.1.passengers ++ [p] }, r.2.2)
    else (true, { f with passengers := f.passengers ++ [p] }, h)

/-- Embeds `passengers.erase(it)` for `it` the first element satisfying `pred`. -/
def eraseFirst (pred : PassengerRef → Bool) : List PassengerRef → List PassengerRef
  | [] => []
  | p :: rest => if pred p then rest else p :: eraseFirst pred rest

/-- Embeds `Flight::getPassenger`: the first roster passenger carrying `seatNumber`. -/
def Flight.getPassenger (f : Flight) (h : Heap) (seatNumber : String) : Option PassengerRef :=
  if seatNumber = "" then none
  else f.passengers.find? (fun p => decide ((h p).getSeatNumber = seatNumber))

/-- Embeds `Flight::removePassenger`. -/
def Flight.removePassenger (f : Flight) (h : Heap) (seatNumber : String) :
    Bool × Flight × Heap :=
  if seatNumber = "" then (false, f, h)
  else
    match f.passengers.find? (fun p => decide ((h p).getSeatNumber = seatNumber)) with
    | none => (false, f, h)
    | some _ =>
      let r := f.unassignSeat h seatNumber
      (true,
       { r.2.1 with
         passengers := eraseFirst (fun p => decide ((h p).getSeatNumber = seatNumber))
                         r.2.1.passengers },
       r.2.2)

/-- Embeds `Flight::getAvailableSeats`. -/
def Flight.getAvailableSeats (f : Flight) : List String :=
  (f.seats.filter (fun pr => pr.2.isAvailable)).map Prod.fst

/-- Embeds `Flight::getAllPassengers`. -/
def Flight.getAllPassengers (f : Flight) : List PassengerRef := f.passengers

/-- The shape shared by `reserveSeat`, `cancelReservation`, `blockSeat`, `unblockSeat`:
`it != seats.end() && it->second->op()`. -/
def Flight.onSeat (f : Flight) (seatNumber : String) (op : Seat → Bool × Seat) : Bool × Flight :=
  match SeatMap.find f.seats seatNumber with
  | none => (false, f)
  | some seat => ((op seat).1, { f with seats := SeatMap.store f.seats seatNumber (op seat).2 })

/-- Embeds `Flight::reserveSeat`. -/
def Flight.reserveSeat (f : Flight) (seatNumber : String) : Bool × Flight :=
  f.onSeat seatNumber Seat.reserve

/-- Embeds `Flight::cancelReservation`. -/
def Flight.cancelReservation (f : Flight) (seatNumber : String) : Bool × Flight :=
  f.onSeat seatNumber Seat.unreserve

/-- Embeds `Flight::blockSeat`. -/
def Flight.blockSeat (f : Flight) (seatNumber : String) : Bool × Flight :=
  f.onSeat seatNumber Seat.block

/-- Embeds `Flight::unblockSeat`. -/
def Flight.unblockSeat (f : Flight) (seatNumber : String) : Bool × Flight :=
  f.onSeat seatNumber Seat.unblock

/-! ## Airline -/

/-- Fields of `class Airline`. -/
structure Airline where
  name : String
  flights : List Flight

/-- Embeds `Airline::getFlight`: the first flight with the given number. -/
def Airline.getFlight (a : Airline) (id : String) : Option Flight :=
  a.flights.find? (fun f => decide (f.flightNumber = id))

/-- Write through the pointer `getFlight(id)`: the first flight numbered `id`
becomes `f1`. -/
def storeFlight : List Flight → String → Flight → List Flight
  | [], _, _ => []
  | f :: rest, id, f1 =>
    if f.flightNumber = id then f1 :: rest else f :: storeFlight rest id f1

/-- The body of `Airline::bookSeat` once the flight is found. -/
def Airline.bookSeatOn (f : Flight) (h : Heap) (passengerId seatNumber : String) :
    Bool × Flight × Heap :=
  match f.getPassenger h passengerId with
  | some p => f.assignSeat h (some p) seatNumber
  | none => (false, f, h)

/-- The body of `Airline::cancelBooking` once the flight is found. -/
def Airline.cancelBookingOn (f : Flight) (h : Heap) (passengerId : String) :
    Bool × Flight × Heap :=
  match f.getPassenger h passengerId with
  | some p => (true, f, Function.update h p (h p).unassignSeat)
  | none => (false, f, h)

/-- The body of `Airline::changeBooking` once the flight is found. -/
def Airline.changeBookingOn (f : Flight) (h : Heap) (passengerId newSeatNumber : String) :
    Bool × Flight × Heap :=
  match f.getPassenger h passengerId with
  | some p =>
    let oldSeat := (h p).getSeatNumber
    let h1 := Function.update h p (h p).unassignSeat
    let r := f.assignSeat h1 (some p) newSeatNumber
    if !r.1 then
      let r2 := r.2.1.assignSeat r.2.2 (some p) oldSeat
      (false, r2.2.1, r2.2.2)
    else (true, r.2.1, r.2.2)
  | none => (false, f, h)

/-- The frame `if (auto flight = getFlight(flightNumber)) { ... } return false;`. -/
def Airline.onFlight (a : Airline) (h : Heap) (flightNumber : String)
    (body : Flight → Heap → Bool × Flight × Heap) : Bool × Airline × Heap :=
  match a.getFlight flightNumber with
  | some f =>
    let r := body f h
    (r.1, { a with flights := storeFlight a.flights flightNumber r.2.1 }, r.2.2)
  | none => (false, a, h)

/-- Embeds `Airline::bookSeat`. -/
def Airline.bookSeat (a : Airline) (h : Heap) (flightNumber passengerId seatNumber : String) :
    Bool × Airline × Heap :=
  a.onFlight h flightNumber (fun f h1 => Airline.bookSeatOn f h1 passengerId seatNumber)

/-- Embeds `Airline::cancelBooking`. -/
def Airline.cancelBooking (a : Airline) (h : Heap) (flightNumber passengerId : String) :
    Bool × Airline × Heap :=
  a.onFlight h flightNumber (fun f h1 => Airline.cancelBookingOn f h1 passengerId)

/-- Embeds `Airline::changeBooking`. -/
def Airline.changeBooking (a : Airline) (h : Heap)
    (flightNumber passengerId newSeatNumber : String) : Bool × Airline × Heap :=
  a.onFlight h flightNumber (fun f h1 => Airline.changeBookingOn f h1 passengerId newSeatNumber)

/-- Embeds `Airline::getAvailableSeats`. -/
def Airline.getAvailableSeats (a : Airline) (flightNumber : String) : List String :=
  match a.getFlight flightNumber with
  | some f => f.getAvailableSeats
  | none => []

/-! ## Invariants -/

/-- The seat invariant on every seat of the flight: a seat that records a
passenger is Occupied (so an Available seat records none). -/
def Flight.SeatsOk (f : Flight) : Prop :=
  ∀ k seat, SeatMap.find f.seats k = some seat → seat.passenger ≠ none →
    seat.status = Status.Occupied

/-- Seat `k` of flight `f` is Occupied and records passenger `p`. -/
def Flight.Holds (f : Flight) (k : String) (p : PassengerRef) : Prop :=
  ∃ seat, SeatMap.find f.seats k = some seat ∧ seat.status = Status.Occupied ∧
    seat.passenger = some p

/-- Every roster passenger carrying a non-empty seat id is the passenger
recorded on that seat, which is Occupied. -/
def Flight.RosterSeated (f : Flight) (h : Heap) : Prop :=
  ∀ p ∈ f.passengers, (h p).seatNumber ≠ "" → f.Holds (h p).seatNumber p

/-- Every Occupied seat records a roster passenger whose seat id is that seat. -/
def Flight.NoOrphanSeat (f : Flight) (h : Heap) : Prop :=
  ∀ k seat, SeatMap.find f.seats k = some seat → seat.status = Status.Occupied →
    ∃ p, seat.passenger = some p ∧ p ∈ f.passengers ∧ (h p).seatNumber = k

/-! ## Generated inventory: auxiliary definitions -/

/-- The (row, letter) pairs `initializeSeats` runs through, in loop order. -/
def generatedPairs : List (Nat × String) :=
  (List.range' 1 kRows).flatMap (fun r => (getSeatLettersForRow r).map (Prod.mk r))

/-- The seat `initializeSeats` builds for a (row, letter) pair. -/
def generatedSeat (basePrice : ℚ) (gen : Nat → Int → Int) (x : Nat × String) : Seat :=
  let letters := getSeatLettersForRow x.1
  let cp : String × ℚ :=
    if x.1 ≤ 7 then ("First", basePrice * 3 + gen x.1 (truncToInt basePrice))
    else if x.1 ≤ 11 then ("Business", basePrice * 2 + gen x.1 (truncToInt (basePrice / 2)))
    else if x.1 ≤ 18 then
      ("Premium", basePrice * (3 / 2) + gen x.1 (truncToInt (basePrice / (5 / 2))))
    else ("Economy", basePrice + gen x.1 (truncToInt (basePrice / 5)))
  ((Seat.new (seatNumberOf x.1 x.2) cp.1 x.1 (letters.indexOf x.2)).setPrice cp.2).setSeatClass cp.1

/-- Value of a decimal digit string, used to read the row back from a seat number. -/
def digitsValue (cs : List Char) : Nat :=
  cs.foldl (fun n c => 10 * n + (c.toNat - 48)) 0

/-- Keys strictly increasing, as in a `std::map`. -/
def SeatMap.Sorted (m : SeatMap) : Prop :=
  m.Pairwise (fun a b => a.1.data < b.1.data)

/-! ## Example data -/

/-- A newly generated flight "AA100" with base price 500 (all jitter draws 0). -/
def sampleFlight : Flight := Flight.new "AA100" "YYC" "YVR" 0 500 (fun _ _ => 0)

/-- A heap in which every passenger object carries seat id "19A". -/
def sampleHeap : Heap :=
  fun _ => { firstName := "Ada", lastName := "Byron", phoneNumber := "555-0100",
             email := "", seatNumber := "19A", assignedSeat := none }

/-- The example flight after `addPassenger` of the passenger at address 0. -/
def sampleBooked : Bool × Flight × Heap := sampleFlight.addPassenger sampleHeap (some 0)

/-- An airline holding the booked example flight. -/
def sampleAirline : Airline := { name := "Air", flights := [sampleBooked.2.1] }

/-! ## Calls on a flight and reachable states -/

/-- The roster and seats agree: the seat invariant holds, every seated roster
passenger is recorded on the seat it carries, and no passenger is listed twice. -/
def Flight.Consistent (f : Flight) (h : Heap) : Prop :=
  f.SeatsOk ∧ f.RosterSeated h ∧ f.passengers.Nodup

/-- A call of the booking interface addressed to one flight.  The three
`Airline` calls stand for `Airline::bookSeat/cancelBooking/changeBooking` with
this flight's number, i.e. their bodies once `getFlight` has found the flight. -/
inductive Call where
  | addPassenger (p : Option PassengerRef)
  | assignSeat (p : Option PassengerRef) (seatNumber : String)
  | unassignSeat (seatNumber : String)
  | removePassenger (seatNumber : String)
  | reserveSeat (seatNumber : String)
  | cancelReservation (seatNumber : String)
  | blockSeat (seatNumber : String)
  | unblockSeat (seatNumber : String)
  | bookSeat (passengerId seatNumber : String)
  | cancelBooking (passengerId : String)
  | changeBooking (passengerId newSeatNumber : String)

/-- The flight and heap after a call. -/
def Call.run (c : Call) (st : Flight × Heap) : Flight × Heap :=
  match c with
  | Call.addPassenger p => (st.1.addPassenger st.2 p).2
  | Call.assignSeat p s => (st.1.assignSeat st.2 p s).2
  | Call.unassignSeat s => (st.1.unassignSeat st.2 s).2
  | Call.removePassenger s => (st.1.removePassenger st.2 s).2
  | Call.reserveSeat s => ((st.1.reserveSeat s).2, st.2)
  | Call.cancelReservation s => ((st.1.cancelReservation s).2, st.2)
  | Call.blockSeat s => ((st.1.blockSeat s).2, st.2)
  | Call.unblockSeat s => ((st.1.unblockSeat s).2, st.2)
  | Call.bookSeat pid s => (Airline.bookSeatOn st.1 st.2 pid s).2
  | Call.cancelBooking pid => (Airline.cancelBookingOn st.1 st.2 pid).2
  | Call.changeBooking pid s => (Airline.changeBookingOn st.1 st.2 pid s).2

/-- Ownership: the `unique_ptr` handed to `addPassenger` owns its passenger, so
that passenger is not already on the roster.  Every other call is unrestricted. -/
def Call.Owned (st : Flight × Heap) : Call → Prop
  | Call.addPassenger (some p) => p ∉ st.1.passengers
  | _ => True

/-- The calls `addPassenger`, `assignSeat`, `unassignSeat`, `removePassenger`,
`bookSeat`, `cancelBooking`, `changeBooking`. -/
def Call.isBooking : Call → Bool
  | Call.addPassenger _ => true
  | Call.assignSeat _ _ => true
  | Call.unassignSeat _ => true
  | Call.removePassenger _ => true
  | Call.bookSeat _ _ => true
  | Call.cancelBooking _ => true
  | Call.changeBooking _ _ => true
  | _ => false

/-- The calls that seat a passenger only through the roster: `addPassenger`,
`unassignSeat`, `removePassenger`, and `assignSeat` for a null passenger or a
roster passenger that carries no seat id. -/
def Call.Rostered (st : Flight × Heap) : Call → Prop
  | Call.addPassenger (some p) => p ∉ st.1.passengers
  | Call.addPassenger none => True
  | Call.assignSeat (some p) _ => p ∈ st.1.passengers ∧ (st.2 p).seatNumber = ""
  | Call.assignSeat none _ => True
  | Call.unassignSeat _ => True
  | Call.removePassenger _ => True
  | _ => False

/-- States reachable from `init` by calls that `allowed` admits. -/
inductive Reachable (allowed : Flight × Heap → Call → Prop) (init : Flight × Heap) :
    Flight × Heap → Prop
  | start : Reachable allowed init init
  | step (st : Flight × Heap) (c : Call) :
      Reachable allowed init st → allowed st c → Reachable allowed init (c.run st)

/-- The calls of the booking interface proper, made by an owner of the passenger. -/
def Call.Booking (st : Flight × Heap) (c : Call) : Prop :=
  c.isBooking = true ∧ c.Owned st

/-- Roster and seats agree in both directions, and no seat has an empty number. -/
def Flight.Tight (f : Flight) (h : Heap) : Prop :=
  f.Consistent h ∧ f.NoOrphanSeat h ∧ SeatMap.find f.seats "" = none

/-- A status operation leaves an Occupied seat as it is, and otherwise changes
at most the status, never to Occupied. -/
def Seat.StatusOnly (op : Seat → Bool × Seat) : Prop :=
  ∀ seat, (op seat).2 = seat ∨
    (seat.status ≠ Status.Occupied ∧ (op seat).2.passenger = seat.passenger ∧
      (op seat).2.status ≠ Status.Occupied)

/-- The example flight after `addPassenger` of passenger 0 (carrying "19A") and
then `assignSeat` of the same passenger on "19B". -/
def sampleMoved : Flight × Heap :=
  (Call.assignSeat (some 0) "19B").run
    ((Call.addPassenger (some 0)).run
      (Flight.new "AA100" "YYC" "YVR" 0 500 (fun _ _ => 0), sampleHeap))

/-! ## Airline: seat-number validation and the flight collection -/

/-- Embeds `QChar::isLetter` on ASCII (Qt also counts non-ASCII letters). -/
def isLetter (c : Char) : Bool := c.isAlpha

/-- Two's-complement wrap of an `int` result. -/
def wrapInt32 (x : Int) : Int := (x + 2147483648) % 4294967296 - 2147483648

/-- The digits of a number read by `toInt`: a non-empty string of decimal digits. -/
def toIntDigits (ds : List Char) : Option Nat :=
  if ds ≠ [] ∧ ds.all Char.isDigit = true then some (digitsValue ds) else none

/-- Models `QStringView::toInt()` of the Qt library in base 10, as documented:
surrounding whitespace is ignored, an optional sign precedes the digits, and
the result is 0 when the text is not such a number or does not fit an `int`. -/
def toInt (cs : List Char) : Int :=
  let t := ((cs.dropWhile Char.isWhitespace).reverse.dropWhile Char.isWhitespace).reverse
  if t.head? = some '-' then
    match toIntDigits t.tail with
    | some v => if (v : Int) ≤ 2147483648 then -(v : Int) else 0
    | none => 0
  else if t.head? = some '+' then
    match toIntDigits t.tail with
    | some v => if (v : Int) ≤ 2147483647 then (v : Int) else 0
    | none => 0
  else
    match toIntDigits t with
    | some v => if (v : Int) ≤ 2147483647 then (v : Int) else 0
    | none => 0

/-- The `while` loop of `Airline::isSeatValid`: the leading letters of the seat number. -/
def Airline.rowLabelOf (seatNumber : String) : List Char :=
  seatNumber.data.takeWhile isLetter

/-- The `for` loop of `Airline::isSeatValid`:
`row = row * 26 + (ch.unicode() - 'A' + 1)` over the row label, in `int`. -/
def Airline.rowOfLabel (rowLabel : List Char) : Int :=
  rowLabel.foldl (fun row ch => wrapInt32 (row * 26 + ((ch.toNat : Int) - 65 + 1))) 0

/-- Embeds `Airline::isSeatValid`. -/
def Airline.isSeatValid (a : Airline) (flightId seatNumber : String) : Bool :=
  match a.getFlight flightId with
  | none => false
  | some flight =>
    let rowLabel := Airline.rowLabelOf seatNumber
    let i := rowLabel.length
    let col : Int := wrapInt32 (toInt (seatNumber.data.drop i) - 1)
    let row : Int := wrapInt32 (Airline.rowOfLabel rowLabel - 1)
    decide (0 ≤ row) && decide (row < flight.rows) && decide (0 ≤ col) &&
      decide (col < flight.cols)

/-- Embeds `Airline::addFlight`; a null `unique_ptr` is `none`. -/
def Airline.addFlight (a : Airline) (flight : Option Flight) : Bool × Airline :=
  match flight with
  | none => (false, a)
  | some f =>
    if f.flightNumber = "" then (false, a)
    else if (a.getFlight f.flightNumber).isSome then (false, a)
    else (true, { a with flights := a.flights ++ [f] })

/-- Embeds `Airline::removeFlight`. -/
def Airline.removeFlight (a : Airline) (id : String) : Airline :=
  if id = "" then a
  else { a with flights := a.flights.filter (fun f => !decide (f.flightNumber = id)) }

/-- Embeds `Airline::updateFlight`. -/
def Airline.updateFlight (a : Airline) (flightNumber : String) (newFlight : Option Flight) :
    Bool × Airline :=
  match newFlight with
  | none => (false, a)
  | some nf =>
    if flightNumber = "" ∨ nf.flightNumber = "" then (false, a)
    else
      match a.flights.find? (fun f => decide (f.flightNumber = flightNumber)) with
      | none => (false, a)
      | some _ => (true, { a with flights := storeFlight a.flights flightNumber nf })

/-- Flight numbers of the airline are non-empty and pairwise distinct. -/
def Airline.NumbersOk (a : Airline) : Prop :=
  (∀ f ∈ a.flights, f.flightNumber ≠ "") ∧ (a.flights.map (fun f => f.flightNumber)).Nodup

/-- Rank of a letter in the alphabet: A = 1, ..., Z = 26. -/
def letterRank (c : Char) : Nat := c.toNat - 64

/-- Bijective base-26 value of a row label, as the specification words it:
A = 1, ..., Z = 26, AA = 27, AB = 28, ...; each letter weighs its rank times
26 to the number of letters after it. -/
def bijective26 : List Char → Nat
  | [] => 0
  | c :: cs => letterRank c * 26 ^ cs.length + bijective26 cs

/-- The letters the specification lists for a row. -/
def layoutLetters (r : Nat) : List String :=
  if r ≤ 7 then ["A", "D", "G", "L"]
  else if r ≤ 18 then ["A", "B", "D", "E", "F", "G", "J", "L"]
  else ["A", "B", "C", "D", "E", "F", "G", "H", "J", "L"]

/-- The class the specification lists for a row. -/
def layoutClass (r : Nat) : String :=
  if r ≤ 7 then "First" else if r ≤ 11 then "Business"
  else if r ≤ 18 then "Premium" else "Economy"

/-- The Seat invariant of the data model: Occupied exactly when a passenger is recorded. -/
def Seat.Inv (s : Seat) : Prop := s.status = Status.Occupied ↔ s.passenger ≠ none

/-! ## Airline: search -/

/-- Models `QString::toLower` on ASCII letters (Qt lowercases all of Unicode). -/
def qToLower (s : String) : List Char := s.data.map Char.toLower

/-- Embeds `QString::contains` (case sensitive): `pat` occurs in `text`. -/
def qContains (text pat : List Char) : Bool :=
  text.tails.any (fun t => pat.isPrefixOf t)

/-- The test of `Airline::searchFlights` on one flight. -/
def Airline.flightMatches (query : String) (f : Flight) : Bool :=
  qContains (qToLower f.flightNumber) (qToLower query) ||
  qContains (qToLower f.origin) (qToLower query) ||
  qContains (qToLower f.destination) (qToLower query)

/-- Embeds `Airline::searchFlights`. -/
def Airline.searchFlights (a : Airline) (query : String) : List Flight :=
  a.flights.filter (Airline.flightMatches query)

/-- The test of `Airline::searchPassengers` on one passenger: the names are
lowercased and compared with the lowercased query, the phone number is
compared with the query as given. -/
def Airline.passengerMatches (query : String) (p : Passenger) : Bool :=
  qContains (qToLower p.firstName) (qToLower query) ||
  qContains (qToLower p.lastName) (qToLower query) ||
  qContains p.phoneNumber.data query.data

/-- Embeds `Airline::searchPassengers`. -/
def Airline.searchPassengers (a : Airline) (h : Heap) (query : String) : List PassengerRef :=
  a.flights.flatMap
    (fun f => f.getAllPassengers.filter (fun p => Airline.passengerMatches query (h p)))

/-- The text `q` is a substring of `text` when case is ignored. -/
def caseInsensitiveSubstring (q text : String) : Bool :=
  qContains (qToLower text) (qToLower q)

/-! ## Ticket -/

/-- Embeds `Ticket::Status`. -/
inductive Ticket.Status where
  | Reserved
  | Confirmed
  | Cancelled
  | CheckedIn
deriving DecidableEq, Repr

/-- Embeds `Ticket::Class`, in the order of the enumeration. -/
inductive Ticket.Class where
  | Economy
  | Business
  | FirstClass
deriving DecidableEq, Repr

/-- The enumeration value of a class. -/
def Ticket.Class.toNat : Ticket.Class → Nat
  | Ticket.Class.Economy => 0
  | Ticket.Class.Business => 1
  | Ticket.Class.FirstClass => 2

/-- Fields of `class Ticket`; `passenger` and `flight` are addresses. -/
structure Ticket where
  ticketNumber : String
  passenger : Option PassengerRef
  flight : Option Nat
  status : Ticket.Status
  ticketClass : Ticket.Class
  fare : ℚ
  bookingTime : Int
  baggage : Int
deriving DecidableEq

/-- The constructor `Ticket::Ticket`; `now` is `QDateTime::currentDateTime()`. -/
def Ticket.new (ticketNumber : String) (passenger : Option PassengerRef) (flight : Option Nat)
    (ticketClass : Ticket.Class) (now : Int) : Ticket :=
  { ticketNumber := ticketNumber, passenger := passenger, flight := flight,
    status := Ticket.Status.Reserved, ticketClass := ticketClass,
    fare :=
      match ticketClass with
      | Ticket.Class.FirstClass => 1000
      | Ticket.Class.Business => 500
      | _ => 200
    bookingTime := now, baggage := 0 }

/-- Embeds `Ticket::checkIn`. -/
def Ticket.checkIn (t : Ticket) : Bool × Ticket :=
  if t.status ≠ Ticket.Status.Confirmed then (false, t)
  else (true, { t with status := Ticket.Status.CheckedIn })

/-- Embeds `Ticket::cancel`. -/
def Ticket.cancel (t : Ticket) : Bool × Ticket :=
  if t.status = Ticket.Status.CheckedIn then (false, t)
  else (true, { t with status := Ticket.Status.Cancelled })

/-- Embeds `Ticket::upgrade`. -/
def Ticket.upgrade (t : Ticket) (newClass : Ticket.Class) : Bool × Ticket :=
  if newClass.toNat ≤ t.ticketClass.toNat then (false, t)
  else
    match newClass with
    | Ticket.Class.FirstClass => (true, { t with fare := 1000, ticketClass := newClass })
    | Ticket.Class.Business => (true, { t with fare := 500, ticketClass := newClass })
    | _ => (false, t)

/-- The fare table of the specification. -/
def fareTable : Ticket.Class → ℚ
  | Ticket.Class.Economy => 200
  | Ticket.Class.Business => 500
  | Ticket.Class.FirstClass => 1000

/-- A call of `checkIn`, `cancel` or `upgrade`. -/
inductive TicketCall where
  | checkIn
  | cancel
  | upgrade (newClass : Ticket.Class)

/-- The ticket after a call. -/
def TicketCall.run (t : Ticket) : TicketCall → Ticket
  | TicketCall.checkIn => t.checkIn.2
  | TicketCall.cancel => t.cancel.2
  | TicketCall.upgrade c => (t.upgrade c).2

/-! ## FlightStatus -/

/-- A `QDateTime`: `none` is the invalid value, `some t` a time in seconds. -/
abbrev QDateTime := Option Int

/-- Embeds `FlightStatus::Status`. -/
inductive FlightStatus.Status where
  | OnTime
  | Delayed
  | Boarding
  | Departed
  | Arrived
  | Cancelled
  | Diverted
deriving DecidableEq, Repr

/-- Embeds `FlightStatus::StatusUpdate`. -/
structure FlightStatus.StatusUpdate where
  status : FlightStatus.Status
  reason : String
  timestamp : QDateTime
  gate : String
deriving DecidableEq

/-- Fields of `class FlightStatus`. -/
structure FlightStatus where
  currentStatus : FlightStatus.Status
  currentGate : String
  delayMinutes : Int
  divertedTo : String
  scheduledDeparture : QDateTime
  scheduledArrival : QDateTime
  estimatedDeparture : QDateTime
  estimatedArrival : QDateTime
  statusHistory : List FlightStatus.StatusUpdate
deriving DecidableEq

/-- Embeds `FlightStatus::addStatusUpdate`; `now` is `QDateTime::currentDateTime()`. -/
def FlightStatus.addStatusUpdate (s : FlightStatus) (now : Int) (status : FlightStatus.Status)
    (reason : String) : FlightStatus :=
  { s with
    statusHistory := s.statusHistory ++
      [{ status := status, reason := reason, timestamp := some now, gate := s.currentGate }]
    currentStatus := status }

/-- Embeds `FlightStatus::updateEstimatedTimes`; `delayMinutes * 60` is an `int` product. -/
def FlightStatus.updateEstimatedTimes (s : FlightStatus) : FlightStatus :=
  let s1 : FlightStatus :=
    match s.scheduledDeparture with
    | some d => { s with estimatedDeparture := some (d + wrapInt32 (s.delayMinutes * 60)) }
    | none => s
  match s1.scheduledArrival with
  | some a => { s1 with estimatedArrival := some (a + wrapInt32 (s1.delayMinutes * 60)) }
  | none => s1

/-- The constructor `FlightStatus::FlightStatus`. -/
def FlightStatus.new (now : Int) : FlightStatus :=
  FlightStatus.addStatusUpdate
    { currentStatus := FlightStatus.Status.OnTime, currentGate := "", delayMinutes := 0,
      divertedTo := "", scheduledDeparture := none, scheduledArrival := none,
      estimatedDeparture := none, estimatedArrival := none, statusHistory := [] }
    now FlightStatus.Status.OnTime "Flight created, on time."

/-- Embeds `FlightStatus::updateStatus`. -/
def FlightStatus.updateStatus (s : FlightStatus) (now : Int) (newStatus : FlightStatus.Status)
    (reason : String) : FlightStatus :=
  (s.addStatusUpdate now newStatus reason).updateEstimatedTimes

/-- Embeds `FlightStatus::setDelay`. -/
def FlightStatus.setDelay (s : FlightStatus) (now : Int) (minutes : Int) (reason : String) :
    FlightStatus :=
  let s1 : FlightStatus := { s with delayMinutes := minutes }
  let s2 : FlightStatus :=
    if s1.delayMinutes > 0 then s1.addStatusUpdate now FlightStatus.Status.Delayed reason
    else if s1.currentStatus = FlightStatus.Status.Delayed then
      s1.addStatusUpdate now FlightStatus.Status.OnTime "Delay cleared."
    else s1
  s2.updateEstimatedTimes

/-- Embeds `FlightStatus::setGate`. -/
def FlightStatus.setGate (s : FlightStatus) (newGate : String) : FlightStatus :=
  { s with currentGate := newGate }

/-- Embeds `FlightStatus::cancel`. -/
def FlightStatus.cancel (s : FlightStatus) (now : Int) (reason : String) : FlightStatus :=
  s.addStatusUpdate now FlightStatus.Status.Cancelled reason

/-- Embeds `FlightStatus::divert`. -/
def FlightStatus.divert (s : FlightStatus) (now : Int) (newDestination reason : String) :
    FlightStatus :=
  FlightStatus.addStatusUpdate { s with divertedTo := newDestination } now
    FlightStatus.Status.Diverted reason

/-- Embeds `FlightStatus::setScheduledDeparture`. -/
def FlightStatus.setScheduledDeparture (s : FlightStatus) (departure : QDateTime) :
    FlightStatus :=
  FlightStatus.updateEstimatedTimes { s with scheduledDeparture := departure }

/-- Embeds `FlightStatus::setScheduledArrival`. -/
def FlightStatus.setScheduledArrival (s : FlightStatus) (arrival : QDateTime) : FlightStatus :=
  FlightStatus.updateEstimatedTimes { s with scheduledArrival := arrival }

/-- A call on a `FlightStatus`, with the clock reading `now` where the call logs. -/
inductive StatusCall where
  | setScheduledDeparture (departure : QDateTime)
  | setScheduledArrival (arrival : QDateTime)
  | setDelay (now : Int) (minutes : Int) (reason : String)
  | updateStatus (now : Int) (newStatus : FlightStatus.Status) (reason : String)
  | setGate (newGate : String)
  | cancel (now : Int) (reason : String)
  | divert (now : Int) (newDestination reason : String)

/-- The state after a call. -/
def StatusCall.run (s : FlightStatus) : StatusCall → FlightStatus
  | StatusCall.setScheduledDeparture d => s.setScheduledDeparture d
  | StatusCall.setScheduledArrival a => s.setScheduledArrival a
  | StatusCall.setDelay now m r => s.setDelay now m r
  | StatusCall.updateStatus now st r => s.updateStatus now st r
  | StatusCall.setGate g => s.setGate g
  | StatusCall.cancel now r => s.cancel now r
  | StatusCall.divert now d r => s.divert now d r

/-- The delay of a `setDelay` call, in seconds, fits an `int`, so that the
product `delayMinutes * 60` is defined. -/
def StatusCall.DelayFits : StatusCall → Prop
  | StatusCall.setDelay _ m _ => -2147483648 ≤ m * 60 ∧ m * 60 ≤ 2147483647
  | _ => True

/-- Estimated times are the scheduled times plus the delay, where scheduled. -/
def FlightStatus.EstimatesOk (s : FlightStatus) : Prop :=
  (∀ d, s.scheduledDeparture = some d → s.estimatedDeparture = some (d + 60 * s.delayMinutes)) ∧
  (∀ a, s.scheduledArrival = some a → s.estimatedArrival = some (a + 60 * s.delayMinutes))

/-! ## Baggage -/

/-- Embeds `Baggage::Status`. -/
inductive Baggage.Status where
  | Checked
  | InTransit
  | Arrived
  | Claimed
  | Lost
  | Damaged
deriving DecidableEq, Repr

/-- Embeds `Baggage::BaggageTag`. -/
structure Baggage.BaggageTag where
  tagNumber : String
  weight : ℚ
  description : String
  isFragile : Bool
  isOversize : Bool
  status : Baggage.Status
  currentLocation : String
  lastUpdated : QDateTime
deriving DecidableEq

/-- Fields of `class Baggage`. -/
structure Baggage where
  bags : List Baggage.BaggageTag
  totalWeight : ℚ
  nextTagNumber : Int
deriving DecidableEq

/-- The constructor `Baggage::Baggage`. -/
def Baggage.new : Baggage := { bags := [], totalWeight := 0, nextTagNumber := 1 }

/-- Models `QString::arg(int a, int fieldWidth, 10, QChar fillChar)` on the
place marker: `a` in decimal, filled on the left up to `fieldWidth`. -/
def qArgPadded (a : Int) (fieldWidth : Nat) (fillChar : Char) : List Char :=
  List.replicate (fieldWidth - (toString a).data.length) fillChar ++ (toString a).data

/-- Embeds `Baggage::generateTagNumber`: the tag and the ledger with the counter
advanced (`nextTagNumber++` on an `int`). -/
def Baggage.generateTagNumber (b : Baggage) : String × Baggage :=
  (String.mk ("BAG".data ++ qArgPadded b.nextTagNumber 6 '0'),
    { b with nextTagNumber := wrapInt32 (b.nextTagNumber + 1) })

/-- Embeds `Baggage::updateTotalWeight`. -/
def Baggage.updateTotalWeight (b : Baggage) : Baggage :=
  { b with totalWeight := b.bags.foldl (fun sum bag => sum + bag.weight) 0 }

/-- Embeds `Baggage::checkBag`; `now` is `QDateTime::currentDateTime()`. -/
def Baggage.checkBag (b : Baggage) (now : Int) (weight : ℚ) (description : String)
    (isFragile : Bool) : String × Baggage :=
  let g := b.generateTagNumber
  let bag : Baggage.BaggageTag :=
    { tagNumber := g.1, weight := weight, description := description, isFragile := isFragile,
      isOversize := decide (weight > 23), status := Baggage.Status.Checked,
      currentLocation := "Check-in", lastUpdated := some now }
  (g.1, Baggage.updateTotalWeight { g.2 with bags := g.2.bags ++ [bag] })

/-- The write through `std::find_if` in `Baggage::updateStatus`: the first bag
with the tag gets the new status, location and time. -/
def Baggage.updateFirst (now : Int) (tagNumber : String) (newStatus : Baggage.Status)
    (location : String) : List Baggage.BaggageTag → List Baggage.BaggageTag
  | [] => []
  | bag :: rest =>
    if bag.tagNumber = tagNumber then
      { bag with status := newStatus, currentLocation := location, lastUpdated := some now } :: rest
    else bag :: Baggage.updateFirst now tagNumber newStatus location rest

/-- Embeds `Baggage::updateStatus`. -/
def Baggage.updateStatus (b : Baggage) (now : Int) (tagNumber : String)
    (newStatus : Baggage.Status) (location : String) : Baggage :=
  { b with bags := Baggage.updateFirst now tagNumber newStatus location b.bags }

/-- Embeds `Baggage::markAsLost`. -/
def Baggage.markAsLost (b : Baggage) (now : Int) (tagNumber : String) : Baggage :=
  b.updateStatus now tagNumber Baggage.Status.Lost "Unknown"

/-- Embeds `Baggage::markAsDamaged`. -/
def Baggage.markAsDamaged (b : Baggage) (now : Int) (tagNumber : String) : Baggage :=
  b.updateStatus now tagNumber Baggage.Status.Damaged "Baggage Claim"

/-- Embeds `Baggage::claim`. -/
def Baggage.claim (b : Baggage) (now : Int) (tagNumber : String) : Baggage :=
  b.updateStatus now tagNumber Baggage.Status.Claimed "Claimed by passenger"

/-- Embeds `Baggage::getCount`: `bags.size()` returned as an `int`. -/
def Baggage.getCount (b : Baggage) : Int := wrapInt32 b.bags.length

/-- A call on a baggage ledger, with the clock reading `now`. -/
inductive BaggageCall where
  | checkBag (now : Int) (weight : ℚ) (description : String) (isFragile : Bool)
  | updateStatus (now : Int) (tagNumber : String) (newStatus : Baggage.Status) (location : String)
  | markAsLost (now : Int) (tagNumber : String)
  | markAsDamaged (now : Int) (tagNumber : String)
  | claim (now : Int) (tagNumber : String)

/-- The ledger after a call. -/
def BaggageCall.run (b : Baggage) : BaggageCall → Baggage
  | BaggageCall.checkBag now w d fr => (b.checkBag now w d fr).2
  | BaggageCall.updateStatus now t st loc => b.updateStatus now t st loc
  | BaggageCall.markAsLost now t => b.markAsLost now t
  | BaggageCall.markAsDamaged now t => b.markAsDamaged now t
  | BaggageCall.claim now t => b.claim now t

/-- The call is a `checkBag`. -/
def BaggageCall.isCheckBag : BaggageCall → Bool
  | BaggageCall.checkBag _ _ _ _ => true
  | _ => false

/-- The tag of the specification for the `k`-th bag: "BAG", then `k` in decimal,
left-padded with zeros to at least 6 digits. -/
def specTag (k : Nat) : String :=
  String.mk ("BAG".data ++ (List.replicate (6 - (Nat.repr k).data.length) '0' ++ (Nat.repr k).data))

/-- What `updateStatus` and its three wrappers must keep of a bag. -/
def Baggage.BaggageTag.fixedPart (t : Baggage.BaggageTag) : String × ℚ × Bool :=
  (t.tagNumber, t.weight, t.isOversize)

/-- A heap in which every passenger object has no seat and a phone number
written with capital letters. -/
def phoneHeap : Heap :=
  fun _ => { firstName := "Ada", lastName := "Byron", phoneNumber := "1-800-FLY-AWAY",
             email := "", seatNumber := "", assignedSeat := none }

/-- The example flight with the unseated passenger at address 0 on its roster. -/
def phoneFlight : Flight := (sampleFlight.addPassenger phoneHeap (some 0)).2.1


/-! ## Seat map lemmas -/

theorem SeatMap.find_assign (m : SeatMap) (k k2 : String) (v : Seat) :
    SeatMap.find (SeatMap.assign m k v) k2 = if k = k2 then some v else SeatMap.find m k2 := by
  induction m with
  | nil => simp [SeatMap.assign, SeatMap.find]
  | cons e rest ih =>
    obtain ⟨k1, v1⟩ := e
    unfold SeatMap.assign
    by_cases hlt : k.data < k1.data
    · simp [hlt, SeatMap.find]
    · by_cases hk : k = k1
      · subst hk
        by_cases h2 : k = k2 <;> simp [hlt, SeatMap.find, h2]
      · simp only [hlt, hk, if_false, SeatMap.find, ih]
        by_cases h1 : k1 = k2
        · subst h1
          simp [hk]
        · simp [h1]

theorem SeatMap.find_store (m : SeatMap) (k k2 : String) (v : Seat) :
    SeatMap.find (SeatMap.store m k v) k2 =
      if k = k2 then (SeatMap.find m k).map (fun _ => v) else SeatMap.find m k2 := by
  induction m with
  | nil => simp [SeatMap.store, SeatMap.find]
  | cons e rest ih =>
    obtain ⟨k1, v1⟩ := e
    unfold SeatMap.store
    by_cases hk : k1 = k
    · subst hk
      by_cases h2 : k1 = k2
      · simp [SeatMap.find, h2]
      · simp [SeatMap.find, h2]
    · simp only [hk, if_false, SeatMap.find, ih]
      by_cases h2 : k1 = k2
      · subst h2
        have : ¬ k = k1 := fun e => hk e.symm
        simp [this]
      · simp [h2]

theorem SeatMap.find_store_self (m : SeatMap) (k : String) (v seat : Seat)
    (hk : SeatMap.find m k = some seat) : SeatMap.find (SeatMap.store m k v) k = some v := by
  simp [SeatMap.find_store, hk]

theorem SeatMap.find_store_ne (m : SeatMap) (k k2 : String) (v : Seat) (hne : k ≠ k2) :
    SeatMap.find (SeatMap.store m k v) k2 = SeatMap.find m k2 := by
  simp [SeatMap.find_store, hne]

/-! ## The generated inventory -/

theorem digitsValue_toString : ∀ r, r < 65 → digitsValue (toString r).data = r := by
  decide

theorem letter_length :
    ∀ r ∈ List.range' 1 64, ∀ l ∈ getSeatLettersForRow r, l.data.length = 1 := by
  decide

theorem mem_rows_iff (r : Nat) : r ∈ List.range' 1 kRows ↔ 1 ≤ r ∧ r ≤ 64 := by
  rw [kRows, List.mem_range'_1]
  omega

theorem seatNumberOf_inj (r1 r2 : Nat) (l1 l2 : String)
    (h1 : 1 ≤ r1 ∧ r1 ≤ 64) (h2 : 1 ≤ r2 ∧ r2 ≤ 64)
    (hl1 : l1 ∈ getSeatLettersForRow r1) (hl2 : l2 ∈ getSeatLettersForRow r2)
    (heq : seatNumberOf r1 l1 = seatNumberOf r2 l2) : r1 = r2 ∧ l1 = l2 := by
  have e1 : l1.data.length = 1 := letter_length r1 ((mem_rows_iff r1).2 h1) l1 hl1
  have e2 : l2.data.length = 1 := letter_length r2 ((mem_rows_iff r2).2 h2) l2 hl2
  have hd : (toString r1).data ++ l1.data = (toString r2).data ++ l2.data := by
    have := congrArg String.data heq
    simpa [seatNumberOf, String.data_append] using this
  have hpair := List.append_inj' hd (by rw [e1, e2])
  have hr : r1 = r2 := by
    have := congrArg digitsValue hpair.1
    rwa [digitsValue_toString r1 (by omega), digitsValue_toString r2 (by omega)] at this
  exact ⟨hr, String.ext hpair.2⟩

theorem SeatMap.mem_assign (m : SeatMap) (k : String) (v : Seat) (e : String × Seat)
    (he : e ∈ SeatMap.assign m k v) : e ∈ m ∨ e = (k, v) := by
  induction m with
  | nil => simpa [SeatMap.assign] using he
  | cons e1 rest ih =>
    obtain ⟨k1, v1⟩ := e1
    unfold SeatMap.assign at he
    by_cases hlt : k.data < k1.data
    · simp only [hlt, if_true, List.mem_cons] at he
      rcases he with he | he | he
      · exact Or.inr he
      · exact Or.inl (by simp [he])
      · exact Or.inl (by simp [he])
    · by_cases hk : k = k1
      · subst hk
        simp only [hlt, if_true, if_false, List.mem_cons] at he
        rcases he with he | he
        · exact Or.inr he
        · exact Or.inl (by simp [he])
      · simp only [hlt, hk, if_false, List.mem_cons] at he
        rcases he with he | he
        · exact Or.inl (by simp [he])
        · rcases ih he with h1 | h1
          · exact Or.inl (by simp [h1])
          · exact Or.inr h1

theorem SeatMap.find_none_of_lt (m : SeatMap) (k : String)
    (hlt : ∀ e ∈ m, k.data < e.1.data) : SeatMap.find m k = none := by
  induction m with
  | nil => rfl
  | cons e rest ih =>
    obtain ⟨k1, v1⟩ := e
    have h1 : k.data < k1.data := hlt (k1, v1) (by simp)
    have hne : k1 ≠ k := by
      intro e
      subst e
      exact lt_irrefl _ h1
    simp only [SeatMap.find, hne, if_false]
    exact ih (fun e he => hlt e (by simp [he]))

theorem SeatMap.sorted_assign (m : SeatMap) (k : String) (v : Seat) (hs : SeatMap.Sorted m) :
    SeatMap.Sorted (SeatMap.assign m k v) := by
  induction m with
  | nil => simp [SeatMap.assign, SeatMap.Sorted]
  | cons e rest ih =>
    obtain ⟨k1, v1⟩ := e
    unfold SeatMap.Sorted at hs
    rw [List.pairwise_cons] at hs
    unfold SeatMap.assign
    by_cases hlt : k.data < k1.data
    · simp only [hlt, if_true]
      unfold SeatMap.Sorted
      rw [List.pairwise_cons]
      refine ⟨?_, List.pairwise_cons.2 hs⟩
      intro e he
      rcases List.mem_cons.1 he with he | he
      · rw [he]; exact hlt
      · exact lt_trans hlt (hs.1 e he)
    · by_cases hk : k = k1
      · subst hk
        simp only [hlt, if_true, if_false]
        unfold SeatMap.Sorted
        exact List.pairwise_cons.2 hs
      · simp only [hlt, hk, if_false]
        have hgt : k1.data < k.data := by
          rcases lt_trichotomy k.data k1.data with h1 | h1 | h1
          · exact absurd h1 hlt
          · exact absurd (String.ext h1) hk
          · exact h1
        unfold SeatMap.Sorted
        rw [List.pairwise_cons]
        refine ⟨?_, ih hs.2⟩
        intro e he
        rcases SeatMap.mem_assign rest k v e he with h1 | h1
        · exact hs.1 e h1
        · rw [h1]; exact hgt

theorem SeatMap.length_assign (m : SeatMap) (k : String) (v : Seat) (hs : SeatMap.Sorted m) :
    (SeatMap.assign m k v).length =
      if (SeatMap.find m k).isSome then m.length else m.length + 1 := by
  induction m with
  | nil => simp [SeatMap.assign, SeatMap.find]
  | cons e rest ih =>
    obtain ⟨k1, v1⟩ := e
    unfold SeatMap.Sorted at hs
    rw [List.pairwise_cons] at hs
    unfold SeatMap.assign
    by_cases hlt : k.data < k1.data
    · have hne : k1 ≠ k := by
        intro e
        subst e
        exact lt_irrefl _ hlt
      have hnone : SeatMap.find rest k = none :=
        SeatMap.find_none_of_lt rest k (fun e he => lt_trans hlt (hs.1 e he))
      simp [hlt, SeatMap.find, hne, hnone]
    · by_cases hk : k = k1
      · subst hk
        simp [hlt, SeatMap.find]
      · have hne : k1 ≠ k := fun e => hk e.symm
        simp only [hlt, hk, if_false, SeatMap.find, hne, List.length_cons, ih hs.2]
        split <;> rfl

theorem SeatMap.foldl_assign_sorted {α : Type} (key : α → String) (val : α → Seat)
    (xs : List α) (m : SeatMap) (hs : SeatMap.Sorted m) :
    SeatMap.Sorted (xs.foldl (fun m x => SeatMap.assign m (key x) (val x)) m) := by
  induction xs generalizing m with
  | nil => exact hs
  | cons x xs ih => exact ih _ (SeatMap.sorted_assign m _ _ hs)

theorem SeatMap.foldl_assign_length {α : Type} (key : α → String) (val : α → Seat)
    (xs : List α) (m : SeatMap) (hs : SeatMap.Sorted m) (hnd : (xs.map key).Nodup)
    (hfresh : ∀ x ∈ xs, SeatMap.find m (key x) = none) :
    (xs.foldl (fun m x => SeatMap.assign m (key x) (val x)) m).length = m.length + xs.length := by
  induction xs generalizing m with
  | nil => simp
  | cons x xs ih =>
    rw [List.map_cons, List.nodup_cons] at hnd
    rw [List.foldl_cons, ih _ (SeatMap.sorted_assign m _ _ hs) hnd.2]
    · rw [SeatMap.length_assign m _ _ hs, hfresh x (by simp)]
      simp
      omega
    · intro y hy
      rw [SeatMap.find_assign]
      have hne : key x ≠ key y := by
        intro e
        exact hnd.1 (by rw [e]; exact List.mem_map_of_mem key hy)
      simp only [hne, if_false]
      exact hfresh y (by simp [hy])

theorem SeatMap.foldl_assign_find {α : Type} (key : α → String) (val : α → Seat)
    (xs : List α) (m : SeatMap) (k : String) (seat : Seat)
    (hk : SeatMap.find (xs.foldl (fun m x => SeatMap.assign m (key x) (val x)) m) k = some seat) :
    SeatMap.find m k = some seat ∨ ∃ x ∈ xs, key x = k ∧ val x = seat := by
  induction xs generalizing m with
  | nil => exact Or.inl hk
  | cons x xs ih =>
    rcases ih _ hk with h1 | ⟨y, hy, h2⟩
    · rw [SeatMap.find_assign] at h1
      by_cases hx : key x = k
      · simp only [hx, if_true, Option.some.injEq] at h1
        exact Or.inr ⟨x, by simp, hx, h1⟩
      · simp only [hx, if_false] at h1
        exact Or.inl h1
    · exact Or.inr ⟨y, by simp [hy], h2⟩

theorem SeatMap.foldl_assign_isSome {α : Type} (key : α → String) (val : α → Seat)
    (xs : List α) (m : SeatMap) (k : String)
    (hk : (SeatMap.find m k).isSome = true ∨ ∃ x ∈ xs, key x = k) :
    (SeatMap.find (xs.foldl (fun m x => SeatMap.assign m (key x) (val x)) m) k).isSome = true := by
  induction xs generalizing m with
  | nil =>
    rcases hk with h1 | ⟨x, hx, _⟩
    · exact h1
    · simp at hx
  | cons x xs ih =>
    apply ih
    rcases hk with h1 | ⟨y, hy, h2⟩
    · left
      rw [SeatMap.find_assign]
      split
      · rfl
      · exact h1
    · rcases List.mem_cons.1 hy with h3 | h3
      · left
        rw [SeatMap.find_assign, ← h3, h2]
        simp
      · exact Or.inr ⟨y, h3, h2⟩

theorem initializeSeatsRow_eq (bp : ℚ) (gen : Nat → Int → Int) (m : SeatMap) (r : Nat) :
    initializeSeatsRow bp gen m r =
      ((getSeatLettersForRow r).map (Prod.mk r)).foldl
        (fun m x => SeatMap.assign m (seatNumberOf x.1 x.2) (generatedSeat bp gen x)) m := by
  rw [List.foldl_map]
  rfl

theorem initializeSeats_fold (bp : ℚ) (gen : Nat → Int → Int) (rows : List Nat) (m : SeatMap) :
    rows.foldl (initializeSeatsRow bp gen) m =
      (rows.flatMap (fun r => (getSeatLettersForRow r).map (Prod.mk r))).foldl
        (fun m x => SeatMap.assign m (seatNumberOf x.1 x.2) (generatedSeat bp gen x)) m := by
  induction rows generalizing m with
  | nil => rfl
  | cons r rows ih =>
    rw [List.foldl_cons, ih, List.flatMap_cons, List.foldl_append, initializeSeatsRow_eq]

theorem Flight.new_seats (fn o d : String) (t : Int) (bp : ℚ) (gen : Nat → Int → Int) :
    (Flight.new fn o d t bp gen).seats =
      generatedPairs.foldl
        (fun m x => SeatMap.assign m (seatNumberOf x.1 x.2) (generatedSeat bp gen x)) [] := by
  unfold Flight.new Flight.initializeSeats generatedPairs
  simp only []
  rw [initializeSeats_fold]

theorem mem_generatedPairs (r : Nat) (l : String) :
    (r, l) ∈ generatedPairs ↔ (1 ≤ r ∧ r ≤ 64) ∧ l ∈ getSeatLettersForRow r := by
  unfold generatedPairs
  rw [List.mem_flatMap]
  constructor
  · rintro ⟨r1, hr1, hmem⟩
    rw [List.mem_map] at hmem
    obtain ⟨l1, hl1, heq⟩ := hmem
    have e1 : r1 = r := congrArg Prod.fst heq
    have e2 : l1 = l := congrArg Prod.snd heq
    subst e1
    subst e2
    exact ⟨(mem_rows_iff r1).1 hr1, hl1⟩
  · rintro ⟨hr, hl⟩
    exact ⟨r, (mem_rows_iff r).2 hr, List.mem_map_of_mem _ hl⟩

theorem letters_nodup : ∀ r ∈ List.range' 1 64, (getSeatLettersForRow r).Nodup := by
  decide

set_option maxRecDepth 100000 in
theorem generatedPairs_length : generatedPairs.length = 576 := by
  decide

theorem generatedPairs_nodup : generatedPairs.Nodup := by
  unfold generatedPairs
  rw [List.nodup_flatMap]
  constructor
  · intro r hr
    exact (letters_nodup r hr).map (fun a b hab => congrArg Prod.snd hab)
  · have hnd : (List.range' 1 kRows).Nodup := List.nodup_range' 1 kRows
    refine hnd.imp ?_
    intro a b hab
    simp only [Function.onFun]
    rw [List.disjoint_left]
    intro x hxa hxb
    rw [List.mem_map] at hxa hxb
    obtain ⟨l1, _, e1⟩ := hxa
    obtain ⟨l2, _, e2⟩ := hxb
    apply hab
    have := congrArg Prod.fst (e1.trans e2.symm)
    exact this

theorem generatedKeys_nodup :
    (generatedPairs.map (fun x => seatNumberOf x.1 x.2)).Nodup := by
  refine List.Nodup.map_on ?_ generatedPairs_nodup
  rintro ⟨r1, l1⟩ h1 ⟨r2, l2⟩ h2 heq
  rw [mem_generatedPairs] at h1 h2
  obtain ⟨hr, hl⟩ := seatNumberOf_inj r1 r2 l1 l2 h1.1 h2.1 h1.2 h2.2 heq
  rw [hr, hl]

theorem Flight.new_seats_length (fn o d : String) (t : Int) (bp : ℚ) (gen : Nat → Int → Int) :
    (Flight.new fn o d t bp gen).seats.length = 576 := by
  rw [Flight.new_seats, SeatMap.foldl_assign_length (fun x : Nat × String => seatNumberOf x.1 x.2)
    (generatedSeat bp gen) generatedPairs [] List.Pairwise.nil
    generatedKeys_nodup (fun _ _ => rfl), generatedPairs_length]
  rfl

theorem Flight.new_find (fn o d : String) (t : Int) (bp : ℚ) (gen : Nat → Int → Int)
    (k : String) (seat : Seat)
    (hk : SeatMap.find (Flight.new fn o d t bp gen).seats k = some seat) :
    ∃ x ∈ generatedPairs, seatNumberOf x.1 x.2 = k ∧ generatedSeat bp gen x = seat := by
  rw [Flight.new_seats] at hk
  rcases SeatMap.foldl_assign_find _ _ _ _ _ _ hk with h1 | h1
  · simp [SeatMap.find] at h1
  · exact h1

theorem Flight.new_has (fn o d : String) (t : Int) (bp : ℚ) (gen : Nat → Int → Int)
    (r : Nat) (l : String) (hr : 1 ≤ r ∧ r ≤ 64) (hl : l ∈ getSeatLettersForRow r) :
    ∃ seat, SeatMap.find (Flight.new fn o d t bp gen).seats (seatNumberOf r l) = some seat ∧
      seat.status = Status.Available ∧ seat.passenger = none := by
  have hsome := SeatMap.foldl_assign_isSome (fun x : Nat × String => seatNumberOf x.1 x.2)
    (generatedSeat bp gen) generatedPairs [] (seatNumberOf r l)
    (Or.inr ⟨(r, l), (mem_generatedPairs r l).2 ⟨hr, hl⟩, rfl⟩)
  rw [← Flight.new_seats fn o d t bp gen] at hsome
  obtain ⟨seat, hseat⟩ := Option.isSome_iff_exists.1 hsome
  obtain ⟨x, _, _, hx⟩ := Flight.new_find fn o d t bp gen _ _ hseat
  refine ⟨seat, hseat, ?_, ?_⟩ <;> rw [← hx] <;> rfl

theorem Flight.new_seatsOk (fn o d : String) (t : Int) (bp : ℚ) (gen : Nat → Int → Int) :
    (Flight.new fn o d t bp gen).SeatsOk := by
  intro k seat hk hp
  obtain ⟨x, _, _, hx⟩ := Flight.new_find fn o d t bp gen _ _ hk
  rw [← hx] at hp
  exact absurd rfl hp

theorem Flight.new_passengers (fn o d : String) (t : Int) (bp : ℚ) (gen : Nat → Int → Int) :
    (Flight.new fn o d t bp gen).passengers = [] := rfl

/-! ## Seat and flight operations: what a call returns -/

theorem Seat.setPassenger_fst_of_available (seat : Seat) (p : PassengerRef)
    (hav : seat.status = Status.Available) : (seat.setPassenger (some p)).1 = true := by
  unfold Seat.setPassenger
  split
  · rfl
  · simp [Seat.isAvailable, hav]

theorem Seat.setPassenger_of_free (seat : Seat) (p : PassengerRef)
    (hav : seat.status = Status.Available) (hnone : seat.passenger = none) :
    (seat.setPassenger (some p)).2 =
      { seat with passenger := some p, status := Status.Occupied } := by
  simp [Seat.setPassenger, Seat.isAvailable, hav, hnone]

theorem Flight.assignSeat_of_available (f : Flight) (h : Heap) (p : PassengerRef) (s : String)
    (seat : Seat) (hs : SeatMap.find f.seats s = some seat)
    (hav : seat.status = Status.Available) :
    f.assignSeat h (some p) s =
      (true, { f with seats := SeatMap.store f.seats s (seat.setPassenger (some p)).2 },
        Function.update h p ((h p).setSeatNumber s)) := by
  simp [Flight.assignSeat, Flight.isSeatValid, hs, Seat.isAvailable, hav,
    Seat.setPassenger_fst_of_available seat p hav]

theorem Flight.assignSeat_of_unavailable (f : Flight) (h : Heap) (p : Option PassengerRef)
    (s : String)
    (hbad : p = none ∨ SeatMap.find f.seats s = none ∨
      ∃ seat, SeatMap.find f.seats s = some seat ∧ seat.status ≠ Status.Available) :
    f.assignSeat h p s = (false, f, h) := by
  cases p with
  | none => rfl
  | some q =>
    rcases hbad with h1 | h1 | ⟨seat, h1, h2⟩
    · exact absurd h1 (by simp)
    · simp [Flight.assignSeat, Flight.isSeatValid, h1]
    · simp [Flight.assignSeat, Flight.isSeatValid, h1, Seat.isAvailable, h2]

theorem Flight.unassignSeat_of_valid (f : Flight) (h : Heap) (s : String) (seat : Seat)
    (hs : SeatMap.find f.seats s = some seat) :
    f.unassignSeat h s =
      (true, { f with seats := SeatMap.store f.seats s (seat.clearPassenger h).1 },
        (seat.clearPassenger h).2) := by
  simp [Flight.unassignSeat, Flight.isSeatValid, hs]

theorem Flight.unassignSeat_of_invalid (f : Flight) (h : Heap) (s : String)
    (hs : SeatMap.find f.seats s = none) : f.unassignSeat h s = (false, f, h) := by
  simp [Flight.unassignSeat, Flight.isSeatValid, hs]

/-- The seat "19A" of a newly generated flight. -/
theorem Flight.new_seat_19A (fn o d : String) (t : Int) (bp : ℚ) (gen : Nat → Int → Int) :
    ∃ seat, SeatMap.find (Flight.new fn o d t bp gen).seats "19A" = some seat ∧
      seat.status = Status.Available ∧ seat.passenger = none :=
  Flight.new_has fn o d t bp gen 19 "A" (by decide) (by decide)

/-- The seat "19B" of a newly generated flight. -/
theorem Flight.new_seat_19B (fn o d : String) (t : Int) (bp : ℚ) (gen : Nat → Int → Int) :
    ∃ seat, SeatMap.find (Flight.new fn o d t bp gen).seats "19B" = some seat ∧
      seat.status = Status.Available ∧ seat.passenger = none :=
  Flight.new_has fn o d t bp gen 19 "B" (by decide) (by decide)

/-! ## Flight::assignSeat -/

/-- C1: on a flight whose seats satisfy the seat invariant, `assignSeat(p, s)` with a
non-null passenger `p` and an Available seat `s` returns true, leaves seat `s`
Occupied recording `p` and `p` carrying seat id `s`; a following `assignSeat(q, s)`
with another passenger `q` (or null) returns false and changes neither the
flight nor any passenger. -/
theorem assignSeat_available_then_taken (f : Flight) (h : Heap) (p : PassengerRef)
    (s : String) (seat : Seat) (hok : f.SeatsOk)
    (hs : SeatMap.find f.seats s = some seat) (hav : seat.status = Status.Available) :
    (f.assignSeat h (some p) s).1 = true ∧
    SeatMap.find (f.assignSeat h (some p) s).2.1.seats s =
      some { seat with passenger := some p, status := Status.Occupied } ∧
    ((f.assignSeat h (some p) s).2.2 p).seatNumber = s ∧
    ∀ q : Option PassengerRef, q ≠ some p →
      (f.assignSeat h (some p) s).2.1.assignSeat (f.assignSeat h (some p) s).2.2 q s =
        (false, (f.assignSeat h (some p) s).2.1, (f.assignSeat h (some p) s).2.2) := by
  have hnone : seat.passenger = none := by
    by_contra hne
    have := hok s seat hs hne
    rw [hav] at this
    exact absurd this (by decide)
  rw [Flight.assignSeat_of_available f h p s seat hs hav,
    Seat.setPassenger_of_free seat p hav hnone]
  have hfind : SeatMap.find (SeatMap.store f.seats s
      { seat with passenger := some p, status := Status.Occupied }) s =
      some { seat with passenger := some p, status := Status.Occupied } :=
    SeatMap.find_store_self _ _ _ _ hs
  refine ⟨rfl, hfind, ?_, ?_⟩
  · simp [Passenger.setSeatNumber]
  · intro q _
    exact Flight.assignSeat_of_unavailable _ _ q s
      (Or.inr (Or.inr ⟨_, hfind, by simp⟩))

/-- Witness for C1 on a newly generated flight and its seat "19A". -/
theorem assignSeat_available_then_taken_witness :
    ∃ seat, SeatMap.find (Flight.new "AA100" "YYC" "YVR" 0 500 (fun _ _ => 0)).seats "19A" =
        some seat ∧
      ((Flight.new "AA100" "YYC" "YVR" 0 500 (fun _ _ => 0)).assignSeat
        (fun _ => default) (some 7) "19A").1 = true := by
  obtain ⟨seat, hs, hav, _⟩ := Flight.new_seat_19A "AA100" "YYC" "YVR" 0 500 (fun _ _ => 0)
  exact ⟨seat, hs, (assignSeat_available_then_taken _ (fun _ => default) 7 "19A" seat
    (Flight.new_seatsOk _ _ _ _ _ _) hs hav).1⟩

/-- C2: `assignSeat(p, s)` returns false and leaves the flight (every seat, the
roster) and every passenger unchanged when `p` is null, `s` is not a seat of
the flight, or seat `s` is not Available. -/
theorem assignSeat_rejects_without_effect (f : Flight) (h : Heap) (p : Option PassengerRef)
    (s : String)
    (hbad : p = none ∨ SeatMap.find f.seats s = none ∨
      ∃ seat, SeatMap.find f.seats s = some seat ∧ seat.status ≠ Status.Available) :
    f.assignSeat h p s = (false, f, h) :=
  Flight.assignSeat_of_unavailable f h p s hbad

/-- Witness for C2: a null passenger on a newly generated flight. -/
theorem assignSeat_rejects_without_effect_witness :
    (Flight.new "AA100" "YYC" "YVR" 0 500 (fun _ _ => 0)).assignSeat (fun _ => default) none "19A" =
      (false, Flight.new "AA100" "YYC" "YVR" 0 500 (fun _ => fun _ => 0), fun _ => default) :=
  assignSeat_rejects_without_effect _ _ none "19A" (Or.inl rfl)

/-! ## Flight::removePassenger and Flight::addPassenger -/

theorem Flight.addPassenger_of_available (f : Flight) (h : Heap) (p : PassengerRef)
    (seat : Seat) (hne : (h p).seatNumber ≠ "")
    (hs : SeatMap.find f.seats (h p).seatNumber = some seat)
    (hav : seat.status = Status.Available) :
    f.addPassenger h (some p) =
      (true,
       { f with
         seats := SeatMap.store f.seats (h p).seatNumber (seat.setPassenger (some p)).2
         passengers := f.passengers ++ [p] },
       Function.update h p ((h p).setSeatNumber (h p).seatNumber)) := by
  unfold Flight.addPassenger
  simp only [Passenger.getSeatNumber, ne_eq, hne, not_false_eq_true, if_true,
    Flight.assignSeat_of_available f h p _ seat hs hav]
  rfl

theorem Flight.addPassenger_of_unavailable (f : Flight) (h : Heap) (p : PassengerRef)
    (hne : (h p).seatNumber ≠ "")
    (hbad : SeatMap.find f.seats (h p).seatNumber = none ∨
      ∃ seat, SeatMap.find f.seats (h p).seatNumber = some seat ∧
        seat.status ≠ Status.Available) :
    f.addPassenger h (some p) = (false, f, h) := by
  unfold Flight.addPassenger
  simp only [Passenger.getSeatNumber, ne_eq, hne, not_false_eq_true, if_true,
    Flight.assignSeat_of_unavailable f h (some p) _ (Or.inr hbad)]
  rfl

theorem Flight.addPassenger_of_unseated (f : Flight) (h : Heap) (p : PassengerRef)
    (he : (h p).seatNumber = "") :
    f.addPassenger h (some p) = (true, { f with passengers := f.passengers ++ [p] }, h) := by
  unfold Flight.addPassenger
  simp [Passenger.getSeatNumber, he]

theorem Heap.update_self_field (h : Heap) (p : PassengerRef) :
    Function.update h p ((h p).setSeatNumber (h p).seatNumber) = h := by
  funext q
  by_cases hq : q = p
  · subst hq
    simp [Passenger.setSeatNumber]
  · simp [Function.update, hq]

theorem eraseFirst_eq_erase (pred : PassengerRef → Bool) (l : List PassengerRef)
    (p : PassengerRef) (hp : pred p = true) (hfirst : ∀ q ∈ l, pred q = true → q = p) :
    eraseFirst pred l = l.erase p := by
  induction l with
  | nil => rfl
  | cons q rest ih =>
    unfold eraseFirst
    by_cases hq : pred q = true
    · have : q = p := hfirst q (by simp) hq
      subst this
      simp [hq]
    · have hne : q ≠ p := by
        intro e
        rw [e] at hq
        exact hq hp
      rw [List.erase_cons_tail (by simpa using hne), ih (fun r hr => hfirst r (by simp [hr]))]
      simp [hq]

theorem find_isSome_of_mem (pred : PassengerRef → Bool) (l : List PassengerRef)
    (p : PassengerRef) (hmem : p ∈ l) (hp : pred p = true) : ∃ q, l.find? pred = some q := by
  cases hf : l.find? pred with
  | some q => exact ⟨q, rfl⟩
  | none =>
    rw [List.find?_eq_none] at hf
    exact absurd hp (hf p hmem)

/-- C6: when seat `s` is Occupied by a roster passenger `p` whose seat id is `s`
(the roster being consistent with the seats), `removePassenger(s)` returns
true, seat `s` becomes Available with no passenger, the roster loses exactly
`p` (the others keep their order) and no other seat changes. -/
theorem removePassenger_occupied (f : Flight) (h : Heap) (s : String) (p : PassengerRef)
    (seat : Seat) (hne : s ≠ "") (hinv : f.RosterSeated h)
    (hs : SeatMap.find f.seats s = some seat) (_hocc : seat.status = Status.Occupied)
    (hp : seat.passenger = some p) (hmem : p ∈ f.passengers) (hsn : (h p).seatNumber = s) :
    (f.removePassenger h s).1 = true ∧
    SeatMap.find (f.removePassenger h s).2.1.seats s =
      some { seat with passenger := none, status := Status.Available } ∧
    (f.removePassenger h s).2.1.passengers = f.passengers.erase p ∧
    (f.removePassenger h s).2.1.passengers.length + 1 = f.passengers.length ∧
    (∀ k, k ≠ s → SeatMap.find (f.removePassenger h s).2.1.seats k = SeatMap.find f.seats k) ∧
    ((f.removePassenger h s).2.2 p).seatNumber = "" := by
  have hpred : decide ((h p).getSeatNumber = s) = true := by
    simpa [Passenger.getSeatNumber] using hsn
  have huniq : ∀ q ∈ f.passengers, decide ((h q).getSeatNumber = s) = true → q = p := by
    intro q hq hqs
    have hqs1 : (h q).seatNumber = s := by simpa [Passenger.getSeatNumber] using hqs
    obtain ⟨seat1, h1, _, h3⟩ := hinv q hq (by rw [hqs1]; exact hne)
    rw [hqs1, hs] at h1
    cases h1
    rw [hp] at h3
    exact (Option.some.inj h3).symm
  obtain ⟨q, hq⟩ := find_isSome_of_mem (fun r => decide ((h r).getSeatNumber = s))
    f.passengers p hmem hpred
  have hres : f.removePassenger h s =
      (true,
       { f with
         seats := SeatMap.store f.seats s (seat.clearPassenger h).1
         passengers := f.passengers.erase p },
       (seat.clearPassenger h).2) := by
    unfold Flight.removePassenger
    simp only [hne, if_false, hq, Flight.unassignSeat_of_valid f h s seat hs]
    rw [eraseFirst_eq_erase _ _ p hpred huniq]
  rw [hres]
  refine ⟨rfl, ?_, rfl, ?_, ?_, ?_⟩
  · simp only []
    rw [SeatMap.find_store_self _ _ _ _ hs]
    rfl
  · simp only []
    rw [List.length_erase_of_mem hmem]
    have : 0 < f.passengers.length := List.length_pos_of_mem hmem
    omega
  · intro k hk
    exact SeatMap.find_store_ne _ _ _ _ (fun e => hk e.symm)
  · simp [Seat.clearPassenger, hp, Passenger.unassignSeat]

/-- C7: for a non-null passenger `p` carrying a non-empty seat id, `addPassenger(p)`
returns true exactly when that id is a seat of the flight that is Available;
on true `p` is appended to the roster, the seat is Occupied recording `p` and no
other seat changes; on false the flight (roster and seats) and the passengers
are unchanged.  A passenger with an empty seat id is appended and no seat is
touched. -/
theorem addPassenger_iff_seat_assignable (f : Flight) (h : Heap) (p : PassengerRef)
    (hok : f.SeatsOk) :
    ((h p).seatNumber ≠ "" →
      ((f.addPassenger h (some p)).1 = true ↔
        ∃ seat, SeatMap.find f.seats (h p).seatNumber = some seat ∧
          seat.status = Status.Available) ∧
      ((f.addPassenger h (some p)).1 = true →
        (f.addPassenger h (some p)).2.1.passengers = f.passengers ++ [p] ∧
        (f.addPassenger h (some p)).2.1.Holds (h p).seatNumber p ∧
        ((f.addPassenger h (some p)).2.2 p).seatNumber = (h p).seatNumber ∧
        ∀ k, k ≠ (h p).seatNumber →
          SeatMap.find (f.addPassenger h (some p)).2.1.seats k = SeatMap.find f.seats k) ∧
      ((f.addPassenger h (some p)).1 = false → f.addPassenger h (some p) = (false, f, h))) ∧
    ((h p).seatNumber = "" →
      f.addPassenger h (some p) = (true, { f with passengers := f.passengers ++ [p] }, h)) := by
  refine ⟨fun hne => ?_, fun he => Flight.addPassenger_of_unseated f h p he⟩
  cases hfind : SeatMap.find f.seats (h p).seatNumber with
  | none =>
    rw [Flight.addPassenger_of_unavailable f h p hne (Or.inl hfind)]
    simp
  | some seat =>
    by_cases hav : seat.status = Status.Available
    · have hnone : seat.passenger = none := by
        by_contra hc
        have := hok _ seat hfind hc
        rw [hav] at this
        exact absurd this (by decide)
      rw [Flight.addPassenger_of_available f h p seat hne hfind hav,
        Seat.setPassenger_of_free seat p hav hnone]
      refine ⟨⟨fun _ => ⟨seat, rfl, hav⟩, fun _ => rfl⟩, fun _ => ⟨rfl, ?_, ?_, ?_⟩, ?_⟩
      · exact ⟨_, SeatMap.find_store_self _ _ _ _ hfind, rfl, rfl⟩
      · simp [Passenger.setSeatNumber]
      · intro k hk
        exact SeatMap.find_store_ne _ _ _ _ (fun e => hk e.symm)
      · intro hc
        exact absurd hc (by simp)
    · rw [Flight.addPassenger_of_unavailable f h p hne (Or.inr ⟨seat, hfind, hav⟩)]
      refine ⟨⟨fun hc => absurd hc (by simp), ?_⟩, fun hc => absurd hc (by simp), fun _ => rfl⟩
      rintro ⟨seat1, h1, h2⟩
      cases h1
      exact absurd h2 hav

/-! ## The example flight -/

theorem sampleFlight_seatsOk : sampleFlight.SeatsOk := Flight.new_seatsOk _ _ _ _ _ _

/-- The booked example flight: seat "19A" records passenger 0, who is the roster. -/
theorem sampleBooked_eq :
    ∃ seat, SeatMap.find sampleFlight.seats "19A" = some seat ∧
      seat.status = Status.Available ∧ seat.passenger = none ∧
      sampleBooked =
        (true,
         { sampleFlight with
           seats := SeatMap.store sampleFlight.seats "19A"
             { seat with passenger := some 0, status := Status.Occupied }
           passengers := [0] },
         sampleHeap) := by
  obtain ⟨seat, hs, hav, hnone⟩ := Flight.new_seat_19A "AA100" "YYC" "YVR" 0 500 (fun _ _ => 0)
  refine ⟨seat, hs, hav, hnone, ?_⟩
  have hsn : (sampleHeap 0).seatNumber = "19A" := rfl
  unfold sampleBooked
  rw [Flight.addPassenger_of_available sampleFlight sampleHeap 0 seat (by rw [hsn]; decide)
    (by rw [hsn]; exact hs) hav, Heap.update_self_field, hsn,
    Seat.setPassenger_of_free seat 0 hav hnone]
  rfl

theorem sampleBooked_holds : sampleBooked.2.1.Holds "19A" 0 := by
  obtain ⟨seat, hs, _, _, heq⟩ := sampleBooked_eq
  rw [heq]
  refine ⟨{ seat with passenger := some 0, status := Status.Occupied }, ?_, rfl, rfl⟩
  simp only []
  exact SeatMap.find_store_self sampleFlight.seats "19A" _ seat hs

theorem sampleBooked_roster : sampleBooked.2.1.passengers = [0] := by
  obtain ⟨seat, _, _, _, heq⟩ := sampleBooked_eq
  rw [heq]

theorem sampleBooked_heap : sampleBooked.2.2 = sampleHeap := by
  obtain ⟨seat, _, _, _, heq⟩ := sampleBooked_eq
  rw [heq]

theorem sampleBooked_rosterSeated : sampleBooked.2.1.RosterSeated sampleBooked.2.2 := by
  intro p hp _
  rw [sampleBooked_roster] at hp
  have hp0 : p = 0 := by simpa using hp
  subst hp0
  rw [sampleBooked_heap]
  exact sampleBooked_holds

/-- Witness for C6: removing the passenger booked on "19A" of the example flight. -/
theorem removePassenger_occupied_witness :
    (sampleBooked.2.1.removePassenger sampleBooked.2.2 "19A").1 = true ∧
    (sampleBooked.2.1.removePassenger sampleBooked.2.2 "19A").2.1.passengers = [] := by
  obtain ⟨seat, hs, hocc, hp⟩ := sampleBooked_holds
  have hmem : (0 : PassengerRef) ∈ sampleBooked.2.1.passengers := by
    rw [sampleBooked_roster]; simp
  have hsn : (sampleBooked.2.2 0).seatNumber = "19A" := by rw [sampleBooked_heap]; rfl
  have key := removePassenger_occupied sampleBooked.2.1 sampleBooked.2.2 "19A" 0 seat
    (by decide) sampleBooked_rosterSeated hs hocc hp hmem hsn
  refine ⟨key.1, ?_⟩
  rw [key.2.2.1, sampleBooked_roster]
  simp

/-- Witness for C7: the passenger carrying "19A" is added to the example flight. -/
theorem addPassenger_iff_seat_assignable_witness :
    (sampleFlight.addPassenger sampleHeap (some 0)).1 = true ∧
    (sampleFlight.addPassenger sampleHeap (some 0)).2.1.passengers = [0] := by
  have key := addPassenger_iff_seat_assignable sampleFlight sampleHeap 0 sampleFlight_seatsOk
  have hne : (sampleHeap 0).seatNumber ≠ "" := by decide
  obtain ⟨seat, hs, hav, _⟩ := Flight.new_seat_19A "AA100" "YYC" "YVR" 0 500 (fun _ _ => 0)
  have htrue : (sampleFlight.addPassenger sampleHeap (some 0)).1 = true :=
    ((key.1 hne).1).2 ⟨seat, hs, hav⟩
  exact ⟨htrue, ((key.1 hne).2.1 htrue).1⟩

theorem Flight.new_find_99Z (fn o d : String) (t : Int) (bp : ℚ) (gen : Nat → Int → Int) :
    SeatMap.find (Flight.new fn o d t bp gen).seats "99Z" = none := by
  cases hfind : SeatMap.find (Flight.new fn o d t bp gen).seats "99Z" with
  | none => rfl
  | some seat =>
    obtain ⟨⟨r, l⟩, hx, hkey, _⟩ := Flight.new_find fn o d t bp gen _ _ hfind
    rw [mem_generatedPairs] at hx
    have e1 : l.data.length = 1 := letter_length r ((mem_rows_iff r).2 hx.1) l hx.2
    have hd : (toString r).data ++ l.data = ['9', '9'] ++ ['Z'] := by
      have := congrArg String.data hkey
      simpa [seatNumberOf, String.data_append] using this
    have hpair := List.append_inj' hd (by rw [e1]; rfl)
    have := congrArg digitsValue hpair.1
    rw [digitsValue_toString r (by omega)] at this
    have h99 : digitsValue ['9', '9'] = 99 := by decide
    omega

theorem Airline.onFlight_single (n id : String) (f : Flight) (h : Heap)
    (body : Flight → Heap → Bool × Flight × Heap) (hid : f.flightNumber = id) :
    Airline.onFlight { name := n, flights := [f] } h id body =
      ((body f h).1, { name := n, flights := [(body f h).2.1] }, (body f h).2.2) := by
  simp [Airline.onFlight, Airline.getFlight, hid, storeFlight]

theorem Flight.getPassenger_sound (f : Flight) (h : Heap) (s : String) (p : PassengerRef)
    (hget : f.getPassenger h s = some p) :
    s ≠ "" ∧ p ∈ f.passengers ∧ (h p).seatNumber = s := by
  unfold Flight.getPassenger at hget
  by_cases hs : s = ""
  · simp [hs] at hget
  · simp only [hs, if_false] at hget
    refine ⟨hs, List.mem_of_find?_eq_some hget, ?_⟩
    have := List.find?_some hget
    simpa [Passenger.getSeatNumber] using this

/-- What a failing `changeBooking` does once flight and passenger are found: the
passenger's seat id has been cleared and the restoring `assignSeat` is refused,
the old seat still being Occupied. -/
theorem Airline.changeBookingOn_of_unavailable (f : Flight) (h : Heap) (sOld sNew : String)
    (p : PassengerRef) (seat : Seat) (hget : f.getPassenger h sOld = some p)
    (hs : SeatMap.find f.seats sOld = some seat) (hocc : seat.status = Status.Occupied)
    (hbad : SeatMap.find f.seats sNew = none ∨
      ∃ seat2, SeatMap.find f.seats sNew = some seat2 ∧ seat2.status ≠ Status.Available) :
    Airline.changeBookingOn f h sOld sNew =
      (false, f, Function.update h p (h p).unassignSeat) := by
  have hsn := (Flight.getPassenger_sound f h sOld p hget).2.2
  unfold Airline.changeBookingOn
  simp only [hget, Passenger.getSeatNumber, hsn,
    Flight.assignSeat_of_unavailable f _ (some p) sNew (Or.inr hbad)]
  simp only [Bool.not_false, if_true]
  rw [Flight.assignSeat_of_unavailable f _ (some p) sOld
    (Or.inr (Or.inr ⟨seat, hs, by rw [hocc]; decide⟩))]

/-- What a successful `changeBooking` does once flight and passenger are found:
the new seat is written and the passenger carries the new id; the old seat is
not touched. -/
theorem Airline.changeBookingOn_of_available (f : Flight) (h : Heap) (sOld sNew : String)
    (p : PassengerRef) (seat2 : Seat) (hget : f.getPassenger h sOld = some p)
    (hs : SeatMap.find f.seats sNew = some seat2) (hav : seat2.status = Status.Available) :
    Airline.changeBookingOn f h sOld sNew =
      (true, { f with seats := SeatMap.store f.seats sNew (seat2.setPassenger (some p)).2 },
        Function.update (Function.update h p (h p).unassignSeat) p
          ((Function.update h p (h p).unassignSeat p).setSeatNumber sNew)) := by
  unfold Airline.changeBookingOn
  simp only [hget, Flight.assignSeat_of_available f _ p sNew seat2 hs hav]
  rfl

theorem Airline.cancelBookingOn_of_found (f : Flight) (h : Heap) (s : String)
    (p : PassengerRef) (hget : f.getPassenger h s = some p) :
    Airline.cancelBookingOn f h s = (true, f, Function.update h p (h p).unassignSeat) := by
  simp [Airline.cancelBookingOn, hget]

theorem sampleBooked_getPassenger : sampleBooked.2.1.getPassenger sampleBooked.2.2 "19A" = some 0 := by
  unfold Flight.getPassenger
  rw [sampleBooked_roster, sampleBooked_heap]
  decide

theorem sampleBooked_flightNumber : sampleBooked.2.1.flightNumber = "AA100" := by
  obtain ⟨seat, _, _, _, heq⟩ := sampleBooked_eq
  rw [heq]
  rfl

theorem sampleBooked_find_ne (k : String) (hk : k ≠ "19A") :
    SeatMap.find sampleBooked.2.1.seats k = SeatMap.find sampleFlight.seats k := by
  obtain ⟨seat, _, _, _, heq⟩ := sampleBooked_eq
  rw [heq]
  simp only []
  exact SeatMap.find_store_ne _ _ _ _ (fun e => hk e.symm)

/-! ## Seat map order and `getAvailableSeats` -/

theorem SeatMap.mem_of_find (m : SeatMap) (k : String) (v : Seat)
    (hk : SeatMap.find m k = some v) : (k, v) ∈ m := by
  induction m with
  | nil => simp [SeatMap.find] at hk
  | cons e rest ih =>
    obtain ⟨k1, v1⟩ := e
    unfold SeatMap.find at hk
    by_cases h1 : k1 = k
    · simp only [h1, if_true, Option.some.injEq] at hk
      simp [h1, hk]
    · simp only [h1, if_false] at hk
      exact List.mem_cons_of_mem _ (ih hk)

theorem SeatMap.find_of_mem_sorted (m : SeatMap) (k : String) (v : Seat)
    (hs : SeatMap.Sorted m) (hmem : (k, v) ∈ m) : SeatMap.find m k = some v := by
  induction m with
  | nil => simp at hmem
  | cons e rest ih =>
    obtain ⟨k1, v1⟩ := e
    unfold SeatMap.Sorted at hs
    rw [List.pairwise_cons] at hs
    rcases List.mem_cons.1 hmem with h1 | h1
    · cases h1
      simp [SeatMap.find]
    · have hlt : k1.data < k.data := hs.1 (k, v) h1
      have hne : k1 ≠ k := by
        intro e
        subst e
        exact lt_irrefl _ hlt
      simp only [SeatMap.find, hne, if_false]
      exact ih hs.2 h1

theorem SeatMap.store_keys (m : SeatMap) (k : String) (v : Seat) :
    (SeatMap.store m k v).map Prod.fst = m.map Prod.fst := by
  induction m with
  | nil => rfl
  | cons e rest ih =>
    obtain ⟨k1, v1⟩ := e
    unfold SeatMap.store
    by_cases h1 : k1 = k
    · simp [h1]
    · simp [h1, ih]

theorem SeatMap.sorted_iff_keys (m : SeatMap) :
    SeatMap.Sorted m ↔ (m.map Prod.fst).Pairwise (fun a b => a.data < b.data) := by
  unfold SeatMap.Sorted
  rw [List.pairwise_map]

theorem SeatMap.sorted_store (m : SeatMap) (k : String) (v : Seat) (hs : SeatMap.Sorted m) :
    SeatMap.Sorted (SeatMap.store m k v) := by
  rw [SeatMap.sorted_iff_keys] at hs ⊢
  rw [SeatMap.store_keys]
  exact hs

theorem Flight.new_sorted (fn o d : String) (t : Int) (bp : ℚ) (gen : Nat → Int → Int) :
    SeatMap.Sorted (Flight.new fn o d t bp gen).seats := by
  rw [Flight.new_seats]
  exact SeatMap.foldl_assign_sorted _ _ _ [] List.Pairwise.nil

theorem Flight.mem_getAvailableSeats (f : Flight) (hs : SeatMap.Sorted f.seats) (k : String) :
    k ∈ f.getAvailableSeats ↔
      ∃ seat, SeatMap.find f.seats k = some seat ∧ seat.status = Status.Available := by
  unfold Flight.getAvailableSeats
  rw [List.mem_map]
  constructor
  · rintro ⟨⟨k1, v⟩, hmem, hk⟩
    rw [List.mem_filter] at hmem
    simp only at hk
    subst hk
    exact ⟨v, SeatMap.find_of_mem_sorted _ _ _ hs hmem.1, by simpa [Seat.isAvailable] using hmem.2⟩
  · rintro ⟨seat, hfind, hav⟩
    refine ⟨(k, seat), ?_, rfl⟩
    rw [List.mem_filter]
    exact ⟨SeatMap.mem_of_find _ _ _ hfind, by simp [Seat.isAvailable, hav]⟩

theorem sampleBooked_sorted : SeatMap.Sorted sampleBooked.2.1.seats := by
  obtain ⟨seat, _, _, _, heq⟩ := sampleBooked_eq
  rw [heq]
  simp only []
  exact SeatMap.sorted_store _ _ _ (Flight.new_sorted _ _ _ _ _ _)

/-! ## Airline::changeBooking and Airline::cancelBooking -/

theorem Airline.changeBooking_single_of_unavailable (n id sOld sNew : String) (f : Flight)
    (h : Heap) (p : PassengerRef) (seat : Seat) (hid : f.flightNumber = id)
    (hget : f.getPassenger h sOld = some p)
    (hs : SeatMap.find f.seats sOld = some seat) (hocc : seat.status = Status.Occupied)
    (hbad : SeatMap.find f.seats sNew = none ∨
      ∃ seat2, SeatMap.find f.seats sNew = some seat2 ∧ seat2.status ≠ Status.Available) :
    Airline.changeBooking { name := n, flights := [f] } h id sOld sNew =
      (false, { name := n, flights := [f] }, Function.update h p (h p).unassignSeat) := by
  unfold Airline.changeBooking
  rw [Airline.onFlight_single _ _ _ _ _ hid,
    Airline.changeBookingOn_of_unavailable f h sOld sNew p seat hget hs hocc hbad]

theorem Airline.changeBooking_single_of_available (n id sOld sNew : String) (f : Flight)
    (h : Heap) (p : PassengerRef) (seat2 : Seat) (hid : f.flightNumber = id)
    (hget : f.getPassenger h sOld = some p)
    (hs : SeatMap.find f.seats sNew = some seat2) (hav : seat2.status = Status.Available)
    (hnone : seat2.passenger = none) :
    Airline.changeBooking { name := n, flights := [f] } h id sOld sNew =
      (true,
       { name := n,
         flights :=
           [{ f with
              seats := SeatMap.store f.seats sNew
                { seat2 with passenger := some p, status := Status.Occupied } }] },
       Function.update (Function.update h p (h p).unassignSeat) p
          ((Function.update h p (h p).unassignSeat p).setSeatNumber sNew)) := by
  unfold Airline.changeBooking
  rw [Airline.onFlight_single _ _ _ _ _ hid,
    Airline.changeBookingOn_of_available f h sOld sNew p seat2 hget hs hav,
    Seat.setPassenger_of_free seat2 p hav hnone]

theorem Airline.cancelBooking_single (n id s : String) (f : Flight) (h : Heap)
    (p : PassengerRef) (hid : f.flightNumber = id) (hget : f.getPassenger h s = some p) :
    Airline.cancelBooking { name := n, flights := [f] } h id s =
      (true, { name := n, flights := [f] }, Function.update h p (h p).unassignSeat) := by
  unfold Airline.cancelBooking
  rw [Airline.onFlight_single _ _ _ _ _ hid, Airline.cancelBookingOn_of_found _ _ s p hget]

theorem Airline.getAvailableSeats_single (n id : String) (f : Flight)
    (hid : f.flightNumber = id) :
    Airline.getAvailableSeats { name := n, flights := [f] } id = f.getAvailableSeats := by
  simp [Airline.getAvailableSeats, Airline.getFlight, hid]

theorem Flight.not_available_of_holds (f : Flight) (hs : SeatMap.Sorted f.seats) (k : String)
    (p : PassengerRef) (hh : f.Holds k p) : k ∉ f.getAvailableSeats := by
  rw [Flight.mem_getAvailableSeats f hs]
  rintro ⟨seat1, h1, h2⟩
  obtain ⟨seat, hfind, hocc, _⟩ := hh
  rw [hfind] at h1
  cases h1
  rw [hocc] at h2
  exact absurd h2 (by decide)

theorem Heap.unassigned_seatNumber (h : Heap) (p : PassengerRef) :
    (Function.update h p (h p).unassignSeat p).seatNumber = "" := by
  simp [Passenger.unassignSeat]

theorem sampleBooked_find_99Z : SeatMap.find sampleBooked.2.1.seats "99Z" = none := by
  rw [sampleBooked_find_ne "99Z" (by decide)]
  exact Flight.new_find_99Z _ _ _ _ _ _

theorem sampleBooked_seatNumber : (sampleBooked.2.2 0).seatNumber = "19A" := by
  rw [sampleBooked_heap]
  rfl

/-- C3, the code at the failing input: passenger 0 sits on "19A" of flight
"AA100"; `changeBooking("AA100", "19A", "99Z")`, "99Z" not being a seat,
returns false, the flight is as before (seat "19A" still Occupied by the
passenger) and the passenger's seat id is now empty instead of "19A". -/
theorem changeBooking_failure_clears_seat_id :
    sampleBooked.2.1.Holds "19A" 0 ∧ (sampleBooked.2.2 0).seatNumber = "19A" ∧
    SeatMap.find sampleBooked.2.1.seats "99Z" = none ∧
    (sampleAirline.changeBooking sampleBooked.2.2 "AA100" "19A" "99Z").1 = false ∧
    (sampleAirline.changeBooking sampleBooked.2.2 "AA100" "19A" "99Z").2.1.flights =
      [sampleBooked.2.1] ∧
    ((sampleAirline.changeBooking sampleBooked.2.2 "AA100" "19A" "99Z").2.2 0).seatNumber = "" := by
  obtain ⟨seat, hs, hocc, hp⟩ := sampleBooked_holds
  have hres : sampleAirline.changeBooking sampleBooked.2.2 "AA100" "19A" "99Z" =
      (false, { name := "Air", flights := [sampleBooked.2.1] },
        Function.update sampleBooked.2.2 0 (sampleBooked.2.2 0).unassignSeat) :=
    Airline.changeBooking_single_of_unavailable "Air" "AA100" "19A" "99Z" sampleBooked.2.1
      sampleBooked.2.2 0 seat sampleBooked_flightNumber sampleBooked_getPassenger hs hocc
      (Or.inl sampleBooked_find_99Z)
  rw [hres]
  refine ⟨⟨seat, hs, hocc, hp⟩, sampleBooked_seatNumber, sampleBooked_find_99Z, ?_, ?_, ?_⟩
  · simp only []
  · simp only []
  · simp only []
    exact Heap.unassigned_seatNumber sampleBooked.2.2 0

theorem sampleBooked_seat_19B :
    ∃ seat, SeatMap.find sampleBooked.2.1.seats "19B" = some seat ∧
      seat.status = Status.Available ∧ seat.passenger = none := by
  obtain ⟨seat2, hs2, hav2, hnone2⟩ :=
    Flight.new_seat_19B "AA100" "YYC" "YVR" 0 500 (fun _ _ => 0)
  refine ⟨seat2, ?_, hav2, hnone2⟩
  rw [sampleBooked_find_ne "19B" (by decide)]
  exact hs2

/-- C4, the code at the failing input: passenger 0 sits on "19A";
`changeBooking("AA100", "19A", "19B")` returns true, seat "19B" is Occupied by
the passenger, whose seat id is "19B", and the old seat "19A" is still
Occupied recording the same passenger: it has not been unassigned. -/
theorem changeBooking_success_keeps_old_seat :
    (sampleAirline.changeBooking sampleBooked.2.2 "AA100" "19A" "19B").1 = true ∧
    (∃ f, (sampleAirline.changeBooking sampleBooked.2.2 "AA100" "19A" "19B").2.1.flights = [f] ∧
      f.Holds "19A" 0 ∧ f.Holds "19B" 0) ∧
    ((sampleAirline.changeBooking sampleBooked.2.2 "AA100" "19A" "19B").2.2 0).seatNumber =
      "19B" := by
  obtain ⟨seat, hs, hocc, hp⟩ := sampleBooked_holds
  obtain ⟨seat2, hs2, hav2, hnone2⟩ := sampleBooked_seat_19B
  have hres : sampleAirline.changeBooking sampleBooked.2.2 "AA100" "19A" "19B" = _ :=
    Airline.changeBooking_single_of_available "Air" "AA100" "19A" "19B" sampleBooked.2.1
      sampleBooked.2.2 0 seat2 sampleBooked_flightNumber sampleBooked_getPassenger hs2 hav2
      hnone2
  rw [hres]
  refine ⟨?_, ⟨_, rfl, ?_, ?_⟩, ?_⟩
  · simp only []
  · refine ⟨seat, ?_, hocc, hp⟩
    simp only []
    rw [SeatMap.find_store_ne _ _ _ _ (by decide)]
    exact hs
  · refine ⟨{ seat2 with passenger := some 0, status := Status.Occupied }, ?_, rfl, rfl⟩
    simp only []
    exact SeatMap.find_store_self _ _ _ _ hs2
  · simp [Passenger.setSeatNumber]

/-- C5, the code at the failing input: passenger 0 occupies "19A" of flight
"AA100"; `cancelBooking("AA100", "19A")` returns true and clears the
passenger's seat id, but the flight is as before: seat "19A" stays Occupied and
is not among `getAvailableSeats("AA100")`. -/
theorem cancelBooking_leaves_seat_occupied :
    sampleBooked.2.1.Holds "19A" 0 ∧
    (sampleAirline.cancelBooking sampleBooked.2.2 "AA100" "19A").1 = true ∧
    (sampleAirline.cancelBooking sampleBooked.2.2 "AA100" "19A").2.1.flights =
      [sampleBooked.2.1] ∧
    "19A" ∉ (sampleAirline.cancelBooking sampleBooked.2.2 "AA100" "19A").2.1.getAvailableSeats
      "AA100" ∧
    ((sampleAirline.cancelBooking sampleBooked.2.2 "AA100" "19A").2.2 0).seatNumber = "" := by
  have hres : sampleAirline.cancelBooking sampleBooked.2.2 "AA100" "19A" =
      (true, { name := "Air", flights := [sampleBooked.2.1] },
        Function.update sampleBooked.2.2 0 (sampleBooked.2.2 0).unassignSeat) :=
    Airline.cancelBooking_single "Air" "AA100" "19A" sampleBooked.2.1 sampleBooked.2.2 0
      sampleBooked_flightNumber sampleBooked_getPassenger
  rw [hres]
  refine ⟨sampleBooked_holds, ?_, ?_, ?_, ?_⟩
  · simp only []
  · simp only []
  · simp only []
    rw [Airline.getAvailableSeats_single "Air" "AA100" sampleBooked.2.1
      sampleBooked_flightNumber]
    exact Flight.not_available_of_holds _ sampleBooked_sorted "19A" 0 sampleBooked_holds
  · simp only []
    exact Heap.unassigned_seatNumber sampleBooked.2.2 0

/-! ## Preservation of roster/seat consistency -/

theorem Flight.seat_free_of_available (f : Flight) (hok : f.SeatsOk) (s : String) (seat : Seat)
    (hs : SeatMap.find f.seats s = some seat) (hav : seat.status = Status.Available) :
    seat.passenger = none := by
  by_contra hne
  have := hok s seat hs hne
  rw [hav] at this
  exact absurd this (by decide)

theorem Flight.assignSeat_cases (f : Flight) (h : Heap) (p : Option PassengerRef) (s : String) :
    f.assignSeat h p s = (false, f, h) ∨
    ∃ q seat, p = some q ∧ SeatMap.find f.seats s = some seat ∧
      seat.status = Status.Available ∧
      f.assignSeat h p s =
        (true, { f with seats := SeatMap.store f.seats s (seat.setPassenger (some q)).2 },
          Function.update h q ((h q).setSeatNumber s)) := by
  cases p with
  | none => exact Or.inl rfl
  | some q =>
    cases hfind : SeatMap.find f.seats s with
    | none => exact Or.inl (Flight.assignSeat_of_unavailable f h _ s (Or.inr (Or.inl hfind)))
    | some seat =>
      by_cases hav : seat.status = Status.Available
      · exact Or.inr ⟨q, seat, rfl, rfl, hav, Flight.assignSeat_of_available f h q s seat hfind hav⟩
      · exact Or.inl (Flight.assignSeat_of_unavailable f h _ s
          (Or.inr (Or.inr ⟨seat, hfind, hav⟩)))

/-- Seating `q` on the Available seat `s` keeps the flight consistent. -/
theorem Flight.consistent_seat (f : Flight) (h : Heap) (q : PassengerRef) (s : String)
    (seat : Seat) (hc : f.Consistent h) (hs : SeatMap.find f.seats s = some seat)
    (hav : seat.status = Status.Available) :
    Flight.Consistent
      { f with seats := SeatMap.store f.seats s
                 { seat with passenger := some q, status := Status.Occupied } }
      (Function.update h q ((h q).setSeatNumber s)) := by
  obtain ⟨hok, hrs, hnd⟩ := hc
  refine ⟨?_, ?_, hnd⟩
  · intro k seat1 hk hp
    simp only [SeatMap.find_store, hs, Option.map_some'] at hk
    by_cases hks : s = k
    · simp only [hks, if_true, Option.some.injEq] at hk
      rw [← hk]
    · simp only [hks, if_false] at hk
      exact hok k seat1 hk hp
  · intro r hr hne
    by_cases hrq : r = q
    · subst hrq
      simp only [Function.update_same, Passenger.setSeatNumber]
      exact ⟨_, SeatMap.find_store_self _ _ _ _ hs, rfl, rfl⟩
    · simp only [Function.update_noteq hrq] at hne ⊢
      obtain ⟨seat1, h1, h2, h3⟩ := hrs r hr hne
      have hks : s ≠ (h r).seatNumber := by
        intro e
        rw [← e, hs] at h1
        cases h1
        rw [hav] at h2
        exact absurd h2 (by decide)
      exact ⟨seat1, by simp only []; rw [SeatMap.find_store_ne _ _ _ _ hks]; exact h1, h2, h3⟩

theorem Flight.consistent_assignSeat (f : Flight) (h : Heap) (p : Option PassengerRef)
    (s : String) (hc : f.Consistent h) :
    (f.assignSeat h p s).2.1.Consistent (f.assignSeat h p s).2.2 := by
  rcases Flight.assignSeat_cases f h p s with hres | ⟨q, seat, _, hs, hav, hres⟩
  · rw [hres]
    exact hc
  · rw [hres, Seat.setPassenger_of_free seat q hav
      (Flight.seat_free_of_available f hc.1 s seat hs hav)]
    exact Flight.consistent_seat f h q s seat hc hs hav

/-- Embeds `Passenger::unassignSeat` on any passenger keeps the flight consistent. -/
theorem Flight.consistent_unassign_passenger (f : Flight) (h : Heap) (p : PassengerRef)
    (hc : f.Consistent h) : f.Consistent (Function.update h p (h p).unassignSeat) := by
  obtain ⟨hok, hrs, hnd⟩ := hc
  refine ⟨hok, ?_, hnd⟩
  intro r hr hne
  by_cases hrp : r = p
  · subst hrp
    simp [Passenger.unassignSeat] at hne
  · simp only [Function.update_noteq hrp] at hne ⊢
    exact hrs r hr hne

/-- Clearing seat `s` keeps the flight consistent. -/
theorem Flight.consistent_clear (f : Flight) (h : Heap) (s : String) (seat : Seat)
    (hc : f.Consistent h) (hs : SeatMap.find f.seats s = some seat) :
    Flight.Consistent { f with seats := SeatMap.store f.seats s (seat.clearPassenger h).1 }
      (seat.clearPassenger h).2 := by
  obtain ⟨hok, hrs, hnd⟩ := hc
  refine ⟨?_, ?_, hnd⟩
  · intro k seat1 hk hp
    simp only [SeatMap.find_store, hs, Option.map_some'] at hk
    by_cases hks : s = k
    · simp only [hks, if_true, Option.some.injEq] at hk
      rw [← hk] at hp
      exact absurd rfl hp
    · simp only [hks, if_false] at hk
      exact hok k seat1 hk hp
  · intro r hr hne
    have hrne : seat.passenger ≠ some r := by
      intro e
      simp [Seat.clearPassenger, e, Passenger.unassignSeat] at hne
    have hheap : (seat.clearPassenger h).2 r = h r := by
      unfold Seat.clearPassenger
      cases hq : seat.passenger with
      | none => rfl
      | some q =>
        have : r ≠ q := by
          intro e
          rw [e] at hrne
          exact hrne hq
        simp [Function.update_noteq this]
    rw [hheap] at hne ⊢
    obtain ⟨seat1, h1, h2, h3⟩ := hrs r hr hne
    have hks : s ≠ (h r).seatNumber := by
      intro e
      rw [← e, hs] at h1
      cases h1
      exact hrne h3
    exact ⟨seat1, by simp only []; rw [SeatMap.find_store_ne _ _ _ _ hks]; exact h1, h2, h3⟩

theorem Flight.consistent_unassignSeat (f : Flight) (h : Heap) (s : String)
    (hc : f.Consistent h) :
    (f.unassignSeat h s).2.1.Consistent (f.unassignSeat h s).2.2 := by
  cases hfind : SeatMap.find f.seats s with
  | none =>
    rw [Flight.unassignSeat_of_invalid f h s hfind]
    exact hc
  | some seat =>
    rw [Flight.unassignSeat_of_valid f h s seat hfind]
    exact Flight.consistent_clear f h s seat hc hfind

theorem eraseFirst_sublist (pred : PassengerRef → Bool) (l : List PassengerRef) :
    (eraseFirst pred l).Sublist l := by
  induction l with
  | nil => exact List.Sublist.refl _
  | cons q rest ih =>
    unfold eraseFirst
    split
    · exact List.sublist_cons_self q rest
    · exact ih.cons₂ q

/-- Dropping passengers from the roster keeps the flight consistent. -/
theorem Flight.consistent_sublist (f : Flight) (h : Heap) (l : List PassengerRef)
    (hc : f.Consistent h) (hl : l.Sublist f.passengers) :
    Flight.Consistent { f with passengers := l } h := by
  obtain ⟨hok, hrs, hnd⟩ := hc
  exact ⟨hok, fun r hr hne => hrs r (hl.subset hr) hne, hnd.sublist hl⟩

/-- Appending a fresh passenger that is unseated, or recorded on the seat it
carries, keeps the flight consistent. -/
theorem Flight.consistent_append (f : Flight) (h : Heap) (p : PassengerRef)
    (hc : f.Consistent h) (hfresh : p ∉ f.passengers)
    (hp : (h p).seatNumber ≠ "" → f.Holds (h p).seatNumber p) :
    Flight.Consistent { f with passengers := f.passengers ++ [p] } h := by
  obtain ⟨hok, hrs, hnd⟩ := hc
  refine ⟨hok, ?_, ?_⟩
  · intro r hr hne
    simp only [List.mem_append, List.mem_singleton] at hr
    rcases hr with hr | hr
    · exact hrs r hr hne
    · subst hr
      exact hp hne
  · simp only []
    rw [List.nodup_append]
    refine ⟨hnd, List.nodup_singleton p, ?_⟩
    intro a ha hb
    rw [List.mem_singleton] at hb
    subst hb
    exact hfresh ha

theorem Flight.consistent_addPassenger (f : Flight) (h : Heap) (p : PassengerRef)
    (hc : f.Consistent h) (hfresh : p ∉ f.passengers) :
    (f.addPassenger h (some p)).2.1.Consistent (f.addPassenger h (some p)).2.2 := by
  by_cases he : (h p).seatNumber = ""
  · rw [Flight.addPassenger_of_unseated f h p he]
    exact Flight.consistent_append f h p hc hfresh (fun hne => absurd he hne)
  · cases hfind : SeatMap.find f.seats (h p).seatNumber with
    | none =>
      rw [Flight.addPassenger_of_unavailable f h p he (Or.inl hfind)]
      exact hc
    | some seat =>
      by_cases hav : seat.status = Status.Available
      · rw [Flight.addPassenger_of_available f h p seat he hfind hav,
          Seat.setPassenger_of_free seat p hav
            (Flight.seat_free_of_available f hc.1 _ seat hfind hav)]
        have h1 := Flight.consistent_seat f h p _ seat hc hfind hav
        refine Flight.consistent_append _ _ p h1 hfresh ?_
        intro _
        simp only [Function.update_same, Passenger.setSeatNumber]
        exact ⟨_, SeatMap.find_store_self _ _ _ _ hfind, rfl, rfl⟩
      · rw [Flight.addPassenger_of_unavailable f h p he (Or.inr ⟨seat, hfind, hav⟩)]
        exact hc

theorem Flight.consistent_removePassenger (f : Flight) (h : Heap) (s : String)
    (hc : f.Consistent h) :
    (f.removePassenger h s).2.1.Consistent (f.removePassenger h s).2.2 := by
  unfold Flight.removePassenger
  by_cases hs : s = ""
  · simp only [hs, if_true]
    exact hc
  · simp only [hs, if_false]
    cases f.passengers.find? (fun p => decide ((h p).getSeatNumber = s)) with
    | none => exact hc
    | some q =>
      exact Flight.consistent_sublist _ _ _ (Flight.consistent_unassignSeat f h s hc)
        (eraseFirst_sublist _ _)

theorem Seat.statusOnly_reserve : Seat.StatusOnly Seat.reserve := by
  intro seat
  unfold Seat.reserve
  by_cases hav : seat.status = Status.Available
  · right
    simp [Seat.isAvailable, hav]
  · left
    simp [Seat.isAvailable, hav]

theorem Seat.statusOnly_unreserve : Seat.StatusOnly Seat.unreserve := by
  intro seat
  unfold Seat.unreserve
  by_cases hav : seat.status = Status.Reserved
  · right
    simp [Seat.isReserved, hav]
  · left
    simp [Seat.isReserved, hav]

theorem Seat.statusOnly_block : Seat.StatusOnly Seat.block := by
  intro seat
  unfold Seat.block
  by_cases hav : seat.status = Status.Available
  · right
    simp [Seat.isAvailable, Seat.isReserved, hav]
  · by_cases hre : seat.status = Status.Reserved
    · right
      simp [Seat.isAvailable, Seat.isReserved, hre]
    · left
      simp [Seat.isAvailable, Seat.isReserved, hav, hre]

theorem Seat.statusOnly_unblock : Seat.StatusOnly Seat.unblock := by
  intro seat
  unfold Seat.unblock
  by_cases hav : seat.status = Status.Blocked
  · right
    simp [Seat.isBlocked, hav]
  · left
    simp [Seat.isBlocked, hav]

theorem Flight.consistent_onSeat (f : Flight) (h : Heap) (s : String)
    (op : Seat → Bool × Seat) (hop : Seat.StatusOnly op) (hc : f.Consistent h) :
    (f.onSeat s op).2.Consistent h := by
  unfold Flight.onSeat
  cases hfind : SeatMap.find f.seats s with
  | none => exact hc
  | some seat =>
    obtain ⟨hok, hrs, hnd⟩ := hc
    simp only []
    refine ⟨?_, ?_, hnd⟩
    · intro k seat1 hk hp
      simp only [SeatMap.find_store, hfind, Option.map_some'] at hk
      by_cases hks : s = k
      · simp only [hks, if_true, Option.some.injEq] at hk
        rcases hop seat with h1 | ⟨h1, h2, _⟩
        · rw [h1] at hk
          rw [← hk] at hp ⊢
          exact hok s seat hfind hp
        · rw [← hk, h2] at hp
          exact absurd (hok s seat hfind hp) h1
      · simp only [hks, if_false] at hk
        exact hok k seat1 hk hp
    · intro r hr hne
      obtain ⟨seat1, h1, h2, h3⟩ := hrs r hr hne
      by_cases hks : s = (h r).seatNumber
      · rw [← hks, hfind] at h1
        cases h1
        rcases hop seat with h4 | ⟨h4, _, _⟩
        · refine ⟨seat, ?_, h2, h3⟩
          simp only []
          rw [← hks, SeatMap.find_store_self _ _ _ _ hfind, h4]
        · exact absurd h2 h4
      · exact ⟨seat1, by simp only []; rw [SeatMap.find_store_ne _ _ _ _ hks]; exact h1, h2, h3⟩

theorem Airline.consistent_bookSeatOn (f : Flight) (h : Heap) (pid s : String)
    (hc : f.Consistent h) :
    (Airline.bookSeatOn f h pid s).2.1.Consistent (Airline.bookSeatOn f h pid s).2.2 := by
  unfold Airline.bookSeatOn
  cases f.getPassenger h pid with
  | none => exact hc
  | some p => exact Flight.consistent_assignSeat f h (some p) s hc

theorem Airline.consistent_cancelBookingOn (f : Flight) (h : Heap) (pid : String)
    (hc : f.Consistent h) :
    (Airline.cancelBookingOn f h pid).2.1.Consistent (Airline.cancelBookingOn f h pid).2.2 := by
  unfold Airline.cancelBookingOn
  cases f.getPassenger h pid with
  | none => exact hc
  | some p => exact Flight.consistent_unassign_passenger f h p hc

theorem Airline.consistent_changeBookingOn (f : Flight) (h : Heap) (pid s : String)
    (hc : f.Consistent h) :
    (Airline.changeBookingOn f h pid s).2.1.Consistent
      (Airline.changeBookingOn f h pid s).2.2 := by
  unfold Airline.changeBookingOn
  cases f.getPassenger h pid with
  | none => exact hc
  | some p =>
    have h1 := Flight.consistent_unassign_passenger f h p hc
    have h2 := Flight.consistent_assignSeat f _ (some p) s h1
    simp only []
    split
    · exact Flight.consistent_assignSeat _ _ (some p) _ h2
    · exact h2

theorem Call.consistent_run (c : Call) (st : Flight × Heap) (hc : st.1.Consistent st.2)
    (hown : c.Owned st) : (c.run st).1.Consistent (c.run st).2 := by
  cases c with
  | addPassenger p =>
    cases p with
    | none => exact hc
    | some q => exact Flight.consistent_addPassenger st.1 st.2 q hc hown
  | assignSeat p s => exact Flight.consistent_assignSeat st.1 st.2 p s hc
  | unassignSeat s => exact Flight.consistent_unassignSeat st.1 st.2 s hc
  | removePassenger s => exact Flight.consistent_removePassenger st.1 st.2 s hc
  | reserveSeat s => exact Flight.consistent_onSeat st.1 st.2 s _ Seat.statusOnly_reserve hc
  | cancelReservation s =>
    exact Flight.consistent_onSeat st.1 st.2 s _ Seat.statusOnly_unreserve hc
  | blockSeat s => exact Flight.consistent_onSeat st.1 st.2 s _ Seat.statusOnly_block hc
  | unblockSeat s => exact Flight.consistent_onSeat st.1 st.2 s _ Seat.statusOnly_unblock hc
  | bookSeat pid s => exact Airline.consistent_bookSeatOn st.1 st.2 pid s hc
  | cancelBooking pid => exact Airline.consistent_cancelBookingOn st.1 st.2 pid hc
  | changeBooking pid s => exact Airline.consistent_changeBookingOn st.1 st.2 pid s hc

theorem Flight.new_consistent (fn o d : String) (t : Int) (bp : ℚ) (gen : Nat → Int → Int)
    (h : Heap) : (Flight.new fn o d t bp gen).Consistent h := by
  refine ⟨Flight.new_seatsOk fn o d t bp gen, ?_, ?_⟩
  · intro p hp
    rw [Flight.new_passengers] at hp
    simp at hp
  · rw [Flight.new_passengers]
    exact List.nodup_nil

theorem Reachable.consistent (allowed : Flight × Heap → Call → Prop) (init st : Flight × Heap)
    (hall : ∀ st c, allowed st c → c.Owned st) (hinit : init.1.Consistent init.2)
    (hr : Reachable allowed init st) : st.1.Consistent st.2 := by
  induction hr with
  | start => exact hinit
  | step st c _ hc ih => exact Call.consistent_run c st ih (hall st c hc)

/-! ## No orphaned seat, for calls that go through the roster -/

theorem Flight.new_find_empty (fn o d : String) (t : Int) (bp : ℚ) (gen : Nat → Int → Int) :
    SeatMap.find (Flight.new fn o d t bp gen).seats "" = none := by
  cases hfind : SeatMap.find (Flight.new fn o d t bp gen).seats "" with
  | none => rfl
  | some seat =>
    obtain ⟨⟨r, l⟩, hx, hkey, _⟩ := Flight.new_find fn o d t bp gen _ _ hfind
    rw [mem_generatedPairs] at hx
    have e1 : l.data.length = 1 := letter_length r ((mem_rows_iff r).2 hx.1) l hx.2
    have hd : (toString r).data ++ l.data = [] := by
      have := congrArg String.data hkey
      simpa [seatNumberOf, String.data_append] using this
    have := congrArg List.length hd
    simp only [List.length_append, List.length_nil] at this
    omega

theorem SeatMap.find_store_empty (m : SeatMap) (s : String) (v : Seat)
    (he : SeatMap.find m "" = none) : SeatMap.find (SeatMap.store m s v) "" = none := by
  rw [SeatMap.find_store]
  split
  · next h1 => rw [h1, he]; rfl
  · exact he

/-- Seating `q` on the Available seat `s` leaves no orphaned seat, when `q` is
on the new roster and is not a roster passenger that already carries a seat. -/
theorem Flight.noOrphan_seat (f : Flight) (h : Heap) (q : PassengerRef) (s : String)
    (seat : Seat) (l : List PassengerRef) (hno : f.NoOrphanSeat h)
    (he : SeatMap.find f.seats "" = none) (hs : SeatMap.find f.seats s = some seat)
    (hsub : ∀ r ∈ f.passengers, r ∈ l) (hq : q ∈ l)
    (hfree : ∀ r ∈ f.passengers, (h r).seatNumber ≠ "" → r ≠ q) :
    Flight.NoOrphanSeat
      { f with
        seats := SeatMap.store f.seats s
          { seat with passenger := some q, status := Status.Occupied }
        passengers := l }
      (Function.update h q ((h q).setSeatNumber s)) := by
  intro k seat1 hk hocc
  simp only [SeatMap.find_store, hs, Option.map_some'] at hk
  by_cases hks : s = k
  · simp only [hks, if_true, Option.some.injEq] at hk
    refine ⟨q, by rw [← hk], hq, ?_⟩
    simp [Passenger.setSeatNumber, hks]
  · simp only [hks, if_false] at hk
    obtain ⟨r, h1, h2, h3⟩ := hno k seat1 hk hocc
    have hkne : k ≠ "" := by
      intro e
      rw [e, he] at hk
      exact absurd hk (by simp)
    have hrq : r ≠ q := hfree r h2 (by rw [h3]; exact hkne)
    exact ⟨r, h1, hsub r h2, by rw [Function.update_noteq hrq]; exact h3⟩

/-- Clearing seat `s` leaves no orphaned seat, when the new roster keeps every
passenger that does not carry `s`. -/
theorem Flight.noOrphan_clear (f : Flight) (h : Heap) (s : String) (seat : Seat)
    (l : List PassengerRef) (hok : f.SeatsOk) (hno : f.NoOrphanSeat h)
    (hs : SeatMap.find f.seats s = some seat)
    (hkeep : ∀ r ∈ f.passengers, (h r).seatNumber ≠ s → r ∈ l) :
    Flight.NoOrphanSeat
      { f with seats := SeatMap.store f.seats s (seat.clearPassenger h).1, passengers := l }
      (seat.clearPassenger h).2 := by
  intro k seat1 hk hocc
  simp only [SeatMap.find_store, hs, Option.map_some'] at hk
  by_cases hks : s = k
  · simp only [hks, if_true, Option.some.injEq] at hk
    rw [← hk] at hocc
    exact absurd hocc (by simp [Seat.clearPassenger])
  · simp only [hks, if_false] at hk
    obtain ⟨r, h1, h2, h3⟩ := hno k seat1 hk hocc
    have hrs : (h r).seatNumber ≠ s := by
      rw [h3]
      exact fun e => hks e.symm
    refine ⟨r, h1, hkeep r h2 hrs, ?_⟩
    have hheap : (seat.clearPassenger h).2 r = h r := by
      unfold Seat.clearPassenger
      cases hq : seat.passenger with
      | none => rfl
      | some q =>
        have hqocc : seat.status = Status.Occupied := hok s seat hs (by rw [hq]; simp)
        obtain ⟨q1, e1, _, e3⟩ := hno s seat hs hqocc
        rw [hq] at e1
        cases e1
        have : r ≠ q := by
          intro e
          rw [e] at hrs
          exact hrs e3
        simp [Function.update_noteq this]
    rw [hheap]
    exact h3

/-- Changing the roster leaves no orphaned seat, when every passenger that
carries a seat of the flight is kept. -/
theorem Flight.noOrphan_roster (f : Flight) (h : Heap) (l : List PassengerRef)
    (hno : f.NoOrphanSeat h)
    (hkeep : ∀ r ∈ f.passengers, SeatMap.find f.seats (h r).seatNumber ≠ none → r ∈ l) :
    Flight.NoOrphanSeat { f with passengers := l } h := by
  intro k seat1 hk hocc
  obtain ⟨r, h1, h2, h3⟩ := hno k seat1 hk hocc
  refine ⟨r, h1, hkeep r h2 ?_, h3⟩
  have hk1 : SeatMap.find f.seats k = some seat1 := hk
  rw [h3, hk1]
  simp

theorem mem_eraseFirst (pred : PassengerRef → Bool) (l : List PassengerRef) (r : PassengerRef)
    (hr : r ∈ l) (hp : pred r = false) : r ∈ eraseFirst pred l := by
  induction l with
  | nil => simp at hr
  | cons q rest ih =>
    unfold eraseFirst
    rcases List.mem_cons.1 hr with h1 | h1
    · subst h1
      simp [hp]
    · split
      · exact h1
      · exact List.mem_cons_of_mem _ (ih h1)

theorem Flight.tight_assignSeat (f : Flight) (h : Heap) (p : Option PassengerRef) (s : String)
    (ht : f.Tight h)
    (hg : ∀ q, p = some q → q ∈ f.passengers ∧ (h q).seatNumber = "") :
    (f.assignSeat h p s).2.1.Tight (f.assignSeat h p s).2.2 := by
  refine ⟨Flight.consistent_assignSeat f h p s ht.1, ?_⟩
  rcases Flight.assignSeat_cases f h p s with hres | ⟨q, seat, hp, hs, hav, hres⟩
  · rw [hres]
    exact ht.2
  · rw [hres, Seat.setPassenger_of_free seat q hav
      (Flight.seat_free_of_available f ht.1.1 s seat hs hav)]
    obtain ⟨hq1, hq2⟩ := hg q hp
    refine ⟨?_, ?_⟩
    · refine Flight.noOrphan_seat f h q s seat f.passengers ht.2.1 ht.2.2 hs
        (fun r hr => hr) hq1 ?_
      intro r _ hne e
      rw [e] at hne
      exact hne hq2
    · simp only []
      exact SeatMap.find_store_empty _ _ _ ht.2.2

theorem Flight.tight_unassignSeat (f : Flight) (h : Heap) (s : String) (ht : f.Tight h) :
    (f.unassignSeat h s).2.1.Tight (f.unassignSeat h s).2.2 := by
  refine ⟨Flight.consistent_unassignSeat f h s ht.1, ?_⟩
  cases hfind : SeatMap.find f.seats s with
  | none =>
    rw [Flight.unassignSeat_of_invalid f h s hfind]
    exact ht.2
  | some seat =>
    rw [Flight.unassignSeat_of_valid f h s seat hfind]
    refine ⟨?_, ?_⟩
    · exact Flight.noOrphan_clear f h s seat f.passengers ht.1.1 ht.2.1 hfind (fun r hr _ => hr)
    · simp only []
      exact SeatMap.find_store_empty _ _ _ ht.2.2

theorem Flight.tight_addPassenger (f : Flight) (h : Heap) (p : PassengerRef)
    (ht : f.Tight h) (hfresh : p ∉ f.passengers) :
    (f.addPassenger h (some p)).2.1.Tight (f.addPassenger h (some p)).2.2 := by
  refine ⟨Flight.consistent_addPassenger f h p ht.1 hfresh, ?_⟩
  by_cases he : (h p).seatNumber = ""
  · rw [Flight.addPassenger_of_unseated f h p he]
    refine ⟨?_, ht.2.2⟩
    exact Flight.noOrphan_roster f h _ ht.2.1 (fun r hr _ => List.mem_append_left _ hr)
  · cases hfind : SeatMap.find f.seats (h p).seatNumber with
    | none =>
      rw [Flight.addPassenger_of_unavailable f h p he (Or.inl hfind)]
      exact ht.2
    | some seat =>
      by_cases hav : seat.status = Status.Available
      · rw [Flight.addPassenger_of_available f h p seat he hfind hav,
          Seat.setPassenger_of_free seat p hav
            (Flight.seat_free_of_available f ht.1.1 _ seat hfind hav)]
        refine ⟨?_, ?_⟩
        · refine Flight.noOrphan_seat f h p _ seat (f.passengers ++ [p]) ht.2.1 ht.2.2 hfind
            (fun r hr => List.mem_append_left _ hr) (by simp) ?_
          intro r hr _ e
          rw [e] at hr
          exact hfresh hr
        · simp only []
          exact SeatMap.find_store_empty _ _ _ ht.2.2
      · rw [Flight.addPassenger_of_unavailable f h p he (Or.inr ⟨seat, hfind, hav⟩)]
        exact ht.2

theorem Flight.tight_removePassenger (f : Flight) (h : Heap) (s : String) (ht : f.Tight h) :
    (f.removePassenger h s).2.1.Tight (f.removePassenger h s).2.2 := by
  refine ⟨Flight.consistent_removePassenger f h s ht.1, ?_⟩
  unfold Flight.removePassenger
  by_cases hs : s = ""
  · simp only [hs, if_true]
    exact ht.2
  · simp only [hs, if_false]
    cases f.passengers.find? (fun p => decide ((h p).getSeatNumber = s)) with
    | none => exact ht.2
    | some q =>
      have hpred : ∀ r, (h r).seatNumber ≠ s →
          (fun p => decide ((h p).getSeatNumber = s)) r = false := by
        intro r hr
        simpa [Passenger.getSeatNumber] using hr
      cases hfind : SeatMap.find f.seats s with
      | none =>
        rw [Flight.unassignSeat_of_invalid f h s hfind]
        refine ⟨?_, ht.2.2⟩
        refine Flight.noOrphan_roster f h _ ht.2.1 ?_
        intro r hr hne
        refine mem_eraseFirst _ _ r hr (hpred r ?_)
        intro e
        rw [e, hfind] at hne
        exact hne rfl
      | some seat =>
        rw [Flight.unassignSeat_of_valid f h s seat hfind]
        refine ⟨?_, ?_⟩
        · exact Flight.noOrphan_clear f h s seat _ ht.1.1 ht.2.1 hfind
            (fun r hr hne => mem_eraseFirst _ _ r hr (hpred r hne))
        · simp only []
          exact SeatMap.find_store_empty _ _ _ ht.2.2

theorem Call.tight_run (c : Call) (st : Flight × Heap) (ht : st.1.Tight st.2)
    (hg : c.Rostered st) : (c.run st).1.Tight (c.run st).2 := by
  cases c with
  | addPassenger p =>
    cases p with
    | none => exact ht
    | some q => exact Flight.tight_addPassenger st.1 st.2 q ht hg
  | assignSeat p s =>
    refine Flight.tight_assignSeat st.1 st.2 p s ht ?_
    intro q hq
    subst hq
    exact hg
  | unassignSeat s => exact Flight.tight_unassignSeat st.1 st.2 s ht
  | removePassenger s => exact Flight.tight_removePassenger st.1 st.2 s ht
  | reserveSeat s => exact absurd hg id
  | cancelReservation s => exact absurd hg id
  | blockSeat s => exact absurd hg id
  | unblockSeat s => exact absurd hg id
  | bookSeat pid s => exact absurd hg id
  | cancelBooking pid => exact absurd hg id
  | changeBooking pid s => exact absurd hg id

theorem Flight.new_tight (fn o d : String) (t : Int) (bp : ℚ) (gen : Nat → Int → Int)
    (h : Heap) : (Flight.new fn o d t bp gen).Tight h := by
  refine ⟨Flight.new_consistent fn o d t bp gen h, ?_, Flight.new_find_empty fn o d t bp gen⟩
  intro k seat hk hocc
  obtain ⟨x, _, _, hx⟩ := Flight.new_find fn o d t bp gen _ _ hk
  rw [← hx] at hocc
  exact absurd hocc (by simp [generatedSeat, Seat.new, Seat.setPrice, Seat.setSeatClass])

theorem Reachable.tight (init st : Flight × Heap) (hinit : init.1.Tight init.2)
    (hr : Reachable Call.Rostered init st) : st.1.Tight st.2 := by
  induction hr with
  | start => exact hinit
  | step st c _ hc ih => exact Call.tight_run c st ih hc

theorem Call.owned_of_booking (st : Flight × Heap) (c : Call) (hb : Call.Booking st c) :
    c.Owned st := hb.2

/-! ## The flight invariant over reachable states -/

theorem Flight.orphan_of_holds (f : Flight) (h : Heap) (k : String) (p : PassengerRef)
    (hh : f.Holds k p) (hsn : (h p).seatNumber ≠ k) : ¬ f.NoOrphanSeat h := by
  intro hno
  obtain ⟨seat, hs, hocc, hp⟩ := hh
  obtain ⟨q, h1, _, h3⟩ := hno k seat hs hocc
  rw [hp] at h1
  cases h1
  exact hsn h3

/-- Embeds `addPassenger` of a passenger carrying the Available seat `s1`, then
`assignSeat` of the same passenger on another Available seat `s2`: the
passenger carries `s2`, and `s1` is still Occupied recording the passenger. -/
theorem Flight.holds_after_reassign (f : Flight) (h : Heap) (p : PassengerRef)
    (s1 s2 : String) (seat1 seat2 : Seat) (hok : f.SeatsOk) (hsn : (h p).seatNumber = s1)
    (hne : s1 ≠ "") (hs1 : SeatMap.find f.seats s1 = some seat1)
    (hav1 : seat1.status = Status.Available)
    (hs2 : SeatMap.find f.seats s2 = some seat2) (hav2 : seat2.status = Status.Available)
    (hdiff : s1 ≠ s2) :
    ((Call.assignSeat (some p) s2).run ((Call.addPassenger (some p)).run (f, h))).1.Holds s1 p ∧
    (((Call.assignSeat (some p) s2).run ((Call.addPassenger (some p)).run (f, h))).2
      p).seatNumber = s2 := by
  have hne1 : (h p).seatNumber ≠ "" := by rw [hsn]; exact hne
  have hs1a : SeatMap.find f.seats (h p).seatNumber = some seat1 := by rw [hsn]; exact hs1
  have hfree1 := Flight.seat_free_of_available f hok s1 seat1 hs1 hav1
  have hfree2 := Flight.seat_free_of_available f hok s2 seat2 hs2 hav2
  have hadd := Flight.addPassenger_of_available f h p seat1 hne1 hs1a hav1
  rw [Seat.setPassenger_of_free seat1 p hav1 hfree1, Heap.update_self_field, hsn] at hadd
  simp only [Call.run]
  rw [hadd]
  simp only []
  have hs2b : SeatMap.find (SeatMap.store f.seats s1
      { seat1 with passenger := some p, status := Status.Occupied }) s2 = some seat2 := by
    rw [SeatMap.find_store_ne _ _ _ _ hdiff]
    exact hs2
  rw [Flight.assignSeat_of_available _ h p s2 seat2 hs2b hav2,
    Seat.setPassenger_of_free seat2 p hav2 hfree2]
  refine ⟨⟨{ seat1 with passenger := some p, status := Status.Occupied }, ?_, rfl, rfl⟩, ?_⟩
  · simp only []
    rw [SeatMap.find_store_ne _ _ _ _ (fun e => hdiff e.symm)]
    exact SeatMap.find_store_self _ _ _ _ hs1
  · simp [Passenger.setSeatNumber]

theorem sampleMoved_reachable :
    Reachable Call.Booking (Flight.new "AA100" "YYC" "YVR" 0 500 (fun _ _ => 0), sampleHeap)
      ((Call.assignSeat (some 0) "19B").run
        ((Call.addPassenger (some 0)).run
          (Flight.new "AA100" "YYC" "YVR" 0 500 (fun _ _ => 0), sampleHeap))) := by
  refine Reachable.step _ _ (Reachable.step _ _ Reachable.start ?_) ⟨rfl, trivial⟩
  refine ⟨rfl, ?_⟩
  show (0 : PassengerRef) ∉ (Flight.new "AA100" "YYC" "YVR" 0 500 (fun _ _ => 0)).passengers
  rw [Flight.new_passengers]
  simp

/-- C8, counterexample: on a newly generated flight, `addPassenger` of a
passenger carrying "19A" followed by `assignSeat` of that passenger on "19B"
reaches a state in which seat "19A" is Occupied although its recorded
passenger carries "19B": the seat is orphaned. -/
theorem orphaned_seat_reachable :
    Reachable Call.Booking (Flight.new "AA100" "YYC" "YVR" 0 500 (fun _ _ => 0), sampleHeap)
      sampleMoved ∧
    sampleMoved.1.Holds "19A" 0 ∧ (sampleMoved.2 0).seatNumber = "19B" ∧
    ¬ sampleMoved.1.NoOrphanSeat sampleMoved.2 := by
  obtain ⟨seat1, hs1, hav1, _⟩ := Flight.new_seat_19A "AA100" "YYC" "YVR" 0 500 (fun _ _ => 0)
  obtain ⟨seat2, hs2, hav2, _⟩ := Flight.new_seat_19B "AA100" "YYC" "YVR" 0 500 (fun _ _ => 0)
  have key := Flight.holds_after_reassign
    (Flight.new "AA100" "YYC" "YVR" 0 500 (fun _ _ => 0)) sampleHeap 0 "19A" "19B" seat1 seat2
    (Flight.new_seatsOk _ _ _ _ _ _) rfl (by decide) hs1 hav1 hs2 hav2 (by decide)
  unfold sampleMoved
  refine ⟨sampleMoved_reachable, key.1, key.2, ?_⟩
  refine Flight.orphan_of_holds _ _ "19A" 0 key.1 ?_
  rw [key.2]
  decide

/-- C8, amended: from a newly generated flight, after any calls of
`addPassenger`, `assignSeat`, `unassignSeat`, `removePassenger`, `bookSeat`,
`cancelBooking`, `changeBooking`, every roster passenger with a non-empty seat
id is recorded on that seat, which is Occupied; and after any calls of
`addPassenger`, `unassignSeat`, `removePassenger` and of `assignSeat` for a
roster passenger carrying no seat, every Occupied seat records a roster
passenger whose seat id is that seat. -/
theorem roster_and_seats_agree (fn o d : String) (t : Int) (bp : ℚ) (gen : Nat → Int → Int)
    (h0 : Heap) :
    (∀ st, Reachable Call.Booking (Flight.new fn o d t bp gen, h0) st →
      st.1.RosterSeated st.2) ∧
    (∀ st, Reachable Call.Rostered (Flight.new fn o d t bp gen, h0) st →
      st.1.RosterSeated st.2 ∧ st.1.NoOrphanSeat st.2) := by
  constructor
  · intro st hr
    exact (Reachable.consistent Call.Booking (Flight.new fn o d t bp gen, h0) st
      Call.owned_of_booking (Flight.new_consistent fn o d t bp gen h0) hr).2.1
  · intro st hr
    have ht := Reachable.tight (Flight.new fn o d t bp gen, h0) st
      (Flight.new_tight fn o d t bp gen h0) hr
    exact ⟨ht.1.2.1, ht.2.1⟩

/-- Witness for C8: the state after `addPassenger` on a newly generated flight. -/
theorem roster_and_seats_agree_witness :
    ((Call.addPassenger (some 0)).run
      (Flight.new "AA100" "YYC" "YVR" 0 500 (fun _ _ => 0), sampleHeap)).1.NoOrphanSeat
    ((Call.addPassenger (some 0)).run
      (Flight.new "AA100" "YYC" "YVR" 0 500 (fun _ _ => 0), sampleHeap)).2 := by
  refine ((roster_and_seats_agree "AA100" "YYC" "YVR" 0 500 (fun _ _ => 0) sampleHeap).2 _
    (Reachable.step _ _ Reachable.start ?_)).2
  show (0 : PassengerRef) ∉ (Flight.new "AA100" "YYC" "YVR" 0 500 (fun _ _ => 0)).passengers
  rw [Flight.new_passengers]
  simp

/-- C9: in every state reachable from a newly generated flight by
`addPassenger`, `assignSeat`, `unassignSeat`, `removePassenger`, `reserveSeat`,
`cancelReservation`, `blockSeat`, `unblockSeat`, `bookSeat`, `cancelBooking`
and `changeBooking`, the roster lists no passenger twice, no two roster
passengers carry the same non-empty seat id, and a roster passenger carrying
seat id `s` is the passenger recorded on seat `s`, which is Occupied. -/
theorem no_seat_held_by_two (fn o d : String) (t : Int) (bp : ℚ) (gen : Nat → Int → Int)
    (h0 : Heap) (st : Flight × Heap)
    (hr : Reachable Call.Owned (Flight.new fn o d t bp gen, h0) st) :
    st.1.passengers.Nodup ∧
    (∀ p ∈ st.1.passengers, ∀ q ∈ st.1.passengers, (st.2 p).seatNumber ≠ "" →
      (st.2 p).seatNumber = (st.2 q).seatNumber → p = q) ∧
    (∀ p ∈ st.1.passengers, (st.2 p).seatNumber ≠ "" →
      ∃ seat, SeatMap.find st.1.seats (st.2 p).seatNumber = some seat ∧
        seat.status = Status.Occupied ∧ seat.passenger = some p) := by
  obtain ⟨_, hrs, hnd⟩ := Reachable.consistent Call.Owned (Flight.new fn o d t bp gen, h0) st
    (fun _ _ h => h) (Flight.new_consistent fn o d t bp gen h0) hr
  refine ⟨hnd, ?_, hrs⟩
  intro p hp q hq hne heq
  obtain ⟨seat1, h1, _, h3⟩ := hrs p hp hne
  obtain ⟨seat2, h4, _, h6⟩ := hrs q hq (by rw [← heq]; exact hne)
  rw [← heq, h1] at h4
  cases h4
  rw [h3] at h6
  exact Option.some.inj h6

/-- Witness for C9: the state after `addPassenger` on a newly generated flight. -/
theorem no_seat_held_by_two_witness :
    ((Call.addPassenger (some 0)).run
      (Flight.new "AA100" "YYC" "YVR" 0 500 (fun _ _ => 0), sampleHeap)).1.passengers.Nodup := by
  refine (no_seat_held_by_two "AA100" "YYC" "YVR" 0 500 (fun _ _ => 0) sampleHeap _
    (Reachable.step _ _ Reachable.start ?_)).1
  show (0 : PassengerRef) ∉ (Flight.new "AA100" "YYC" "YVR" 0 500 (fun _ _ => 0)).passengers
  rw [Flight.new_passengers]
  simp

/-! ## Distinct seat identifiers -/

theorem SeatMap.keys_nodup_of_sorted (m : SeatMap) (hs : SeatMap.Sorted m) :
    (m.map Prod.fst).Nodup := by
  rw [SeatMap.sorted_iff_keys] at hs
  refine hs.imp ?_
  intro a b hab e
  rw [e] at hab
  exact lt_irrefl _ hab

/-- C10: two (row, letter) pairs with rows in 1..64 and letters of their rows
that give the same seat number are the same pair; a newly generated flight has
a seat under the number of every such pair, every seat of its map is under such
a number, the numbers in the map are pairwise distinct, and the map has 576 seats,
as many as there are pairs. -/
theorem generated_seat_numbers_distinct (fn o d : String) (t : Int) (bp : ℚ)
    (gen : Nat → Int → Int) :
    (∀ r1 r2 l1 l2, (1 ≤ r1 ∧ r1 ≤ 64) → (1 ≤ r2 ∧ r2 ≤ 64) →
      l1 ∈ getSeatLettersForRow r1 → l2 ∈ getSeatLettersForRow r2 →
      seatNumberOf r1 l1 = seatNumberOf r2 l2 → r1 = r2 ∧ l1 = l2) ∧
    (∀ r l, (1 ≤ r ∧ r ≤ 64) → l ∈ getSeatLettersForRow r →
      ∃ seat, SeatMap.find (Flight.new fn o d t bp gen).seats (seatNumberOf r l) = some seat ∧
        seat.number = seatNumberOf r l) ∧
    (∀ k seat, SeatMap.find (Flight.new fn o d t bp gen).seats k = some seat →
      ∃ r l, (1 ≤ r ∧ r ≤ 64) ∧ l ∈ getSeatLettersForRow r ∧ k = seatNumberOf r l) ∧
    ((Flight.new fn o d t bp gen).seats.map Prod.fst).Nodup ∧
    (Flight.new fn o d t bp gen).seats.length = 576 ∧
    generatedPairs.length = 576 := by
  refine ⟨seatNumberOf_inj, ?_, ?_, ?_, Flight.new_seats_length fn o d t bp gen,
    generatedPairs_length⟩
  · intro r l hr hl
    obtain ⟨seat, hs, _, _⟩ := Flight.new_has fn o d t bp gen r l hr hl
    refine ⟨seat, hs, ?_⟩
    obtain ⟨⟨r1, l1⟩, _, hkey, hx⟩ := Flight.new_find fn o d t bp gen _ _ hs
    rw [← hx, ← hkey]
    rfl
  · intro k seat hk
    obtain ⟨⟨r, l⟩, hx, hkey, _⟩ := Flight.new_find fn o d t bp gen _ _ hk
    rw [mem_generatedPairs] at hx
    exact ⟨r, l, hx.1, hx.2, hkey.symm⟩
  · exact SeatMap.keys_nodup_of_sorted _ (Flight.new_sorted fn o d t bp gen)

/-! ## The Seat state machine -/

theorem Seat.inv_new (number seatClass : String) (row col : Int) :
    (Seat.new number seatClass row col).Inv := by
  simp [Seat.Inv, Seat.new]

theorem Seat.inv_setPassenger (s : Seat) (x : Option PassengerRef) (hs : s.Inv) :
    (s.setPassenger x).2.Inv := by
  unfold Seat.setPassenger
  split
  · exact hs
  · split
    · exact hs
    · cases x with
      | none => simp [Seat.Inv]
      | some p => simp [Seat.Inv]

theorem Seat.inv_clearPassenger (s : Seat) (h : Heap) : (s.clearPassenger h).1.Inv := by
  simp [Seat.Inv, Seat.clearPassenger]

theorem Seat.inv_of_statusOnly (op : Seat → Bool × Seat) (hop : Seat.StatusOnly op) (s : Seat)
    (hs : s.Inv) : (op s).2.Inv := by
  rcases hop s with h1 | ⟨h1, h2, h3⟩
  · rw [h1]
    exact hs
  · unfold Seat.Inv at hs ⊢
    rw [h2]
    constructor
    · intro h4
      exact absurd h4 h3
    · intro h4
      exact absurd (hs.2 h4) h1

/-- C16, counterexample: `occupy` on a newly constructed seat returns true and
leaves the seat Occupied with no passenger recorded. -/
theorem occupy_breaks_seat_invariant :
    ((Seat.new "1A" "First" 1 0).occupy).1 = true ∧
    ((Seat.new "1A" "First" 1 0).occupy).2.status = Status.Occupied ∧
    ((Seat.new "1A" "First" 1 0).occupy).2.passenger = none ∧
    ¬ ((Seat.new "1A" "First" 1 0).occupy).2.Inv := by
  refine ⟨rfl, rfl, rfl, ?_⟩
  intro h
  exact absurd rfl (h.1 rfl)

/-- C16, amended: the Seat invariant (Occupied exactly when a passenger is
recorded) holds for a newly constructed seat and is preserved by
`setPassenger`, `clearPassenger`, `reserve`, `unreserve`, `block`, `unblock`
and `vacate` for every argument; `occupy` preserves that a seat recording a
passenger is Occupied. -/
theorem seat_invariant_preserved (s : Seat) (hs : s.Inv) :
    (∀ number seatClass row col, (Seat.new number seatClass row col).Inv) ∧
    (∀ x, (s.setPassenger x).2.Inv) ∧
    (∀ h, (s.clearPassenger h).1.Inv) ∧
    s.reserve.2.Inv ∧ s.unreserve.2.Inv ∧ s.block.2.Inv ∧ s.unblock.2.Inv ∧
    (∀ h, (s.vacate h).1.Inv) ∧
    (s.occupy.2.passenger ≠ none → s.occupy.2.status = Status.Occupied) := by
  refine ⟨Seat.inv_new, fun x => Seat.inv_setPassenger s x hs,
    fun h => Seat.inv_clearPassenger s h,
    Seat.inv_of_statusOnly _ Seat.statusOnly_reserve s hs,
    Seat.inv_of_statusOnly _ Seat.statusOnly_unreserve s hs,
    Seat.inv_of_statusOnly _ Seat.statusOnly_block s hs,
    Seat.inv_of_statusOnly _ Seat.statusOnly_unblock s hs,
    fun h => Seat.inv_clearPassenger s h, ?_⟩
  intro hp
  unfold Seat.occupy at hp ⊢
  split
  · rfl
  · next hna =>
    simp only [hna] at hp
    exact hs.2 hp

/-- Witness for C16: the seat "19A" after `setPassenger` of passenger 7. -/
theorem seat_invariant_preserved_witness :
    (((Seat.new "19A" "Economy" 19 0).setPassenger (some 7)).2.block).2.Inv :=
  (seat_invariant_preserved ((Seat.new "19A" "Economy" 19 0).setPassenger (some 7)).2
    (Seat.inv_setPassenger _ _ (Seat.inv_new _ _ _ _))).2.2.2.2.2.1

/-- C17: for a seat recording passenger `p`, `clearPassenger` leaves the seat
with no passenger and Available, `p` with an empty seat id and every other
passenger as before; `Flight::unassignSeat` on the seat's id returns true and
does the same to that seat of the flight, leaving the other seats and the
roster as they were. -/
theorem clearing_is_symmetric (f : Flight) (h : Heap) (k : String) (seat : Seat)
    (p : PassengerRef) (hk : SeatMap.find f.seats k = some seat)
    (hp : seat.passenger = some p) :
    ((seat.clearPassenger h).1.passenger = none ∧
     (seat.clearPassenger h).1.status = Status.Available ∧
     ((seat.clearPassenger h).2 p).seatNumber = "" ∧
     ∀ q, q ≠ p → (seat.clearPassenger h).2 q = h q) ∧
    ((f.unassignSeat h k).1 = true ∧
     SeatMap.find (f.unassignSeat h k).2.1.seats k =
       some { seat with passenger := none, status := Status.Available } ∧
     ((f.unassignSeat h k).2.2 p).seatNumber = "" ∧
     (∀ q, q ≠ p → (f.unassignSeat h k).2.2 q = h q) ∧
     (∀ k2, k2 ≠ k → SeatMap.find (f.unassignSeat h k).2.1.seats k2 = SeatMap.find f.seats k2) ∧
     (f.unassignSeat h k).2.1.passengers = f.passengers) := by
  have hclear : seat.clearPassenger h =
      ({ seat with passenger := none, status := Status.Available },
        Function.update h p (h p).unassignSeat) := by
    simp [Seat.clearPassenger, hp]
  rw [Flight.unassignSeat_of_valid f h k seat hk, hclear]
  refine ⟨⟨rfl, rfl, ?_, ?_⟩, rfl, ?_, ?_, ?_, ?_, rfl⟩
  · simp [Passenger.unassignSeat]
  · intro q hq
    simp [Function.update_noteq hq]
  · simp only []
    exact SeatMap.find_store_self _ _ _ _ hk
  · simp [Passenger.unassignSeat]
  · intro q hq
    simp [Function.update_noteq hq]
  · intro k2 hk2
    exact SeatMap.find_store_ne _ _ _ _ (fun e => hk2 e.symm)

/-- Witness for C17: clearing seat "19A" of the booked example flight. -/
theorem clearing_is_symmetric_witness :
    ((sampleBooked.2.1.unassignSeat sampleBooked.2.2 "19A").2.2 0).seatNumber = "" := by
  obtain ⟨seat, hs, _, hp⟩ := sampleBooked_holds
  exact (clearing_is_symmetric sampleBooked.2.1 sampleBooked.2.2 "19A" seat 0 hs hp).2.2.2.1

/-- C18, counterexample: `block` on a Reserved seat returns true and the seat
becomes Blocked. -/
theorem block_accepts_reserved_seat :
    ((Seat.new "1A" "First" 1 0).reserve).2.status = Status.Reserved ∧
    (((Seat.new "1A" "First" 1 0).reserve).2.block).1 = true ∧
    (((Seat.new "1A" "First" 1 0).reserve).2.block).2.status = Status.Blocked := by
  refine ⟨rfl, rfl, rfl⟩

/-- C18, amended: on a Reserved seat, `Seat::block` returns true and makes the
seat Blocked, and so does `Flight::blockSeat` on its id; `unreserve` returns true
and makes it Available; occupying it (`setPassenger` with a non-null passenger,
the seat recording none) returns false and leaves it as it is, Reserved. -/
theorem reserved_seat_transitions (f : Flight) (k : String) (seat : Seat) (p : PassengerRef)
    (hk : SeatMap.find f.seats k = some seat) (hres : seat.status = Status.Reserved)
    (hnone : seat.passenger = none) :
    seat.block = (true, { seat with status := Status.Blocked }) ∧
    (f.blockSeat k).1 = true ∧
    SeatMap.find (f.blockSeat k).2.seats k = some { seat with status := Status.Blocked } ∧
    seat.unreserve = (true, { seat with status := Status.Available }) ∧
    seat.setPassenger (some p) = (false, seat) := by
  have hblock : seat.block = (true, { seat with status := Status.Blocked }) := by
    simp [Seat.block, Seat.isAvailable, Seat.isReserved, hres]
  refine ⟨hblock, ?_, ?_, ?_, ?_⟩
  · simp [Flight.blockSeat, Flight.onSeat, hk, hblock]
  · simp only [Flight.blockSeat, Flight.onSeat, hk, hblock]
    exact SeatMap.find_store_self _ _ _ _ hk
  · simp [Seat.unreserve, Seat.isReserved, hres]
  · simp [Seat.setPassenger, hnone, Seat.isAvailable, hres]

theorem Flight.reserveSeat_of_available (f : Flight) (k : String) (seat : Seat)
    (hk : SeatMap.find f.seats k = some seat) (hav : seat.status = Status.Available) :
    f.reserveSeat k =
      (true, { f with seats := SeatMap.store f.seats k { seat with status := Status.Reserved } }) := by
  simp [Flight.reserveSeat, Flight.onSeat, hk, Seat.reserve, Seat.isAvailable, hav]

/-- Witness for C18: seat "19A" of a newly generated flight, reserved and then blocked. -/
theorem reserved_seat_transitions_witness :
    ((((Flight.new "AA100" "YYC" "YVR" 0 500 (fun _ _ => 0)).reserveSeat "19A").2).blockSeat
      "19A").1 = true := by
  obtain ⟨seat, hs, hav, hnone⟩ := Flight.new_seat_19A "AA100" "YYC" "YVR" 0 500 (fun _ _ => 0)
  rw [Flight.reserveSeat_of_available _ "19A" seat hs hav]
  simp only []
  have key := reserved_seat_transitions
    { Flight.new "AA100" "YYC" "YVR" 0 500 (fun _ _ => 0) with
      seats := SeatMap.store (Flight.new "AA100" "YYC" "YVR" 0 500 (fun _ _ => 0)).seats "19A"
        { seat with status := Status.Reserved } }
    "19A" { seat with status := Status.Reserved } 0
    (by simp only []; exact SeatMap.find_store_self _ _ _ _ hs) rfl hnone
  exact key.2.1

/-! ## Airline: the flight collection -/

theorem Airline.getFlight_isSome_iff (a : Airline) (id : String) :
    (a.getFlight id).isSome = true ↔ ∃ g ∈ a.flights, g.flightNumber = id := by
  unfold Airline.getFlight
  rw [List.find?_isSome]
  simp

theorem Airline.numbersOk_addFlight (a : Airline) (flight : Option Flight) (hok : a.NumbersOk) :
    (a.addFlight flight).2.NumbersOk := by
  unfold Airline.addFlight
  cases flight with
  | none => exact hok
  | some f =>
    simp only []
    split
    · exact hok
    · next hne =>
      split
      · exact hok
      · next hdup =>
        rw [Airline.getFlight_isSome_iff] at hdup
        refine ⟨?_, ?_⟩
        · intro g hg
          simp only [List.mem_append, List.mem_singleton] at hg
          rcases hg with hg | hg
          · exact hok.1 g hg
          · rw [hg]
            exact hne
        · simp only [List.map_append, List.map_cons, List.map_nil]
          rw [List.nodup_append]
          refine ⟨hok.2, List.nodup_singleton _, ?_⟩
          intro n hn hm
          rw [List.mem_singleton] at hm
          rw [List.mem_map] at hn
          obtain ⟨g, hg, hgn⟩ := hn
          exact hdup ⟨g, hg, by rw [hgn, hm]⟩

theorem Airline.numbersOk_removeFlight (a : Airline) (id : String) (hok : a.NumbersOk) :
    (a.removeFlight id).NumbersOk := by
  unfold Airline.removeFlight
  split
  · exact hok
  · refine ⟨?_, ?_⟩
    · intro g hg
      exact hok.1 g (List.mem_of_mem_filter hg)
    · exact hok.2.sublist ((List.filter_sublist _).map _)

/-- C19: `addFlight` returns false and leaves the airline unchanged for a null
flight, an empty flight number or a number already registered; otherwise it
returns true and appends the flight at the end; non-empty, pairwise distinct
flight numbers are kept by `addFlight` and by `removeFlight`, which drops
exactly the flights with the given number. -/
theorem addFlight_rejects_empty_and_duplicate (a : Airline) :
    a.addFlight none = (false, a) ∧
    (∀ f : Flight, f.flightNumber = "" → a.addFlight (some f) = (false, a)) ∧
    (∀ f : Flight, (∃ g ∈ a.flights, g.flightNumber = f.flightNumber) →
      a.addFlight (some f) = (false, a)) ∧
    (∀ f : Flight, f.flightNumber ≠ "" → (∀ g ∈ a.flights, g.flightNumber ≠ f.flightNumber) →
      a.addFlight (some f) = (true, { a with flights := a.flights ++ [f] })) ∧
    (∀ flight, a.NumbersOk → (a.addFlight flight).2.NumbersOk) ∧
    (∀ id, a.NumbersOk → (a.removeFlight id).NumbersOk) ∧
    (∀ id g, id ≠ "" → (g ∈ (a.removeFlight id).flights ↔ g ∈ a.flights ∧ g.flightNumber ≠ id)) ∧
    Airline.NumbersOk { name := a.name, flights := [] } := by
  refine ⟨rfl, ?_, ?_, ?_, fun flight hok => Airline.numbersOk_addFlight a flight hok,
    fun id hok => Airline.numbersOk_removeFlight a id hok, ?_, ?_⟩
  · intro f hf
    simp [Airline.addFlight, hf]
  · intro f hdup
    have := (Airline.getFlight_isSome_iff a f.flightNumber).2 hdup
    unfold Airline.addFlight
    simp only [this, if_true]
    split <;> rfl
  · intro f hne hfresh
    have hnot : ¬ (a.getFlight f.flightNumber).isSome = true := by
      rw [Airline.getFlight_isSome_iff]
      rintro ⟨g, hg, hgn⟩
      exact hfresh g hg hgn
    simp [Airline.addFlight, hne, hnot]
  · intro id g hid
    simp [Airline.removeFlight, hid, List.mem_filter]
  · exact ⟨by simp, by simp⟩

/-- What `updateFlight` does when the flight to replace is the first of the
collection: it is replaced, whatever number the new flight carries. -/
theorem Airline.updateFlight_head (n id : String) (g nf : Flight) (rest : List Flight)
    (hid : id ≠ "") (hnf : nf.flightNumber ≠ "") (hg : g.flightNumber = id) :
    Airline.updateFlight { name := n, flights := g :: rest } id (some nf) =
      (true, { name := n, flights := nf :: rest }) := by
  simp [Airline.updateFlight, hid, hnf, hg, storeFlight]

/-- C20, the code at the failing input: the airline holds flights "AA100" and
"BB200"; `updateFlight("AA100", f)` with `f` numbered "BB200" returns true and
the collection then holds two flights numbered "BB200". -/
theorem updateFlight_accepts_duplicate_number :
    Airline.NumbersOk
      { name := "Air",
        flights := [Flight.new "AA100" "YYC" "YVR" 0 500 (fun _ _ => 0),
                    Flight.new "BB200" "YVR" "YYZ" 0 500 (fun _ _ => 0)] } ∧
    (Airline.updateFlight
      { name := "Air",
        flights := [Flight.new "AA100" "YYC" "YVR" 0 500 (fun _ _ => 0),
                    Flight.new "BB200" "YVR" "YYZ" 0 500 (fun _ _ => 0)] }
      "AA100" (some (Flight.new "BB200" "YYC" "YUL" 0 500 (fun _ _ => 0)))).1 = true ∧
    (Airline.updateFlight
      { name := "Air",
        flights := [Flight.new "AA100" "YYC" "YVR" 0 500 (fun _ _ => 0),
                    Flight.new "BB200" "YVR" "YYZ" 0 500 (fun _ _ => 0)] }
      "AA100" (some (Flight.new "BB200" "YYC" "YUL" 0 500 (fun _ _ => 0)))).2.flights.map
        (fun f => f.flightNumber) = ["BB200", "BB200"] ∧
    ¬ Airline.NumbersOk
      (Airline.updateFlight
        { name := "Air",
          flights := [Flight.new "AA100" "YYC" "YVR" 0 500 (fun _ _ => 0),
                      Flight.new "BB200" "YVR" "YYZ" 0 500 (fun _ _ => 0)] }
        "AA100" (some (Flight.new "BB200" "YYC" "YUL" 0 500 (fun _ _ => 0)))).2 := by
  have hres := Airline.updateFlight_head "Air" "AA100"
    (Flight.new "AA100" "YYC" "YVR" 0 500 (fun _ _ => 0))
    (Flight.new "BB200" "YYC" "YUL" 0 500 (fun _ _ => 0))
    [Flight.new "BB200" "YVR" "YYZ" 0 500 (fun _ _ => 0)] (by decide) (by decide) rfl
  rw [hres]
  refine ⟨⟨?_, ?_⟩, rfl, rfl, ?_⟩
  · intro f hf
    simp only [List.mem_cons, List.mem_singleton, List.not_mem_nil, or_false] at hf
    rcases hf with hf | hf <;> rw [hf] <;> decide
  · decide
  · intro hok
    have := hok.2
    revert this
    decide

/-! ## The generated inventory: layout, classes and prices -/

theorem letters_eq_layout :
    ∀ r ∈ List.range' 1 64, getSeatLettersForRow r = layoutLetters r := by
  decide

theorem generated_no_I_or_K :
    ∀ r ∈ List.range' 1 64, ∀ l ∈ getSeatLettersForRow r,
      'I' ∉ (seatNumberOf r l).data ∧ 'K' ∉ (seatNumberOf r l).data := by
  decide

theorem generatedSeat_fields (bp : ℚ) (gen : Nat → Int → Int) (x : Nat × String) :
    (generatedSeat bp gen x).number = seatNumberOf x.1 x.2 ∧
    (generatedSeat bp gen x).seatClass = layoutClass x.1 ∧
    (generatedSeat bp gen x).row = (x.1 : Int) ∧
    (generatedSeat bp gen x).status = Status.Available ∧
    (generatedSeat bp gen x).passenger = none := by
  refine ⟨rfl, ?_, rfl, rfl, rfl⟩
  simp only [generatedSeat, Seat.setSeatClass, layoutClass]
  split_ifs <;> rfl

/-- The seat stored under the number of a valid (row, letter) pair is the seat
generated for that pair. -/
theorem Flight.new_find_pair (fn o d : String) (t : Int) (bp : ℚ) (gen : Nat → Int → Int)
    (r : Nat) (l : String) (seat : Seat) (hr : 1 ≤ r ∧ r ≤ 64)
    (hl : l ∈ getSeatLettersForRow r)
    (hk : SeatMap.find (Flight.new fn o d t bp gen).seats (seatNumberOf r l) = some seat) :
    seat = generatedSeat bp gen (r, l) := by
  obtain ⟨⟨r1, l1⟩, hx, hkey, hseat⟩ := Flight.new_find fn o d t bp gen _ _ hk
  rw [mem_generatedPairs] at hx
  obtain ⟨e1, e2⟩ := seatNumberOf_inj r1 r l1 l hx.1 hr hx.2 hl hkey
  rw [← hseat, e1, e2]

/-- C14: a newly generated flight has a seat under a number exactly when the
number is a row 1..64 followed by a letter of the row's layout (rows 1-7:
A,D,G,L; rows 8-18: A,B,D,E,F,G,J,L; rows 19-64: A,B,C,D,E,F,G,H,J,L); that seat
carries this number, its row and the row's class (First for rows 1-7, Business
for 8-11, Premium for 12-18, Economy for 19-64); and no seat number contains
the letter I or K. -/
theorem generated_inventory_layout (fn o d : String) (t : Int) (bp : ℚ)
    (gen : Nat → Int → Int) :
    (∀ k, (∃ seat, SeatMap.find (Flight.new fn o d t bp gen).seats k = some seat) ↔
      ∃ r l, (1 ≤ r ∧ r ≤ 64) ∧ l ∈ layoutLetters r ∧ k = seatNumberOf r l) ∧
    (∀ r l seat, (1 ≤ r ∧ r ≤ 64) → l ∈ layoutLetters r →
      SeatMap.find (Flight.new fn o d t bp gen).seats (seatNumberOf r l) = some seat →
      seat.number = seatNumberOf r l ∧ seat.seatClass = layoutClass r ∧
        seat.row = (r : Int)) ∧
    (∀ k seat, SeatMap.find (Flight.new fn o d t bp gen).seats k = some seat →
      'I' ∉ k.data ∧ 'K' ∉ k.data) := by
  refine ⟨?_, ?_, ?_⟩
  · intro k
    constructor
    · rintro ⟨seat, hk⟩
      obtain ⟨⟨r, l⟩, hx, hkey, _⟩ := Flight.new_find fn o d t bp gen _ _ hk
      rw [mem_generatedPairs] at hx
      refine ⟨r, l, hx.1, ?_, hkey.symm⟩
      rw [← letters_eq_layout r ((mem_rows_iff r).2 hx.1)]
      exact hx.2
    · rintro ⟨r, l, hr, hl, hk⟩
      rw [← letters_eq_layout r ((mem_rows_iff r).2 hr)] at hl
      obtain ⟨seat, hs, _, _⟩ := Flight.new_has fn o d t bp gen r l hr hl
      exact ⟨seat, by rw [hk]; exact hs⟩
  · intro r l seat hr hl hk
    rw [← letters_eq_layout r ((mem_rows_iff r).2 hr)] at hl
    rw [Flight.new_find_pair fn o d t bp gen r l seat hr hl hk]
    have := generatedSeat_fields bp gen (r, l)
    exact ⟨this.1, this.2.1, this.2.2.1⟩
  · intro k seat hk
    obtain ⟨⟨r, l⟩, hx, hkey, _⟩ := Flight.new_find fn o d t bp gen _ _ hk
    rw [mem_generatedPairs] at hx
    rw [← hkey]
    exact generated_no_I_or_K r ((mem_rows_iff r).2 hx.1) l hx.2

theorem truncToInt_intCast (b : Int) : truncToInt (b : ℚ) = b := by
  unfold truncToInt
  split <;> simp

theorem truncToInt_div_five (b : Int) (hb : 0 ≤ b) : truncToInt ((b : ℚ) / 5) = b / 5 := by
  unfold truncToInt
  have hnn : (0 : ℚ) ≤ (b : ℚ) / 5 := by positivity
  simp only [hnn, if_true]
  have := Rat.floor_intCast_div_natCast b 5
  simpa using this

/-- C15: for an integer base price `b` of at least 5 and a generator whose
draws lie in [0, bound), every seat of rows 1-7 of a newly generated flight is
priced in [3b, 4b - 1] and every seat of rows 19-64 in [b, b + b / 5 - 1], the
division rounding down. -/
theorem generated_prices_in_range (fn o d : String) (t : Int) (b : Int)
    (gen : Nat → Int → Int) (hb : 5 ≤ b)
    (hgen : ∀ r bound, 0 < bound → 0 ≤ gen r bound ∧ gen r bound < bound)
    (r : Nat) (l : String) (seat : Seat) (hr : 1 ≤ r ∧ r ≤ 64)
    (hl : l ∈ getSeatLettersForRow r)
    (hk : SeatMap.find (Flight.new fn o d t (b : ℚ) gen).seats (seatNumberOf r l) = some seat) :
    (r ≤ 7 → ((3 * b : Int) : ℚ) ≤ seat.price ∧ seat.price ≤ ((4 * b - 1 : Int) : ℚ)) ∧
    (19 ≤ r → ((b : Int) : ℚ) ≤ seat.price ∧ seat.price ≤ ((b + b / 5 - 1 : Int) : ℚ)) := by
  rw [Flight.new_find_pair fn o d t (b : ℚ) gen r l seat hr hl hk]
  constructor
  · intro h7
    have hg := hgen r b (by omega)
    have hp : (generatedSeat (b : ℚ) gen (r, l)).price =
        (((3 * b + gen r b : Int)) : ℚ) := by
      simp only [generatedSeat, Seat.setSeatClass, Seat.setPrice, h7, if_true,
        truncToInt_intCast]
      push_cast
      ring
    rw [hp]
    constructor
    · exact_mod_cast (by omega : 3 * b ≤ 3 * b + gen r b)
    · exact_mod_cast (by omega : 3 * b + gen r b ≤ 4 * b - 1)
  · intro h19
    have hg := hgen r (b / 5) (by omega)
    have h1 : ¬ r ≤ 7 := by omega
    have h2 : ¬ r ≤ 11 := by omega
    have h3 : ¬ r ≤ 18 := by omega
    have hp : (generatedSeat (b : ℚ) gen (r, l)).price =
        (((b + gen r (b / 5) : Int)) : ℚ) := by
      simp only [generatedSeat, Seat.setSeatClass, Seat.setPrice, h1, h2, h3, if_false,
        truncToInt_div_five b (by omega)]
      push_cast
      ring
    rw [hp]
    constructor
    · exact_mod_cast (by omega : b ≤ b + gen r (b / 5))
    · exact_mod_cast (by omega : b + gen r (b / 5) ≤ b + b / 5 - 1)

/-- Witness for C15: base price 500 and all draws 0; seat "19A" is priced in
[500, 599]. -/
theorem generated_prices_in_range_witness :
    ∃ seat, SeatMap.find (Flight.new "AA100" "YYC" "YVR" 0 ((500 : Int) : ℚ)
        (fun _ _ => 0)).seats (seatNumberOf 19 "A") = some seat ∧
      (((500 : Int) : ℚ) ≤ seat.price ∧ seat.price ≤ ((500 + 500 / 5 - 1 : Int) : ℚ)) := by
  obtain ⟨seat, hs, _, _⟩ :=
    Flight.new_has "AA100" "YYC" "YVR" 0 ((500 : Int) : ℚ) (fun _ _ => 0) 19 "A"
      (by decide) (by decide)
  exact ⟨seat, hs, (generated_prices_in_range "AA100" "YYC" "YVR" 0 500 (fun _ _ => 0)
    (by decide) (fun _ bound hb => ⟨le_refl 0, hb⟩) 19 "A" seat (by decide) (by decide) hs).2
    (by decide)⟩

/-! ## Airline::isSeatValid -/

theorem Char.isUpper_iff_toNat (c : Char) : c.isUpper = true ↔ 65 ≤ c.toNat ∧ c.toNat ≤ 90 := by
  simp [Char.isUpper, Char.toNat, UInt32.le_def, UInt32.toNat, BitVec.le_def]

theorem Char.isLower_iff_toNat (c : Char) : c.isLower = true ↔ 97 ≤ c.toNat ∧ c.toNat ≤ 122 := by
  simp [Char.isLower, Char.toNat, UInt32.le_def, UInt32.toNat, BitVec.le_def]

theorem Char.isDigit_iff_toNat (c : Char) : c.isDigit = true ↔ 48 ≤ c.toNat ∧ c.toNat ≤ 57 := by
  simp [Char.isDigit, Char.toNat, UInt32.le_def, UInt32.toNat, BitVec.le_def]

theorem Char.toNat_le_of_isWhitespace (c : Char) (h : c.isWhitespace = true) : c.toNat ≤ 32 := by
  simp only [Char.isWhitespace, Bool.or_eq_true, decide_eq_true_eq] at h
  rcases h with ((h | h) | h) | h <;> rw [h] <;> decide

theorem isLetter_of_isUpper (c : Char) (h : c.isUpper = true) : isLetter c = true := by
  simp [isLetter, Char.isAlpha, h]

theorem isLetter_of_isDigit (c : Char) (h : c.isDigit = true) : isLetter c = false := by
  rw [Char.isDigit_iff_toNat] at h
  have h1 : c.isUpper = false := by
    rw [Bool.eq_false_iff]
    intro e
    rw [Char.isUpper_iff_toNat] at e
    omega
  have h2 : c.isLower = false := by
    rw [Bool.eq_false_iff]
    intro e
    rw [Char.isLower_iff_toNat] at e
    omega
  simp [isLetter, Char.isAlpha, h1, h2]

theorem isWhitespace_of_isDigit (c : Char) (h : c.isDigit = true) : c.isWhitespace = false := by
  rw [Char.isDigit_iff_toNat] at h
  rw [Bool.eq_false_iff]
  intro e
  have := Char.toNat_le_of_isWhitespace c e
  omega

theorem wrapInt32_of_range (x : Int) (h1 : -2147483648 ≤ x) (h2 : x ≤ 2147483647) :
    wrapInt32 x = x := by
  unfold wrapInt32
  omega

theorem dropWhile_whitespace_digits (ds : List Char) (hne : ds ≠ [])
    (hd : ∀ c ∈ ds, c.isDigit = true) : ds.dropWhile Char.isWhitespace = ds := by
  cases ds with
  | nil => exact absurd rfl hne
  | cons c rest =>
    rw [List.dropWhile_cons_of_neg]
    rw [isWhitespace_of_isDigit c (hd c (by simp))]
    simp

/-- On a non-empty string of digits `toInt` is the decimal value, or 0 when the
value does not fit an `int`. -/
theorem toInt_digits (ds : List Char) (hne : ds ≠ []) (hd : ∀ c ∈ ds, c.isDigit = true) :
    toInt ds = if (digitsValue ds : Int) ≤ 2147483647 then (digitsValue ds : Int) else 0 := by
  have hrev_ne : ds.reverse ≠ [] := by simpa using hne
  have hrev_d : ∀ c ∈ ds.reverse, c.isDigit = true := fun c hc => hd c (List.mem_reverse.1 hc)
  have htrim : ((ds.dropWhile Char.isWhitespace).reverse.dropWhile Char.isWhitespace).reverse =
      ds := by
    rw [dropWhile_whitespace_digits ds hne hd, dropWhile_whitespace_digits _ hrev_ne hrev_d,
      List.reverse_reverse]
  unfold toInt
  simp only [htrim]
  cases ds with
  | nil => exact absurd rfl hne
  | cons c rest =>
    have hc := (Char.isDigit_iff_toNat c).1 (hd c (by simp))
    have hminus : c ≠ '-' := by
      intro e
      rw [e] at hc
      revert hc
      decide
    have hplus : c ≠ '+' := by
      intro e
      rw [e] at hc
      revert hc
      decide
    have hall : (c :: rest).all Char.isDigit = true := by
      rw [List.all_eq_true]
      exact hd
    simp [hminus, hplus, toIntDigits, hall]

theorem Airline.rowLabelOf_append (label ds : List Char)
    (hl : ∀ c ∈ label, c.isUpper = true) (hne : ds ≠ [])
    (hd : ∀ c ∈ ds, c.isDigit = true) :
    Airline.rowLabelOf (String.mk (label ++ ds)) = label := by
  unfold Airline.rowLabelOf
  simp only []
  rw [List.takeWhile_append_of_pos (fun c hc => isLetter_of_isUpper c (hl c hc))]
  cases ds with
  | nil => exact absurd rfl hne
  | cons c rest =>
    rw [List.takeWhile_cons_of_neg]
    · simp
    · rw [isLetter_of_isDigit c (hd c (by simp))]
      simp

theorem bijective26_le_horner (acc : Nat) (c : Char) (cs : List Char) :
    acc * 26 + letterRank c ≤
      acc * 26 ^ (cs.length + 1) + (letterRank c * 26 ^ cs.length + bijective26 cs) := by
  have hpow : 1 ≤ 26 ^ cs.length := Nat.one_le_pow _ _ (by decide)
  have e : acc * 26 ^ (cs.length + 1) = acc * 26 * 26 ^ cs.length := by ring
  rw [e]
  have h1 : acc * 26 ≤ acc * 26 * 26 ^ cs.length := Nat.le_mul_of_pos_right _ (by omega)
  have h2 : letterRank c ≤ letterRank c * 26 ^ cs.length := Nat.le_mul_of_pos_right _ (by omega)
  omega

/-- The `int` loop computes the bijective base-26 value, as long as that value
fits an `int`. -/
theorem Airline.foldl_rowOfLabel (label : List Char) (acc : Nat)
    (hl : ∀ c ∈ label, c.isUpper = true)
    (hfit : acc * 26 ^ label.length + bijective26 label ≤ 2147483647) :
    label.foldl (fun row ch => wrapInt32 (row * 26 + ((ch.toNat : Int) - 65 + 1))) (acc : Int) =
      ((acc * 26 ^ label.length + bijective26 label : Nat) : Int) := by
  induction label generalizing acc with
  | nil => simp [bijective26]
  | cons c cs ih =>
    have hc := (Char.isUpper_iff_toNat c).1 (hl c (by simp))
    have hrank : ((c.toNat : Int) - 65 + 1) = ((letterRank c : Nat) : Int) := by
      unfold letterRank
      omega
    have hle := bijective26_le_horner acc c cs
    simp only [List.length_cons, bijective26] at hfit
    have hstep : wrapInt32 ((acc : Int) * 26 + ((c.toNat : Int) - 65 + 1)) =
        ((acc * 26 + letterRank c : Nat) : Int) := by
      rw [hrank, wrapInt32_of_range] <;> push_cast <;> omega
    rw [List.foldl_cons, hstep]
    have hfit2 : (acc * 26 + letterRank c) * 26 ^ cs.length + bijective26 cs ≤ 2147483647 := by
      have e : (acc * 26 + letterRank c) * 26 ^ cs.length =
          acc * 26 ^ (cs.length + 1) + letterRank c * 26 ^ cs.length := by ring
      omega
    rw [ih (acc * 26 + letterRank c) (fun c hc => hl c (by simp [hc])) hfit2]
    congr 1
    simp only [List.length_cons, bijective26]
    ring

theorem Airline.rowOfLabel_eq (label : List Char) (hl : ∀ c ∈ label, c.isUpper = true)
    (hfit : bijective26 label ≤ 2147483647) :
    Airline.rowOfLabel label = (bijective26 label : Int) := by
  have := Airline.foldl_rowOfLabel label 0 hl (by simpa using hfit)
  unfold Airline.rowOfLabel
  simpa using this

theorem bijective26_concat (l : List Char) (c : Char) :
    bijective26 (l ++ [c]) = bijective26 l * 26 + letterRank c := by
  induction l with
  | nil => simp [bijective26]
  | cons x l ih =>
    rw [List.cons_append]
    show letterRank x * 26 ^ (l ++ [c]).length + bijective26 (l ++ [c]) =
      (letterRank x * 26 ^ l.length + bijective26 l) * 26 + letterRank c
    rw [ih, List.length_append, List.length_singleton]
    ring

theorem Char.eq_of_toNat_eq (c d : Char) (h : c.toNat = d.toNat) : c = d := by
  apply Char.ext
  apply UInt32.ext
  exact h

theorem letterRank_range (c : Char) (h : c.isUpper = true) :
    1 ≤ letterRank c ∧ letterRank c ≤ 26 := by
  rw [Char.isUpper_iff_toNat] at h
  unfold letterRank
  omega

/-- Distinct labels of uppercase letters have distinct bijective base-26 values. -/
theorem bijective26_injective (l1 l2 : List Char) (h1 : ∀ c ∈ l1, c.isUpper = true)
    (h2 : ∀ c ∈ l2, c.isUpper = true) (heq : bijective26 l1 = bijective26 l2) : l1 = l2 := by
  induction l1 using List.reverseRecOn generalizing l2 with
  | nil =>
    rcases List.eq_nil_or_concat' l2 with e | ⟨l, c, e⟩
    · exact e.symm
    · subst e
      rw [bijective26_concat] at heq
      have := letterRank_range c (h2 c (by simp))
      simp only [bijective26] at heq
      omega
  | append_singleton l c ih =>
    rcases List.eq_nil_or_concat' l2 with e | ⟨m, d, e⟩
    · subst e
      rw [bijective26_concat] at heq
      have := letterRank_range c (h1 c (by simp))
      simp only [bijective26] at heq
      omega
    · subst e
      rw [bijective26_concat, bijective26_concat] at heq
      have hc := letterRank_range c (h1 c (by simp))
      have hd := letterRank_range d (h2 d (by simp))
      have hrank : letterRank c = letterRank d := by omega
      have hval : bijective26 l = bijective26 m := by omega
      have hlm := ih m (fun x hx => h1 x (by simp [hx])) (fun x hx => h2 x (by simp [hx])) hval
      have hcu := (Char.isUpper_iff_toNat c).1 (h1 c (by simp))
      have hdu := (Char.isUpper_iff_toNat d).1 (h2 d (by simp))
      have hcd : c = d := by
        apply Char.eq_of_toNat_eq
        unfold letterRank at hrank
        omega
      rw [hlm, hcd]

theorem bijective26_pos (label : List Char) (hne : label ≠ [])
    (hl : ∀ c ∈ label, c.isUpper = true) : 1 ≤ bijective26 label := by
  cases label with
  | nil => exact absurd rfl hne
  | cons c cs =>
    have hc := letterRank_range c (hl c (by simp))
    have hpow : 1 ≤ 26 ^ cs.length := Nat.one_le_pow _ _ (by decide)
    have : letterRank c ≤ letterRank c * 26 ^ cs.length := Nat.le_mul_of_pos_right _ (by omega)
    simp only [bijective26]
    omega

/-- The result of `isSeatValid` on a label of uppercase letters followed by digits. -/
theorem Airline.isSeatValid_label_digits (a : Airline) (id : String) (f : Flight)
    (label ds : List Char) (hget : a.getFlight id = some f)
    (hl : ∀ c ∈ label, c.isUpper = true) (hds : ds ≠ [])
    (hd : ∀ c ∈ ds, c.isDigit = true) (hfit : bijective26 label ≤ 2147483647)
    (hcols : f.cols ≤ 2147483647) :
    a.isSeatValid id (String.mk (label ++ ds)) = true ↔
      (1 ≤ bijective26 label ∧ (bijective26 label : Int) ≤ f.rows) ∧
      (1 ≤ digitsValue ds ∧ (digitsValue ds : Int) ≤ f.cols) := by
  unfold Airline.isSeatValid
  simp only [hget, Airline.rowLabelOf_append label ds hl hds hd, List.drop_left,
    Airline.rowOfLabel_eq label hl hfit, toInt_digits ds hds hd]
  have hrow : wrapInt32 ((bijective26 label : Int) - 1) = (bijective26 label : Int) - 1 := by
    apply wrapInt32_of_range <;> omega
  rw [hrow]
  by_cases hn : (digitsValue ds : Int) ≤ 2147483647
  · have hcol : wrapInt32 ((digitsValue ds : Int) - 1) = (digitsValue ds : Int) - 1 := by
      apply wrapInt32_of_range <;> omega
    simp only [hn, if_true, hcol, Bool.and_eq_true, decide_eq_true_eq]
    omega
  · have hcol : wrapInt32 ((0 : Int) - 1) = -1 := by decide
    simp only [hn, if_false, hcol, Bool.and_eq_true, decide_eq_true_eq]
    omega

theorem Flight.new_rows (fn o d : String) (t : Int) (bp : ℚ) (gen : Nat → Int → Int) :
    (Flight.new fn o d t bp gen).rows = 64 := rfl

theorem Flight.new_cols (fn o d : String) (t : Int) (bp : ℚ) (gen : Nat → Int → Int) :
    (Flight.new fn o d t bp gen).cols = 10 := rfl

theorem Flight.new_flightNumber (fn o d : String) (t : Int) (bp : ℚ) (gen : Nat → Int → Int) :
    (Flight.new fn o d t bp gen).flightNumber = fn := rfl

theorem Airline.getFlight_single (n id : String) (f : Flight) (hid : f.flightNumber = id) :
    Airline.getFlight { name := n, flights := [f] } id = some f := by
  simp [Airline.getFlight, hid]

theorem Airline.isSeatValid_of_no_label (a : Airline) (id s : String)
    (hs : Airline.rowLabelOf s = []) : a.isSeatValid id s = false := by
  unfold Airline.isSeatValid
  cases a.getFlight id with
  | none => rfl
  | some f =>
    have hrow : wrapInt32 (Airline.rowOfLabel [] - 1) = -1 := by decide
    simp only [hs, hrow]
    simp

theorem generated_rowLabel_empty :
    ∀ r ∈ List.range' 1 64, ∀ l ∈ getSeatLettersForRow r,
      Airline.rowLabelOf (seatNumberOf r l) = [] := by
  decide

theorem Airline.isSeatValid_AA5 (a : Airline) (id : String) (f : Flight)
    (hget : a.getFlight id = some f) (hr : f.rows = 64) (hc : f.cols = 10) :
    a.isSeatValid id "AA5" = true := by
  unfold Airline.isSeatValid
  simp only [hget, hr, hc]
  decide

/-- C11, the code at the failing input: "19A" is a seat of the generated flight
"AA100" and `Flight::isSeatValid` accepts it, but the parsing in
`Airline::isSeatValid` finds no leading letter, so the row label is empty, and
`isSeatValid("AA100", "19A")` is false; the same holds for the number of every
generated (row, letter) pair, whatever the airline. -/
theorem isSeatValid_rejects_generated_seats :
    (Flight.new "AA100" "YYC" "YVR" 0 500 (fun _ _ => 0)).isSeatValid "19A" = true ∧
    Airline.rowLabelOf "19A" = [] ∧
    Airline.isSeatValid
      { name := "Air", flights := [Flight.new "AA100" "YYC" "YVR" 0 500 (fun _ _ => 0)] }
      "AA100" "19A" = false ∧
    (∀ (a : Airline) (id : String) (r : Nat) (l : String), (1 ≤ r ∧ r ≤ 64) →
      l ∈ getSeatLettersForRow r → a.isSeatValid id (seatNumberOf r l) = false) := by
  refine ⟨?_, by decide, Airline.isSeatValid_of_no_label _ _ _ (by decide), ?_⟩
  · obtain ⟨seat, hs, _, _⟩ := Flight.new_seat_19A "AA100" "YYC" "YVR" 0 500 (fun _ _ => 0)
    unfold Flight.isSeatValid
    rw [hs]
    rfl
  · intro a id r l hr hl
    exact Airline.isSeatValid_of_no_label a id _
      (generated_rowLabel_empty r ((mem_rows_iff r).2 hr) l hl)

/-- C12, counterexample: for an airline holding the default-size flight
"AA100" (64 rows, 10 columns), `isSeatValid("AA100", "AA5")` is true. -/
theorem isSeatValid_AA5_is_true :
    (Flight.new "AA100" "YYC" "YVR" 0 500 (fun _ _ => 0)).rows = 64 ∧
    (Flight.new "AA100" "YYC" "YVR" 0 500 (fun _ _ => 0)).cols = 10 ∧
    Airline.isSeatValid
      { name := "Air", flights := [Flight.new "AA100" "YYC" "YVR" 0 500 (fun _ _ => 0)] }
      "AA100" "AA5" = true :=
  ⟨rfl, rfl, Airline.isSeatValid_AA5 _ "AA100" _
    (Airline.getFlight_single "Air" "AA100" _ rfl) rfl rfl⟩

/-- C12, amended: for an airline whose flight "AA100" has 64 rows and 10
columns, `isSeatValid("AA100", "AA5")` returns true: the row label "AA" has
value 27, within the 64 rows, and the column 5 is within the 10 columns. -/
theorem isSeatValid_AA5_default_size (a : Airline) (f : Flight)
    (hget : a.getFlight "AA100" = some f) (hr : f.rows = 64) (hc : f.cols = 10) :
    a.isSeatValid "AA100" "AA5" = true ∧
    Airline.rowOfLabel (Airline.rowLabelOf "AA5") = 27 ∧ bijective26 ['A', 'A'] = 27 ∧
    toInt ("AA5".data.drop 2) = 5 :=
  ⟨Airline.isSeatValid_AA5 a "AA100" f hget hr hc, by decide, by decide, by decide⟩

/-- Witness for C12: an airline holding "BB200" and the default-size "AA100". -/
theorem isSeatValid_AA5_default_size_witness :
    Airline.isSeatValid
      { name := "Air",
        flights := [Flight.new "BB200" "YVR" "YYZ" 0 500 (fun _ _ => 0),
                    Flight.new "AA100" "YYC" "YVR" 0 500 (fun _ _ => 0)] }
      "AA100" "AA5" = true :=
  (isSeatValid_AA5_default_size _ (Flight.new "AA100" "YYC" "YVR" 0 500 (fun _ _ => 0))
    (by simp [Airline.getFlight, Flight.new_flightNumber]) rfl rfl).1

/-- C13: for a seat string made of a non-empty label of uppercase letters whose
value fits an `int`, followed by a non-empty string of decimal digits,
`isSeatValid` computes as row the bijective base-26 value of the label (A = 1,
Z = 26, AA = 27, AB = 28; distinct labels have distinct values) and returns
true exactly when the flight exists, the row value is between 1 and `getRows()`
and the number is between 1 and `getCols()`. -/
theorem isSeatValid_bijective_base26 (a : Airline) (id : String) (label ds : List Char)
    (hne : label ≠ []) (hl : ∀ c ∈ label, c.isUpper = true) (hds : ds ≠ [])
    (hd : ∀ c ∈ ds, c.isDigit = true) (hfit : bijective26 label ≤ 2147483647)
    (hcols : ∀ f, a.getFlight id = some f → f.cols ≤ 2147483647) :
    Airline.rowLabelOf (String.mk (label ++ ds)) = label ∧
    Airline.rowOfLabel label = (bijective26 label : Int) ∧
    1 ≤ bijective26 label ∧
    (a.isSeatValid id (String.mk (label ++ ds)) = true ↔
      ∃ f, a.getFlight id = some f ∧
        (1 ≤ bijective26 label ∧ (bijective26 label : Int) ≤ f.rows) ∧
        (1 ≤ digitsValue ds ∧ (digitsValue ds : Int) ≤ f.cols)) ∧
    (∀ other : List Char, (∀ c ∈ other, c.isUpper = true) →
      bijective26 other = bijective26 label → other = label) ∧
    (bijective26 ['A'] = 1 ∧ bijective26 ['Z'] = 26 ∧ bijective26 ['A', 'A'] = 27 ∧
      bijective26 ['A', 'B'] = 28) := by
  refine ⟨Airline.rowLabelOf_append label ds hl hds hd, Airline.rowOfLabel_eq label hl hfit,
    bijective26_pos label hne hl, ?_,
    fun other ho heq => bijective26_injective other label ho hl heq, by decide⟩
  cases hget : a.getFlight id with
  | none =>
    constructor
    · intro hv
      simp [Airline.isSeatValid, hget] at hv
    · rintro ⟨f, hf, _⟩
      exact absurd hf (by simp)
  | some f =>
    rw [Airline.isSeatValid_label_digits a id f label ds hget hl hds hd hfit (hcols f hget)]
    constructor
    · intro hv
      exact ⟨f, rfl, hv⟩
    · rintro ⟨g, hg, hv⟩
      cases hg
      exact hv

/-- Witness for C13: "BL10" on the default-size flight "AA100": row 64, column 10. -/
theorem isSeatValid_bijective_base26_witness :
    Airline.isSeatValid
      { name := "Air", flights := [Flight.new "AA100" "YYC" "YVR" 0 500 (fun _ _ => 0)] }
      "AA100" (String.mk (['B', 'L'] ++ ['1', '0'])) = true := by
  have hget := Airline.getFlight_single "Air" "AA100"
    (Flight.new "AA100" "YYC" "YVR" 0 500 (fun _ _ => 0)) rfl
  have key := isSeatValid_bijective_base26
    { name := "Air", flights := [Flight.new "AA100" "YYC" "YVR" 0 500 (fun _ _ => 0)] }
    "AA100" ['B', 'L'] ['1', '0'] (by decide) (by decide) (by decide) (by decide) (by decide)
    (by
      intro f hf
      rw [hget] at hf
      cases hf
      rw [Flight.new_cols]
      decide)
  refine key.2.2.2.1.2 ⟨_, hget, ?_, ?_⟩
  · rw [Flight.new_rows]
    decide
  · rw [Flight.new_cols]
    decide


/-! ## Releasing a seat whatever its status -/

/-- C30: `Flight::unassignSeat` and `Flight::cancelSeat` on a seat id of the flight
return true and leave that seat Available with no passenger, whatever its status
was (Reserved and Blocked included); on an id that is not a seat of the flight
they return false and change nothing. -/
theorem unassignSeat_clears_any_status (f : Flight) (h : Heap) (s : String) :
    (∀ seat, SeatMap.find f.seats s = some seat →
      (f.unassignSeat h s).1 = true ∧ f.cancelSeat h s = f.unassignSeat h s ∧
      SeatMap.find (f.unassignSeat h s).2.1.seats s =
        some { seat with passenger := none, status := Status.Available }) ∧
    (SeatMap.find f.seats s = none →
      f.unassignSeat h s = (false, f, h) ∧ f.cancelSeat h s = (false, f, h)) := by
  refine ⟨fun seat hs => ?_, fun hs => ?_⟩
  · rw [Flight.unassignSeat_of_valid f h s seat hs]
    refine ⟨rfl, ?_, ?_⟩
    · unfold Flight.cancelSeat
      exact Flight.unassignSeat_of_valid f h s seat hs
    · simp only []
      rw [SeatMap.find_store_self f.seats s _ seat hs]
      rfl
  · exact ⟨Flight.unassignSeat_of_invalid f h s hs, by
      unfold Flight.cancelSeat
      exact Flight.unassignSeat_of_invalid f h s hs⟩

/-- Witness for C30: seat "19A" of a newly generated flight is reserved and then
released by `unassignSeat`, which returns true. -/
theorem unassignSeat_clears_any_status_witness :
    ∃ seat, SeatMap.find
        ((Flight.new "AA100" "YYC" "YVR" 0 500 (fun _ _ => 0)).reserveSeat "19A").2.seats "19A" =
          some seat ∧ seat.status = Status.Reserved ∧
      ((((Flight.new "AA100" "YYC" "YVR" 0 500 (fun _ _ => 0)).reserveSeat "19A").2).unassignSeat
        sampleHeap "19A").1 = true := by
  obtain ⟨seat, hs, hav, _hnone⟩ := Flight.new_seat_19A "AA100" "YYC" "YVR" 0 500 (fun _ _ => 0)
  rw [Flight.reserveSeat_of_available _ "19A" seat hs hav]
  simp only []
  have hfind : SeatMap.find
      (SeatMap.store (Flight.new "AA100" "YYC" "YVR" 0 500 (fun _ _ => 0)).seats "19A"
        { seat with status := Status.Reserved }) "19A" =
        some { seat with status := Status.Reserved } :=
    SeatMap.find_store_self (Flight.new "AA100" "YYC" "YVR" 0 500 (fun _ _ => 0)).seats "19A"
      { seat with status := Status.Reserved } seat hs
  refine ⟨{ seat with status := Status.Reserved }, hfind, rfl, ?_⟩
  have key := (unassignSeat_clears_any_status
    { Flight.new "AA100" "YYC" "YVR" 0 500 (fun _ _ => 0) with
      seats := SeatMap.store (Flight.new "AA100" "YYC" "YVR" 0 500 (fun _ _ => 0)).seats "19A"
        { seat with status := Status.Reserved } }
    sampleHeap "19A").1 { seat with status := Status.Reserved }
    (by simp only []; exact hfind)
  exact key.1

/-! ## Lookup misses in the airline's booking calls -/

theorem storeFlight_self (l : List Flight) (id : String) (f : Flight)
    (hf : l.find? (fun g => decide (g.flightNumber = id)) = some f) :
    storeFlight l id f = l := by
  induction l with
  | nil => rfl
  | cons g rest ih =>
    by_cases hg : g.flightNumber = id
    · rw [List.find?_cons_of_pos _ (by simpa using hg)] at hf
      have hgf : g = f := Option.some.inj hf
      subst hgf
      simp [storeFlight, hg]
    · rw [List.find?_cons_of_neg _ (by simpa using hg)] at hf
      simp [storeFlight, hg, ih hf]

theorem Airline.onFlight_of_unchanged (a : Airline) (h : Heap) (id : String)
    (body : Flight → Heap → Bool × Flight × Heap)
    (hbody : ∀ f, a.getFlight id = some f → body f h = (false, f, h)) :
    a.onFlight h id body = (false, a, h) := by
  unfold Airline.onFlight
  cases hget : a.getFlight id with
  | none => rfl
  | some f =>
    simp only [hbody f hget]
    rw [storeFlight_self a.flights id f hget]

theorem Flight.getPassenger_of_miss (f : Flight) (h : Heap) (pid : String)
    (hmiss : pid = "" ∨ ∀ p ∈ f.passengers, (h p).seatNumber ≠ pid) :
    f.getPassenger h pid = none := by
  unfold Flight.getPassenger
  by_cases hp : pid = ""
  · simp [hp]
  · rcases hmiss with h1 | h1
    · exact absurd h1 hp
    · simp only [hp, if_false]
      rw [List.find?_eq_none]
      intro p hpm
      simpa [Passenger.getSeatNumber] using h1 p hpm

/-- C28: when the flight number is unknown, or no roster passenger of the flight
carries the seat id given as `passengerId` (in particular when it is empty),
`Airline::bookSeat`, `cancelBooking` and `changeBooking` return false and leave the
airline, with every flight and seat, and every passenger object unchanged. -/
theorem lookup_miss_changes_nothing (a : Airline) (h : Heap)
    (flightNumber passengerId seatNumber : String)
    (hmiss : a.getFlight flightNumber = none ∨
      ∃ f, a.getFlight flightNumber = some f ∧
        (passengerId = "" ∨ ∀ p ∈ f.passengers, (h p).seatNumber ≠ passengerId)) :
    a.bookSeat h flightNumber passengerId seatNumber = (false, a, h) ∧
    a.cancelBooking h flightNumber passengerId = (false, a, h) ∧
    a.changeBooking h flightNumber passengerId seatNumber = (false, a, h) := by
  have hnone : ∀ f, a.getFlight flightNumber = some f → f.getPassenger h passengerId = none := by
    intro f hf
    rcases hmiss with h1 | ⟨g, hg, h1⟩
    · rw [h1] at hf
      cases hf
    · rw [hg] at hf
      have hgf : g = f := Option.some.inj hf
      rw [← hgf]
      exact Flight.getPassenger_of_miss g h passengerId h1
  refine ⟨?_, ?_, ?_⟩
  · exact Airline.onFlight_of_unchanged a h flightNumber _ (fun f hf => by
      simp only [Airline.bookSeatOn, hnone f hf])
  · exact Airline.onFlight_of_unchanged a h flightNumber _ (fun f hf => by
      simp only [Airline.cancelBookingOn, hnone f hf])
  · exact Airline.onFlight_of_unchanged a h flightNumber _ (fun f hf => by
      simp only [Airline.changeBookingOn, hnone f hf])

/-- Witness for C28: the empty passenger id on the example airline, whose roster
passenger carries seat "19A". -/
theorem lookup_miss_changes_nothing_witness :
    sampleAirline.bookSeat sampleBooked.2.2 "AA100" "" "19B" =
        (false, sampleAirline, sampleBooked.2.2) ∧
    sampleAirline.cancelBooking sampleBooked.2.2 "AA100" "" =
        (false, sampleAirline, sampleBooked.2.2) ∧
    sampleAirline.changeBooking sampleBooked.2.2 "AA100" "" "19B" =
        (false, sampleAirline, sampleBooked.2.2) :=
  lookup_miss_changes_nothing sampleAirline sampleBooked.2.2 "AA100" "" "19B"
    (Or.inr ⟨sampleBooked.2.1,
      Airline.getFlight_single "Air" "AA100" sampleBooked.2.1 sampleBooked_flightNumber,
      Or.inl rfl⟩)

/-! ## Ticket -/

theorem Ticket.upgrade_fst (t : Ticket) (c : Ticket.Class) :
    (t.upgrade c).1 = true ↔ t.ticketClass.toNat < c.toNat := by
  unfold Ticket.upgrade
  cases c <;> cases hc : t.ticketClass <;> simp [Ticket.Class.toNat]

theorem Ticket.upgrade_of_higher (t : Ticket) (c : Ticket.Class)
    (hc : t.ticketClass.toNat < c.toNat) :
    t.upgrade c = (true, { t with fare := fareTable c, ticketClass := c }) := by
  unfold Ticket.upgrade
  cases c <;> cases ht : t.ticketClass <;> simp [Ticket.Class.toNat, ht, fareTable] at hc ⊢

theorem Ticket.upgrade_of_not_higher (t : Ticket) (c : Ticket.Class)
    (hc : c.toNat ≤ t.ticketClass.toNat) : t.upgrade c = (false, t) := by
  unfold Ticket.upgrade
  simp [hc]

theorem fareTable_strictMono (c1 c2 : Ticket.Class) (h : c1.toNat < c2.toNat) :
    fareTable c1 < fareTable c2 := by
  cases c1 <;> cases c2 <;> simp [Ticket.Class.toNat, fareTable] at h ⊢ <;> norm_num

theorem Ticket.new_fare (n : String) (p : Option PassengerRef) (f : Option Nat)
    (c : Ticket.Class) (now : Int) :
    (Ticket.new n p f c now).fare = fareTable (Ticket.new n p f c now).ticketClass := by
  cases c <;> rfl

theorem TicketCall.run_fare (t : Ticket) (call : TicketCall)
    (ht : t.fare = fareTable t.ticketClass) :
    (call.run t).fare = fareTable (call.run t).ticketClass := by
  cases call with
  | checkIn =>
    show t.checkIn.2.fare = fareTable t.checkIn.2.ticketClass
    unfold Ticket.checkIn
    by_cases hs : t.status = Ticket.Status.Confirmed <;> simp [hs, ht]
  | cancel =>
    show t.cancel.2.fare = fareTable t.cancel.2.ticketClass
    unfold Ticket.cancel
    by_cases hs : t.status = Ticket.Status.CheckedIn <;> simp [hs, ht]
  | upgrade c =>
    show (t.upgrade c).2.fare = fareTable (t.upgrade c).2.ticketClass
    by_cases hc : t.ticketClass.toNat < c.toNat
    · rw [Ticket.upgrade_of_higher t c hc]
    · rw [Ticket.upgrade_of_not_higher t c (Nat.le_of_not_lt hc)]
      exact ht

theorem TicketCall.foldl_fare (calls : List TicketCall) (t : Ticket)
    (ht : t.fare = fareTable t.ticketClass) :
    (calls.foldl TicketCall.run t).fare = fareTable (calls.foldl TicketCall.run t).ticketClass := by
  induction calls generalizing t with
  | nil => exact ht
  | cons c rest ih => exact ih (c.run t) (TicketCall.run_fare t c ht)

theorem TicketCall.run_checkedIn (t : Ticket) (call : TicketCall)
    (ht : t.status = Ticket.Status.CheckedIn) :
    (call.run t).status = Ticket.Status.CheckedIn := by
  cases call with
  | checkIn => simp [TicketCall.run, Ticket.checkIn, ht]
  | cancel => simp [TicketCall.run, Ticket.cancel, ht]
  | upgrade c =>
    show (t.upgrade c).2.status = _
    by_cases hc : t.ticketClass.toNat < c.toNat
    · rw [Ticket.upgrade_of_higher t c hc]
      exact ht
    · rw [Ticket.upgrade_of_not_higher t c (Nat.le_of_not_lt hc)]
      exact ht

theorem TicketCall.run_cancelled (t : Ticket) (call : TicketCall)
    (ht : t.status = Ticket.Status.Cancelled) :
    (call.run t).status = Ticket.Status.Cancelled := by
  cases call with
  | checkIn => simp [TicketCall.run, Ticket.checkIn, ht]
  | cancel => simp [TicketCall.run, Ticket.cancel, ht]
  | upgrade c =>
    show (t.upgrade c).2.status = _
    by_cases hc : t.ticketClass.toNat < c.toNat
    · rw [Ticket.upgrade_of_higher t c hc]
      exact ht
    · rw [Ticket.upgrade_of_not_higher t c (Nat.le_of_not_lt hc)]
      exact ht

theorem TicketCall.foldl_status (calls : List TicketCall) (t : Ticket) (st : Ticket.Status)
    (hstep : ∀ (u : Ticket) (c : TicketCall), u.status = st → (c.run u).status = st)
    (ht : t.status = st) : (calls.foldl TicketCall.run t).status = st := by
  induction calls generalizing t with
  | nil => exact ht
  | cons c rest ih => exact ih (c.run t) (hstep t c ht)

/-- C22: `Ticket::upgrade(c)` returns true exactly when `c` is strictly higher than
the current class in the order Economy, Business, FirstClass; on true the class
becomes `c`, the fare becomes the table value of `c` (Business 500, FirstClass
1000) and nothing else changes; on false the ticket is unchanged. -/
theorem upgrade_iff_strictly_higher (t : Ticket) (c : Ticket.Class) :
    ((t.upgrade c).1 = true ↔ t.ticketClass.toNat < c.toNat) ∧
    ((t.upgrade c).1 = true →
      (t.upgrade c).2 = { t with fare := fareTable c, ticketClass := c } ∧
      (c = Ticket.Class.Business → (t.upgrade c).2.fare = 500) ∧
      (c = Ticket.Class.FirstClass → (t.upgrade c).2.fare = 1000)) ∧
    ((t.upgrade c).1 = false → (t.upgrade c).2 = t) ∧
    (t.ticketClass = Ticket.Class.Economy →
      t.upgrade Ticket.Class.Business =
        (true, { t with fare := 500, ticketClass := Ticket.Class.Business })) ∧
    (t.ticketClass = Ticket.Class.Business → t.upgrade Ticket.Class.Economy = (false, t)) := by
  refine ⟨Ticket.upgrade_fst t c, ?_, ?_, ?_, ?_⟩
  · intro h
    have hc := (Ticket.upgrade_fst t c).1 h
    rw [Ticket.upgrade_of_higher t c hc]
    refine ⟨rfl, ?_, ?_⟩
    · intro hb
      subst hb
      rfl
    · intro hb
      subst hb
      rfl
  · intro h
    have hc : c.toNat ≤ t.ticketClass.toNat := by
      by_contra hlt
      rw [(Ticket.upgrade_fst t c).2 (Nat.lt_of_not_le hlt)] at h
      cases h
    rw [Ticket.upgrade_of_not_higher t c hc]
  · intro he
    exact Ticket.upgrade_of_higher t Ticket.Class.Business (by rw [he]; decide)
  · intro hb
    exact Ticket.upgrade_of_not_higher t Ticket.Class.Economy (by rw [hb]; decide)

/-- C23: a new ticket is Reserved; `Ticket::checkIn` returns true exactly when the
status is Confirmed and then sets CheckedIn; `Ticket::cancel` returns false exactly
when the status is CheckedIn and otherwise sets Cancelled; a failing call leaves
the ticket unchanged; through `checkIn`, `cancel` and `upgrade` a CheckedIn ticket
stays CheckedIn and a Cancelled ticket stays Cancelled. -/
theorem ticket_lifecycle :
    (∀ (n : String) (p : Option PassengerRef) (f : Option Nat) (c : Ticket.Class) (now : Int),
      (Ticket.new n p f c now).status = Ticket.Status.Reserved) ∧
    (∀ t : Ticket,
      (t.checkIn.1 = true ↔ t.status = Ticket.Status.Confirmed) ∧
      (t.checkIn.1 = true → t.checkIn.2 = { t with status := Ticket.Status.CheckedIn }) ∧
      (t.checkIn.1 = false → t.checkIn.2 = t)) ∧
    (∀ t : Ticket,
      (t.cancel.1 = false ↔ t.status = Ticket.Status.CheckedIn) ∧
      (t.cancel.1 = true → t.cancel.2 = { t with status := Ticket.Status.Cancelled }) ∧
      (t.cancel.1 = false → t.cancel.2 = t)) ∧
    (∀ (t : Ticket) (c : Ticket.Class),
      (t.upgrade c).2.status = t.status ∧ ((t.upgrade c).1 = false → (t.upgrade c).2 = t)) ∧
    (∀ (t : Ticket) (calls : List TicketCall), t.status = Ticket.Status.CheckedIn →
      (calls.foldl TicketCall.run t).status = Ticket.Status.CheckedIn) ∧
    (∀ (t : Ticket) (calls : List TicketCall), t.status = Ticket.Status.Cancelled →
      (calls.foldl TicketCall.run t).status = Ticket.Status.Cancelled) := by
  refine ⟨fun _ _ _ _ _ => rfl, ?_, ?_, ?_, ?_, ?_⟩
  · intro t
    unfold Ticket.checkIn
    by_cases hs : t.status = Ticket.Status.Confirmed <;> simp [hs]
  · intro t
    unfold Ticket.cancel
    by_cases hs : t.status = Ticket.Status.CheckedIn <;> simp [hs]
  · intro t c
    by_cases hc : t.ticketClass.toNat < c.toNat
    · rw [Ticket.upgrade_of_higher t c hc]
      simp
    · rw [Ticket.upgrade_of_not_higher t c (Nat.le_of_not_lt hc)]
      simp
  · intro t calls ht
    exact TicketCall.foldl_status calls t _ TicketCall.run_checkedIn ht
  · intro t calls ht
    exact TicketCall.foldl_status calls t _ TicketCall.run_cancelled ht

/-- C24: after construction and any sequence of `checkIn`, `cancel` and `upgrade`
calls the fare is the table value of the current class (Economy 200, Business 500,
FirstClass 1000); the table is strictly increasing in the class order, and a
successful upgrade strictly raises the fare. -/
theorem fare_follows_class :
    (∀ (n : String) (p : Option PassengerRef) (f : Option Nat) (c : Ticket.Class) (now : Int)
        (calls : List TicketCall),
      (calls.foldl TicketCall.run (Ticket.new n p f c now)).fare =
        fareTable (calls.foldl TicketCall.run (Ticket.new n p f c now)).ticketClass) ∧
    (fareTable Ticket.Class.Economy = 200 ∧ fareTable Ticket.Class.Business = 500 ∧
      fareTable Ticket.Class.FirstClass = 1000) ∧
    (∀ c1 c2 : Ticket.Class, c1.toNat < c2.toNat → fareTable c1 < fareTable c2) ∧
    (∀ (n : String) (p : Option PassengerRef) (f : Option Nat) (c : Ticket.Class) (now : Int)
        (calls : List TicketCall) (c2 : Ticket.Class),
      ((calls.foldl TicketCall.run (Ticket.new n p f c now)).upgrade c2).1 = true →
      (calls.foldl TicketCall.run (Ticket.new n p f c now)).fare <
        ((calls.foldl TicketCall.run (Ticket.new n p f c now)).upgrade c2).2.fare) := by
  refine ⟨?_, ⟨rfl, rfl, rfl⟩, fareTable_strictMono, ?_⟩
  · intro n p f c now calls
    exact TicketCall.foldl_fare calls _ (Ticket.new_fare n p f c now)
  · intro n p f c now calls c2 hup
    have hc := (Ticket.upgrade_fst _ c2).1 hup
    rw [Ticket.upgrade_of_higher _ c2 hc]
    rw [TicketCall.foldl_fare calls _ (Ticket.new_fare n p f c now)]
    exact fareTable_strictMono _ _ hc

/-! ## FlightStatus -/

theorem FlightStatus.updateEstimatedTimes_frame (s : FlightStatus) :
    s.updateEstimatedTimes.statusHistory = s.statusHistory ∧
    s.updateEstimatedTimes.currentStatus = s.currentStatus ∧
    s.updateEstimatedTimes.currentGate = s.currentGate ∧
    s.updateEstimatedTimes.delayMinutes = s.delayMinutes ∧
    s.updateEstimatedTimes.scheduledDeparture = s.scheduledDeparture ∧
    s.updateEstimatedTimes.scheduledArrival = s.scheduledArrival := by
  unfold FlightStatus.updateEstimatedTimes
  cases hd : s.scheduledDeparture <;> cases ha : s.scheduledArrival <;> simp [hd, ha]

theorem FlightStatus.updateEstimatedTimes_ok (s : FlightStatus)
    (h1 : -2147483648 ≤ s.delayMinutes * 60) (h2 : s.delayMinutes * 60 ≤ 2147483647) :
    s.updateEstimatedTimes.EstimatesOk := by
  unfold FlightStatus.EstimatesOk FlightStatus.updateEstimatedTimes
  cases hd : s.scheduledDeparture <;> cases ha : s.scheduledArrival <;>
    simp [hd, ha, wrapInt32_of_range _ h1 h2, mul_comm]

theorem FlightStatus.addStatusUpdate_frame (s : FlightStatus) (now : Int)
    (st : FlightStatus.Status) (reason : String) :
    (s.addStatusUpdate now st reason).statusHistory =
      s.statusHistory ++
        [{ status := st, reason := reason, timestamp := some now, gate := s.currentGate }] ∧
    (s.addStatusUpdate now st reason).currentStatus = st ∧
    (s.addStatusUpdate now st reason).currentGate = s.currentGate ∧
    (s.addStatusUpdate now st reason).delayMinutes = s.delayMinutes ∧
    (s.addStatusUpdate now st reason).scheduledDeparture = s.scheduledDeparture ∧
    (s.addStatusUpdate now st reason).scheduledArrival = s.scheduledArrival ∧
    (s.addStatusUpdate now st reason).estimatedDeparture = s.estimatedDeparture ∧
    (s.addStatusUpdate now st reason).estimatedArrival = s.estimatedArrival :=
  ⟨rfl, rfl, rfl, rfl, rfl, rfl, rfl, rfl⟩

theorem FlightStatus.setDelay_of_pos (s : FlightStatus) (now minutes : Int) (reason : String)
    (hm : 0 < minutes) :
    s.setDelay now minutes reason =
      (FlightStatus.addStatusUpdate { s with delayMinutes := minutes } now
        FlightStatus.Status.Delayed reason).updateEstimatedTimes := by
  unfold FlightStatus.setDelay
  simp [hm]

theorem FlightStatus.setDelay_of_cleared (s : FlightStatus) (now minutes : Int) (reason : String)
    (hm : minutes ≤ 0) (hs : s.currentStatus = FlightStatus.Status.Delayed) :
    s.setDelay now minutes reason =
      (FlightStatus.addStatusUpdate { s with delayMinutes := minutes } now
        FlightStatus.Status.OnTime "Delay cleared.").updateEstimatedTimes := by
  unfold FlightStatus.setDelay
  simp [not_lt.2 hm, hs]

theorem FlightStatus.setDelay_of_kept (s : FlightStatus) (now minutes : Int) (reason : String)
    (hm : minutes ≤ 0) (hs : s.currentStatus ≠ FlightStatus.Status.Delayed) :
    s.setDelay now minutes reason =
      FlightStatus.updateEstimatedTimes { s with delayMinutes := minutes } := by
  unfold FlightStatus.setDelay
  simp [not_lt.2 hm, hs]

theorem FlightStatus.setDelay_delayMinutes (s : FlightStatus) (now minutes : Int)
    (reason : String) : (s.setDelay now minutes reason).delayMinutes = minutes := by
  by_cases hm : 0 < minutes
  · rw [FlightStatus.setDelay_of_pos s now minutes reason hm,
      (FlightStatus.updateEstimatedTimes_frame _).2.2.2.1]
    rfl
  · by_cases hs : s.currentStatus = FlightStatus.Status.Delayed
    · rw [FlightStatus.setDelay_of_cleared s now minutes reason (not_lt.1 hm) hs,
        (FlightStatus.updateEstimatedTimes_frame _).2.2.2.1]
      rfl
    · rw [FlightStatus.setDelay_of_kept s now minutes reason (not_lt.1 hm) hs,
        (FlightStatus.updateEstimatedTimes_frame _).2.2.2.1]

theorem FlightStatus.setDelay_ok (s : FlightStatus) (now minutes : Int) (reason : String)
    (h1 : -2147483648 ≤ minutes * 60) (h2 : minutes * 60 ≤ 2147483647) :
    (s.setDelay now minutes reason).EstimatesOk := by
  by_cases hm : 0 < minutes
  · rw [FlightStatus.setDelay_of_pos s now minutes reason hm]
    exact FlightStatus.updateEstimatedTimes_ok _ h1 h2
  · by_cases hs : s.currentStatus = FlightStatus.Status.Delayed
    · rw [FlightStatus.setDelay_of_cleared s now minutes reason (not_lt.1 hm) hs]
      exact FlightStatus.updateEstimatedTimes_ok _ h1 h2
    · rw [FlightStatus.setDelay_of_kept s now minutes reason (not_lt.1 hm) hs]
      exact FlightStatus.updateEstimatedTimes_ok _ h1 h2

/-- The delay in seconds fits an `int` and the estimates follow the schedule. -/
theorem StatusCall.run_ok (s : FlightStatus) (c : StatusCall) (hc : c.DelayFits)
    (h1 : -2147483648 ≤ s.delayMinutes * 60 ∧ s.delayMinutes * 60 ≤ 2147483647)
    (hs : s.EstimatesOk) :
    (-2147483648 ≤ (c.run s).delayMinutes * 60 ∧ (c.run s).delayMinutes * 60 ≤ 2147483647) ∧
    (c.run s).EstimatesOk := by
  cases c with
  | setScheduledDeparture d =>
    have hd : (s.setScheduledDeparture d).delayMinutes = s.delayMinutes :=
      (FlightStatus.updateEstimatedTimes_frame _).2.2.2.1
    refine ⟨?_, FlightStatus.updateEstimatedTimes_ok _ h1.1 h1.2⟩
    show -2147483648 ≤ (s.setScheduledDeparture d).delayMinutes * 60 ∧
      (s.setScheduledDeparture d).delayMinutes * 60 ≤ 2147483647
    rw [hd]
    exact h1
  | setScheduledArrival a =>
    have hd : (s.setScheduledArrival a).delayMinutes = s.delayMinutes :=
      (FlightStatus.updateEstimatedTimes_frame _).2.2.2.1
    refine ⟨?_, FlightStatus.updateEstimatedTimes_ok _ h1.1 h1.2⟩
    show -2147483648 ≤ (s.setScheduledArrival a).delayMinutes * 60 ∧
      (s.setScheduledArrival a).delayMinutes * 60 ≤ 2147483647
    rw [hd]
    exact h1
  | setDelay now m r =>
    refine ⟨?_, FlightStatus.setDelay_ok s now m r hc.1 hc.2⟩
    show -2147483648 ≤ (s.setDelay now m r).delayMinutes * 60 ∧
      (s.setDelay now m r).delayMinutes * 60 ≤ 2147483647
    rw [FlightStatus.setDelay_delayMinutes]
    exact hc
  | updateStatus now st r =>
    have hd : (s.updateStatus now st r).delayMinutes = s.delayMinutes :=
      (FlightStatus.updateEstimatedTimes_frame _).2.2.2.1
    refine ⟨?_, FlightStatus.updateEstimatedTimes_ok _ h1.1 h1.2⟩
    show -2147483648 ≤ (s.updateStatus now st r).delayMinutes * 60 ∧
      (s.updateStatus now st r).delayMinutes * 60 ≤ 2147483647
    rw [hd]
    exact h1
  | setGate g => exact ⟨h1, hs⟩
  | cancel now r => exact ⟨h1, hs⟩
  | divert now d r => exact ⟨h1, hs⟩

theorem StatusCall.foldl_ok (calls : List StatusCall) (s : FlightStatus)
    (hc : ∀ c ∈ calls, c.DelayFits)
    (h1 : -2147483648 ≤ s.delayMinutes * 60 ∧ s.delayMinutes * 60 ≤ 2147483647)
    (hs : s.EstimatesOk) : (calls.foldl StatusCall.run s).EstimatesOk := by
  induction calls generalizing s with
  | nil => exact hs
  | cons c rest ih =>
    have hstep := StatusCall.run_ok s c (hc c (List.mem_cons_self c rest)) h1 hs
    exact ih (c.run s) (fun c2 hc2 => hc c2 (List.mem_cons_of_mem c hc2)) hstep.1 hstep.2

theorem FlightStatus.new_ok (now : Int) :
    (-2147483648 ≤ (FlightStatus.new now).delayMinutes * 60 ∧
      (FlightStatus.new now).delayMinutes * 60 ≤ 2147483647) ∧
    (FlightStatus.new now).EstimatesOk := by
  refine ⟨?_, ?_, ?_⟩
  · show (-2147483648 : Int) ≤ 0 * 60 ∧ (0 : Int) * 60 ≤ 2147483647
    decide
  · intro d hd
    cases hd
  · intro a ha
    cases ha

/-- Counterexample to C25 as stated: on a newly created status object, which is
OnTime, `setDelay(0, reason)` appends no entry to the history. -/
theorem setDelay_zero_appends_nothing :
    ((FlightStatus.new 0).setDelay 1 0 "no delay").statusHistory =
      (FlightStatus.new 0).statusHistory := by
  decide

/-- C25, amended: `updateStatus`, `cancel` and `divert` each append exactly one
entry carrying the gate at the time of the call; `setDelay` appends exactly one
such entry when `minutes > 0` or when the status is Delayed, and otherwise leaves
the history as it is; in every case the old history is a prefix of the new one. -/
theorem history_appended_per_call (s : FlightStatus) (now : Int) (reason : String) :
    (∀ st : FlightStatus.Status,
      (s.updateStatus now st reason).statusHistory = s.statusHistory ++
        [{ status := st, reason := reason, timestamp := some now, gate := s.currentGate }]) ∧
    (s.cancel now reason).statusHistory = s.statusHistory ++
      [{ status := FlightStatus.Status.Cancelled, reason := reason, timestamp := some now,
         gate := s.currentGate }] ∧
    (∀ dest : String,
      (s.divert now dest reason).statusHistory = s.statusHistory ++
        [{ status := FlightStatus.Status.Diverted, reason := reason, timestamp := some now,
           gate := s.currentGate }]) ∧
    (∀ minutes : Int, 0 < minutes →
      (s.setDelay now minutes reason).statusHistory = s.statusHistory ++
        [{ status := FlightStatus.Status.Delayed, reason := reason, timestamp := some now,
           gate := s.currentGate }]) ∧
    (∀ minutes : Int, minutes ≤ 0 → s.currentStatus = FlightStatus.Status.Delayed →
      (s.setDelay now minutes reason).statusHistory = s.statusHistory ++
        [{ status := FlightStatus.Status.OnTime, reason := "Delay cleared.",
           timestamp := some now, gate := s.currentGate }]) ∧
    (∀ minutes : Int, minutes ≤ 0 → s.currentStatus ≠ FlightStatus.Status.Delayed →
      (s.setDelay now minutes reason).statusHistory = s.statusHistory) ∧
    (∀ (minutes : Int) (st : FlightStatus.Status) (dest : String),
      s.statusHistory <+: (s.updateStatus now st reason).statusHistory ∧
      s.statusHistory <+: (s.setDelay now minutes reason).statusHistory ∧
      s.statusHistory <+: (s.cancel now reason).statusHistory ∧
      s.statusHistory <+: (s.divert now dest reason).statusHistory) := by
  have hup : ∀ st : FlightStatus.Status,
      (s.updateStatus now st reason).statusHistory = s.statusHistory ++
        [{ status := st, reason := reason, timestamp := some now, gate := s.currentGate }] := by
    intro st
    unfold FlightStatus.updateStatus
    rw [(FlightStatus.updateEstimatedTimes_frame _).1]
    rfl
  have hpos : ∀ minutes : Int, 0 < minutes →
      (s.setDelay now minutes reason).statusHistory = s.statusHistory ++
        [{ status := FlightStatus.Status.Delayed, reason := reason, timestamp := some now,
           gate := s.currentGate }] := by
    intro m hm
    rw [FlightStatus.setDelay_of_pos s now m reason hm, (FlightStatus.updateEstimatedTimes_frame _).1]
    rfl
  have hclr : ∀ minutes : Int, minutes ≤ 0 → s.currentStatus = FlightStatus.Status.Delayed →
      (s.setDelay now minutes reason).statusHistory = s.statusHistory ++
        [{ status := FlightStatus.Status.OnTime, reason := "Delay cleared.",
           timestamp := some now, gate := s.currentGate }] := by
    intro m hm hs
    rw [FlightStatus.setDelay_of_cleared s now m reason hm hs,
      (FlightStatus.updateEstimatedTimes_frame _).1]
    rfl
  have hkeep : ∀ minutes : Int, minutes ≤ 0 → s.currentStatus ≠ FlightStatus.Status.Delayed →
      (s.setDelay now minutes reason).statusHistory = s.statusHistory := by
    intro m hm hs
    rw [FlightStatus.setDelay_of_kept s now m reason hm hs,
      (FlightStatus.updateEstimatedTimes_frame _).1]
  refine ⟨hup, rfl, fun _ => rfl, hpos, hclr, hkeep, ?_⟩
  intro m st dest
  refine ⟨?_, ?_, ?_, ?_⟩
  · rw [hup st]
    exact List.prefix_append _ _
  · by_cases hm : 0 < m
    · rw [hpos m hm]
      exact List.prefix_append _ _
    · by_cases hs : s.currentStatus = FlightStatus.Status.Delayed
      · rw [hclr m (not_lt.1 hm) hs]
        exact List.prefix_append _ _
      · rw [hkeep m (not_lt.1 hm) hs]
  · exact List.prefix_append _ _
  · exact List.prefix_append _ _

/-- C26: for `minutes <= 0`, after `setDelay` the status is OnTime if it was Delayed
and is otherwise the status before the call; for `minutes > 0` it is Delayed. -/
theorem setDelay_status (s : FlightStatus) (now minutes : Int) (reason : String) :
    (minutes ≤ 0 →
      (s.setDelay now minutes reason).currentStatus =
        if s.currentStatus = FlightStatus.Status.Delayed then FlightStatus.Status.OnTime
        else s.currentStatus) ∧
    (0 < minutes → (s.setDelay now minutes reason).currentStatus = FlightStatus.Status.Delayed) := by
  refine ⟨fun hm => ?_, fun hm => ?_⟩
  · by_cases hs : s.currentStatus = FlightStatus.Status.Delayed
    · rw [FlightStatus.setDelay_of_cleared s now minutes reason hm hs,
        (FlightStatus.updateEstimatedTimes_frame _).2.1, if_pos hs]
      rfl
    · rw [FlightStatus.setDelay_of_kept s now minutes reason hm hs,
        (FlightStatus.updateEstimatedTimes_frame _).2.1, if_neg hs]
  · rw [FlightStatus.setDelay_of_pos s now minutes reason hm,
      (FlightStatus.updateEstimatedTimes_frame _).2.1]
    rfl

/-- C27: after any sequence of `setScheduledDeparture`, `setScheduledArrival`,
`setDelay`, `updateStatus`, `setGate`, `cancel` and `divert` on a new status object,
with every delay such that the `int` product `delayMinutes * 60` is defined, a valid
scheduled departure gives estimated departure = scheduled + 60 * delayMinutes, and
a valid scheduled arrival gives estimated arrival = scheduled + 60 * delayMinutes. -/
theorem estimates_follow_schedule (now : Int) (calls : List StatusCall)
    (hfit : ∀ c ∈ calls, c.DelayFits) :
    (∀ d, (calls.foldl StatusCall.run (FlightStatus.new now)).scheduledDeparture = some d →
      (calls.foldl StatusCall.run (FlightStatus.new now)).estimatedDeparture =
        some (d + 60 * (calls.foldl StatusCall.run (FlightStatus.new now)).delayMinutes)) ∧
    (∀ a, (calls.foldl StatusCall.run (FlightStatus.new now)).scheduledArrival = some a →
      (calls.foldl StatusCall.run (FlightStatus.new now)).estimatedArrival =
        some (a + 60 * (calls.foldl StatusCall.run (FlightStatus.new now)).delayMinutes)) :=
  StatusCall.foldl_ok calls (FlightStatus.new now) hfit (FlightStatus.new_ok now).1
    (FlightStatus.new_ok now).2

/-- Witness for C27: departure scheduled at 1000 s, arrival at 9000 s, then a delay
of 15 minutes: the estimates are 1900 s and 9900 s. -/
theorem estimates_follow_schedule_witness :
    ([StatusCall.setScheduledDeparture (some 1000), StatusCall.setScheduledArrival (some 9000),
        StatusCall.setDelay 5 15 "late crew"].foldl StatusCall.run
        (FlightStatus.new 0)).estimatedDeparture = some 1900 ∧
    ([StatusCall.setScheduledDeparture (some 1000), StatusCall.setScheduledArrival (some 9000),
        StatusCall.setDelay 5 15 "late crew"].foldl StatusCall.run
        (FlightStatus.new 0)).estimatedArrival = some 9900 := by
  have key := estimates_follow_schedule 0
    [StatusCall.setScheduledDeparture (some 1000), StatusCall.setScheduledArrival (some 9000),
      StatusCall.setDelay 5 15 "late crew"]
    (by
      intro c hc
      simp only [List.mem_cons, List.mem_singleton, List.not_mem_nil, or_false] at hc
      rcases hc with rfl | rfl | rfl
      · trivial
      · trivial
      · exact ⟨by decide, by decide⟩)
  exact ⟨key.1 1000 (by decide), key.2 9000 (by decide)⟩

/-! ## Baggage -/

theorem Nat.digitChar_value (m : Nat) (h : m < 10) : (Nat.digitChar m).toNat - 48 = m := by
  interval_cases m <;> rfl

theorem foldl_toDigitsCore (fuel : Nat) :
    ∀ (n : Nat) (ds : List Char), n < fuel →
      (Nat.toDigitsCore 10 fuel n ds).foldl (fun v c => 10 * v + (c.toNat - 48)) 0 =
        ds.foldl (fun v c => 10 * v + (c.toNat - 48)) n := by
  induction fuel with
  | zero => intro n ds hn; exact absurd hn (Nat.not_lt_zero n)
  | succ fuel ih =>
    intro n ds hn
    unfold Nat.toDigitsCore
    by_cases h0 : n / 10 = 0
    · simp only [h0, if_true, List.foldl_cons]
      have hlt : n < 10 := by omega
      rw [Nat.digitChar_value (n % 10) (Nat.mod_lt n (by decide)), Nat.mod_eq_of_lt hlt]
      simp
    · simp only [h0, if_false]
      rw [ih (n / 10) _ (by omega), List.foldl_cons,
        Nat.digitChar_value (n % 10) (Nat.mod_lt n (by decide))]
      congr 1
      omega

theorem digitsValue_repr (k : Nat) : digitsValue (Nat.repr k).data = k := by
  unfold digitsValue Nat.repr Nat.toDigits
  simp only [List.asString]
  rw [foldl_toDigitsCore (k + 1) k [] (Nat.lt_succ_self k)]
  rfl

theorem digitsValue_zeros (m : Nat) (l : List Char) :
    digitsValue (List.replicate m '0' ++ l) = digitsValue l := by
  unfold digitsValue
  induction m with
  | zero => rfl
  | succ m ih =>
    rw [List.replicate_succ, List.cons_append, List.foldl_cons]
    exact ih

theorem specTag_injective (a b : Nat) (h : specTag a = specTag b) : a = b := by
  unfold specTag at h
  have h1 := List.append_cancel_left (congrArg String.data h)
  have h2 := congrArg digitsValue h1
  rwa [digitsValue_zeros, digitsValue_zeros, digitsValue_repr, digitsValue_repr] at h2

theorem Baggage.generateTagNumber_of_nat (b : Baggage) (k : Nat) (hk : b.nextTagNumber = k)
    (hlt : k < 2147483647) :
    b.generateTagNumber = (specTag k, { b with nextTagNumber := ((k + 1 : Nat) : Int) }) := by
  unfold Baggage.generateTagNumber specTag qArgPadded
  rw [hk, wrapInt32_of_range _ (by omega) (by omega)]
  rfl

theorem Baggage.generateTagNumber_fst (b : Baggage) (k : Nat) (hk : b.nextTagNumber = k) :
    b.generateTagNumber.1 = specTag k := by
  unfold Baggage.generateTagNumber specTag qArgPadded
  rw [hk]
  rfl

theorem Baggage.updateFirst_fixed (now : Int) (tag : String) (st : Baggage.Status)
    (loc : String) (l : List Baggage.BaggageTag) :
    (Baggage.updateFirst now tag st loc l).map Baggage.BaggageTag.fixedPart =
      l.map Baggage.BaggageTag.fixedPart := by
  induction l with
  | nil => rfl
  | cons bag rest ih =>
    unfold Baggage.updateFirst
    by_cases hb : bag.tagNumber = tag
    · simp [hb, Baggage.BaggageTag.fixedPart]
    · simp [hb, ih]

theorem Baggage.map_tagNumber_of_fixed (l1 l2 : List Baggage.BaggageTag)
    (h : l1.map Baggage.BaggageTag.fixedPart = l2.map Baggage.BaggageTag.fixedPart) :
    l1.map (fun t => t.tagNumber) = l2.map (fun t => t.tagNumber) := by
  have h2 := congrArg (List.map Prod.fst) h
  simpa [List.map_map, Function.comp_def, Baggage.BaggageTag.fixedPart] using h2

/-- The ledger holds the tags 1..n in order and the counter stands at n + 1. -/
theorem BaggageCall.run_tags (b : Baggage) (c : BaggageCall) (n : Nat)
    (htags : b.bags.map (fun t => t.tagNumber) = (List.range n).map (fun i => specTag (i + 1)))
    (hnext : b.nextTagNumber = ((n + 1 : Nat) : Int))
    (hn : n + (if c.isCheckBag then 1 else 0) < 2147483647) :
    (c.run b).bags.map (fun t => t.tagNumber) =
        (List.range (n + (if c.isCheckBag then 1 else 0))).map (fun i => specTag (i + 1)) ∧
      (c.run b).nextTagNumber = ((n + (if c.isCheckBag then 1 else 0) + 1 : Nat) : Int) := by
  have hupd : ∀ (now : Int) (tag : String) (st : Baggage.Status) (loc : String),
      (b.updateStatus now tag st loc).bags.map (fun t => t.tagNumber) =
          (List.range (n + 0)).map (fun i => specTag (i + 1)) ∧
        (b.updateStatus now tag st loc).nextTagNumber = ((n + 0 + 1 : Nat) : Int) := by
    intro now tag st loc
    refine ⟨?_, hnext⟩
    rw [Nat.add_zero, ← htags]
    exact Baggage.map_tagNumber_of_fixed _ _ (Baggage.updateFirst_fixed now tag st loc b.bags)
  cases c with
  | checkBag now w d fr =>
    simp only [BaggageCall.isCheckBag, if_true] at hn ⊢
    show ((b.checkBag now w d fr).2.bags.map (fun t => t.tagNumber) = _) ∧
      (b.checkBag now w d fr).2.nextTagNumber = _
    unfold Baggage.checkBag
    simp only [Baggage.updateTotalWeight]
    rw [Baggage.generateTagNumber_of_nat b (n + 1) hnext hn]
    simp only [List.map_append, List.map_cons, List.map_nil, htags, List.range_succ]
    exact ⟨trivial, trivial⟩
  | updateStatus now t st loc => exact hupd now t st loc
  | markAsLost now t => exact hupd now t _ _
  | markAsDamaged now t => exact hupd now t _ _
  | claim now t => exact hupd now t _ _

theorem BaggageCall.foldl_tags (calls : List BaggageCall) :
    ∀ (b : Baggage) (n : Nat),
      b.bags.map (fun t => t.tagNumber) = (List.range n).map (fun i => specTag (i + 1)) →
      b.nextTagNumber = ((n + 1 : Nat) : Int) →
      n + calls.countP BaggageCall.isCheckBag < 2147483647 →
      (calls.foldl BaggageCall.run b).bags.map (fun t => t.tagNumber) =
          (List.range (n + calls.countP BaggageCall.isCheckBag)).map (fun i => specTag (i + 1)) ∧
        (calls.foldl BaggageCall.run b).nextTagNumber =
          ((n + calls.countP BaggageCall.isCheckBag + 1 : Nat) : Int) := by
  induction calls with
  | nil => intro b n h1 h2 _; exact ⟨h1, h2⟩
  | cons c rest ih =>
    intro b n h1 h2 hn
    rw [List.countP_cons] at hn ⊢
    have hstep := BaggageCall.run_tags b c n h1 h2 (by omega)
    have := ih (c.run b) (n + (if c.isCheckBag then 1 else 0)) hstep.1 hstep.2 (by omega)
    rw [List.foldl_cons]
    have he : n + (List.countP BaggageCall.isCheckBag rest + if c.isCheckBag = true then 1 else 0) =
        n + (if c.isCheckBag = true then 1 else 0) + List.countP BaggageCall.isCheckBag rest := by
      omega
    rw [he]
    exact this

theorem specTags_nodup (n : Nat) : ((List.range n).map (fun i => specTag (i + 1))).Nodup := by
  refine List.Nodup.map_on ?_ (List.nodup_range n)
  intro a _ b _ hab
  exact Nat.succ_injective (specTag_injective _ _ hab)

/-- C29: on a new ledger, after any calls of which `n` are `checkBag` (with the
`int` counter in range), the next `checkBag` returns "BAG" followed by n + 1 in
decimal, zero-padded to at least 6 digits; the tags in the ledger are those of
1..n in order, hence pairwise distinct; `getCount` is `n`; and `updateStatus`,
`markAsLost`, `markAsDamaged` and `claim` change no tag number, weight or
oversize flag. -/
theorem baggage_tags_sequential (calls : List BaggageCall)
    (hn : calls.countP BaggageCall.isCheckBag < 2147483647) :
    (∀ (now : Int) (w : ℚ) (d : String) (fr : Bool),
      ((calls.foldl BaggageCall.run Baggage.new).checkBag now w d fr).1 =
        specTag (calls.countP BaggageCall.isCheckBag + 1)) ∧
    (calls.foldl BaggageCall.run Baggage.new).bags.map (fun t => t.tagNumber) =
      (List.range (calls.countP BaggageCall.isCheckBag)).map (fun i => specTag (i + 1)) ∧
    ((calls.foldl BaggageCall.run Baggage.new).bags.map (fun t => t.tagNumber)).Nodup ∧
    (calls.foldl BaggageCall.run Baggage.new).getCount = calls.countP BaggageCall.isCheckBag ∧
    (∀ (b : Baggage) (now : Int) (tag : String) (st : Baggage.Status) (loc : String),
      (b.updateStatus now tag st loc).bags.map Baggage.BaggageTag.fixedPart =
          b.bags.map Baggage.BaggageTag.fixedPart ∧
        (b.markAsLost now tag).bags.map Baggage.BaggageTag.fixedPart =
          b.bags.map Baggage.BaggageTag.fixedPart ∧
        (b.markAsDamaged now tag).bags.map Baggage.BaggageTag.fixedPart =
          b.bags.map Baggage.BaggageTag.fixedPart ∧
        (b.claim now tag).bags.map Baggage.BaggageTag.fixedPart =
          b.bags.map Baggage.BaggageTag.fixedPart) := by
  have key := BaggageCall.foldl_tags calls Baggage.new 0 rfl rfl (by omega)
  rw [Nat.zero_add] at key
  refine ⟨?_, key.1, ?_, ?_, ?_⟩
  · intro now w d fr
    unfold Baggage.checkBag
    exact Baggage.generateTagNumber_fst _ _ key.2
  · rw [key.1]
    exact specTags_nodup _
  · unfold Baggage.getCount
    have hlen := congrArg List.length key.1
    rw [List.length_map, List.length_map, List.length_range] at hlen
    rw [hlen]
    exact wrapInt32_of_range _ (by omega) (by omega)
  · intro b now tag st loc
    exact ⟨Baggage.updateFirst_fixed now tag st loc b.bags,
      Baggage.updateFirst_fixed now tag _ _ b.bags,
      Baggage.updateFirst_fixed now tag _ _ b.bags,
      Baggage.updateFirst_fixed now tag _ _ b.bags⟩

/-- Witness for C29: after two bags were checked, one of them marked lost in
between, the third `checkBag` returns "BAG000003". -/
theorem baggage_tags_sequential_witness :
    (([BaggageCall.checkBag 0 10 "case" false, BaggageCall.markAsLost 1 "BAG000001",
        BaggageCall.checkBag 2 30 "skis" true].foldl BaggageCall.run Baggage.new).checkBag
      3 5 "box" false).1 = "BAG000003" :=
  ((baggage_tags_sequential
    [BaggageCall.checkBag 0 10 "case" false, BaggageCall.markAsLost 1 "BAG000001",
      BaggageCall.checkBag 2 30 "skis" true] (by decide)).1 3 5 "box" false).trans (by decide)

/-! ## Airline: search -/

/-- The flights returned by `searchFlights` are those matching on one of the three
fields with case ignored, in registration order. -/
theorem Airline.searchFlights_eq (a : Airline) (q : String) :
    a.searchFlights q = a.flights.filter (fun f =>
      caseInsensitiveSubstring q f.flightNumber || caseInsensitiveSubstring q f.origin ||
        caseInsensitiveSubstring q f.destination) := rfl

theorem Airline.searchPassengers_single (n : String) (f : Flight) (h : Heap) (q : String) :
    Airline.searchPassengers { name := n, flights := [f] } h q =
      f.passengers.filter (fun p => Airline.passengerMatches q (h p)) := by
  simp [Airline.searchPassengers, Flight.getAllPassengers]

theorem phoneFlight_passengers : phoneFlight.passengers = [0] := by
  unfold phoneFlight
  rw [Flight.addPassenger_of_unseated sampleFlight phoneHeap 0 rfl]
  simp only []
  unfold sampleFlight
  rw [Flight.new_passengers]
  rfl

/-- C21 fails on the code: the passenger at address 0 is on the roster of the only
flight and "fly" is a case-insensitive substring of the phone number
"1-800-FLY-AWAY", yet `searchPassengers("fly")` returns nothing, because the phone
number is compared with the query as given, not lowercased like the names. -/
theorem searchPassengers_phone_is_case_sensitive :
    (0 : PassengerRef) ∈ phoneFlight.passengers ∧
    caseInsensitiveSubstring "fly" (phoneHeap 0).phoneNumber = true ∧
    Airline.searchPassengers { name := "Air", flights := [phoneFlight] } phoneHeap "fly" = [] ∧
    Airline.searchPassengers { name := "Air", flights := [phoneFlight] } phoneHeap "FLY" = [0] := by
  refine ⟨?_, by decide, ?_, ?_⟩
  · rw [phoneFlight_passengers]
    exact List.mem_singleton_self 0
  · rw [Airline.searchPassengers_single, phoneFlight_passengers]
    decide
  · rw [Airline.searchPassengers_single, phoneFlight_passengers]
    decide

end FlightOps
